import Mathlib

/-!
# MagicPoi Lite firmware: timeline playback scheduler and pattern engine

A shallow embedding of `TimelineManager` (`src/include/TimelineManager.h`,
`src/src/TimelineManager.cpp`) with theorems about its scheduler tick
`checkTimelineData` and its decoder `processTimelineData`, and of
`ColourPatterns` (`src/include/ColourPatterns.h`, `src/src/ColourPatterns.cpp`)
with theorems about `changeColours`.

Conventions of the embedding.

* The target is the ESP8266: `int` and `long` are 32 bit two's complement,
  `unsigned long` (the type of `millis()`) is 32 bit.  Values of `long` fields are
  kept as `Int`; every conversion the C++ code performs is written out
  (`toLong`, `toUint8`).
* The fixed arrays `timings[50]`, `colours[50]`, `timeline_keys[10]` are
  functions on `Fin 50` / `Fin 10`.  An access with an index outside the array
  has no defined behaviour in C++; the embedding returns `none` for it.
* A tick records the array reads it performs (`Access`), in program order.
* Clock values are integers; `toULong` reduces them to the 32 bit reading that
  `millis()` returns.  `checkTimelineData` calls `millis()` twice;
  `checkTimelineDataAt` takes both readings and `checkTimelineData` is the tick
  during which the counter does not change.
-/

namespace MagicPoi

/-! ## Machine integers -/

/-- Conversion of an integer to the 32 bit `long` with the same bit pattern
(two's complement), as performed by `long x = <unsigned long>`. -/
def toLong (x : Int) : Int :=
  (x + 2147483648) % 4294967296 - 2147483648

/-- Conversion of an integer to `unsigned long` (32 bit). -/
def toULong (x : Int) : Int :=
  x % 4294967296

/-- Conversion of an `int` to `uint8_t`. -/
def toUint8 (x : Int) : Nat :=
  (x % 256).toNat

/-- The value of `millis() - playStartTime` stored into the `long`
`currentMillisTimeline`: `playStartTime` is converted to `unsigned long`, the
subtraction is done modulo `2^32`, and the result is converted back to `long`.
`now` is the value of the free-running millisecond counter; `toULong` reduces
it to the 32 bit reading that `millis()` returns. -/
def elapsed (now : Int) (playStartTime : Int) : Int :=
  toLong (toULong (toULong (now : Int) - toULong playStartTime))

/-! ## Arrays with checked indices -/

/-- The slot of an `n`-element array designated by the C index `i`, if any. -/
def slot (n : Nat) (i : Int) : Option (Fin n) :=
  if h : 0 ≤ i ∧ i < (n : Int) then some ⟨i.toNat, by omega⟩ else none

/-- Read `a[i]`; `none` when `i` is outside the array. -/
def readAt {α : Type} {n : Nat} (a : Fin n → α) (i : Int) : Option α :=
  (slot n i).map a

/-- Write `a[i] = v`; `none` when `i` is outside the array. -/
def writeAt {α : Type} {n : Nat} (a : Fin n → α) (i : Int) (v : α) : Option (Fin n → α) :=
  (slot n i).map (fun j => Function.update a j v)

/-! ## The data model (`TimelineManager.h`) -/

/-- The fields of `TimelineManager` that the decoder and the scheduler use.
The network and file members (`client`, `token`, `jwtToken`, paths) and the
unused `flashes[50]` are left out. -/
structure TimelineManager where
  gotToken : Bool
  timeline_keys : Fin 10 → String
  timings : Fin 50 → Int
  colours : Fin 50 → Nat
  signal : Nat
  currentMillisTimeline : Int
  playing : Bool
  maxTimingsNum : Int
  runNum : Int
  playStartTime : Int
  redInt : Int
  greenInt : Int
  blueInt : Int
  already_got_data : Bool

/-- The object as constructed: the in-class initialisers of the header; the
arrays of the global object `tm` are zero-initialised. -/
def TimelineManager.init : TimelineManager where
  gotToken := false
  timeline_keys := fun _ => ""
  timings := fun _ => 0
  colours := fun _ => 0
  signal := 0
  currentMillisTimeline := 0
  playing := true
  maxTimingsNum := 50
  runNum := 0
  playStartTime := 0
  redInt := 1
  greenInt := 1
  blueInt := 1
  already_got_data := false

/-- `setPlaying`. -/
def setPlaying (s : TimelineManager) (setting : Bool) : TimelineManager :=
  { s with playing := setting }

/-- `setAlreadyGotData`. -/
def setAlreadyGotData (s : TimelineManager) (setting : Bool) : TimelineManager :=
  { s with already_got_data := setting }

/-- `setToken`. -/
def setToken (s : TimelineManager) (setting : Bool) : TimelineManager :=
  { s with gotToken := setting }

/-! ## The scheduler tick (`checkTimelineData`) -/

/-- One array read performed by a tick. -/
inductive Access where
  | timings (i : Int)
  | colours (i : Int)
deriving DecidableEq, Repr

/-- The index of an access. -/
def Access.index : Access → Int
  | Access.timings i => i
  | Access.colours i => i

/-- Outcome of one call of `checkTimelineData`: the object afterwards, the
returned `uint8_t`, and the array reads performed, in program order. -/
structure Tick where
  state : TimelineManager
  ret : Nat
  reads : List Access

/-- The boundary guard at the head of `checkTimelineData`:
`if (runNum > maxTimingsNum - 2) { runNum = 0; playStartTime = millis(); }`. -/
def wrapGuard (s : TimelineManager) (now : Int) : TimelineManager :=
  if s.runNum > s.maxTimingsNum - 2 then
    { s with runNum := 0, playStartTime := toLong (toULong (now : Int)) }
  else s

/-- The body guarded by `if (timings[runNum] > 0)`, entered with
`tr = timings[runNum]` already read and positive.  `now` is the reading of the
`millis()` call that computes `currentMillisTimeline`. -/
def timedStep (s : TimelineManager) (now : Int) (tr : Int) : Option Tick :=
  let e := elapsed now s.playStartTime
  let s1 := { s with currentMillisTimeline := e }
  let r0 := [Access.timings s.runNum, Access.timings 0]
  if e < s.timings 0 then
    -- not yet at the first offset
    some ⟨s1, s1.signal, r0⟩
  else if e ≥ tr then
    -- `&&` evaluates its right operand `timings[runNum + 1]`
    match readAt s.timings (s.runNum + 1) with
    | none => none
    | some tn =>
      let r1 := r0 ++ [Access.timings s.runNum, Access.timings (s.runNum + 1)]
      if e ≤ tn then
        match readAt s.colours s.runNum with
        | none => none
        | some c =>
          some ⟨{ s1 with signal := c, runNum := s.runNum + 1 }, c,
                r1 ++ [Access.colours s.runNum]⟩
      else if e ≥ tn then
        some ⟨{ s1 with runNum := s.maxTimingsNum }, s1.signal,
              r1 ++ [Access.timings (s.runNum + 1)]⟩
      else
        some ⟨s1, s1.signal, r1 ++ [Access.timings (s.runNum + 1)]⟩
  else
    -- `&&` short-circuits; the next `else if` reads `timings[runNum + 1]`
    match readAt s.timings (s.runNum + 1) with
    | none => none
    | some tn =>
      let r1 := r0 ++ [Access.timings s.runNum, Access.timings (s.runNum + 1)]
      if e ≥ tn then
        some ⟨{ s1 with runNum := s.maxTimingsNum }, s1.signal, r1⟩
      else
        some ⟨s1, s1.signal, r1⟩

/-- The function `checkTimelineData`, with the two `millis()` calls of its body
made explicit: `t1` is read by the boundary guard, `t2` by the computation of
`currentMillisTimeline`. -/
def checkTimelineDataAt (s : TimelineManager) (t1 t2 : Int) : Option Tick :=
  if s.playing then
    let s1 := wrapGuard s t1
    match readAt s1.timings s1.runNum with
    | none => none
    | some tr =>
      if tr > 0 then timedStep s1 t2 tr
      else some ⟨s1, s1.signal, [Access.timings s1.runNum]⟩
  else
    some ⟨s, s.signal, []⟩

/-- A tick at clock reading `now`: a call of `checkTimelineData` during which
the millisecond counter reads `now` throughout.  When the guard is not taken
the function reads the clock once and this is `checkTimelineDataAt s t now` for
every `t`; when the guard is taken and the counter advances between the two
reads, `checkTimelineDataAt` is the function. -/
def checkTimelineData (s : TimelineManager) (now : Int) : Option Tick :=
  checkTimelineDataAt s now now

/-! ## The decoder (`processTimelineData`) -/

/-- The parsed document `led_doc` as the decoder uses it: `keys` are the keys of
the root object in the order `for (JsonPair kv : root)` yields them, and
`elem k j` is `led_doc[k][j].as<int>()`.  The JSON parser itself is a library
outside the repository. -/
structure JsonDocument where
  keys : List String
  elem : String → Nat → Int

/-- The characters of a key seen as a C string (up to the first NUL). -/
def cstr (k : String) : List Char :=
  k.data.takeWhile (fun c => c.toNat ≠ 0)

/-- The C library predicate `isspace` (C locale). -/
def isspace (c : Char) : Bool :=
  c.toNat = 32 || (9 ≤ c.toNat && c.toNat ≤ 13)

/-- The C library predicate `isdigit`. -/
def isdigit (c : Char) : Bool :=
  48 ≤ c.toNat && c.toNat ≤ 57

/-- Value accumulated by `strtol` over a run of digits, most significant first. -/
def digitsValue (ds : List Char) : Nat :=
  ds.foldl (fun acc c => 10 * acc + (c.toNat - 48)) 0

/-- The C library function `atol`, i.e. `strtol(s, NULL, 10)`: leading white
space is skipped, an optional sign is read, then the longest run of digits.  A
value outside the range of the 32 bit `long` is clamped to `LONG_MAX`
(`2147483647`) or `LONG_MIN` (`-2147483648`) as newlib's `strtol` does (ISO C
leaves that case undefined). -/
def atol (s : List Char) : Int :=
  match s.dropWhile isspace with
  | '-' :: r => -((min (digitsValue (r.takeWhile isdigit)) 2147483648 : Nat) : Int)
  | '+' :: r => ((min (digitsValue (r.takeWhile isdigit)) 2147483647 : Nat) : Int)
  | r => ((min (digitsValue (r.takeWhile isdigit)) 2147483647 : Nat) : Int)

/-- The first loop of `processTimelineData`:
`timeline_keys[iter] = kv.key().c_str(); iter++;` for every pair of the root
object.  Returns the final `iter` and the key array. -/
def storeKeys : List String → Int → (Fin 10 → String) → Option (Int × (Fin 10 → String))
  | [], iter, tk => some (iter, tk)
  | k :: rest, iter, tk =>
    match writeAt tk iter k with
    | none => none
    | some tk1 => storeKeys rest (iter + 1) tk1

/-- One iteration of the second loop of `processTimelineData`, at index `i`:
`colours[i] = redInt; timings[i] = atol(timeline_keys[i]);` unless the key is
the empty string.  Both arrays have 50 slots, so one index check serves both
writes. -/
def decodeEntry (doc : JsonDocument) (s : TimelineManager) (i : Int) : Option TimelineManager :=
  match readAt s.timeline_keys i with
  | none => none
  | some key =>
    if cstr key = [] then
      -- `timeline_keys[i][0] == '\0'`
      some s
    else
      match slot 50 i with
      | none => none
      | some j =>
        some { s with redInt := doc.elem key 0,
                      colours := Function.update s.colours j (toUint8 (doc.elem key 0)),
                      timings := Function.update s.timings j (atol (cstr key)),
                      greenInt := doc.elem key 1, blueInt := doc.elem key 2 }

/-- The second loop, `for (int i = 0; i < iter; i++)`: `n` iterations remain and
the loop variable is `i`. -/
def decodeLoop (doc : JsonDocument) : Nat → Int → TimelineManager → Option TimelineManager
  | 0, _, s => some s
  | n + 1, i, s =>
    match decodeEntry doc s i with
    | none => none
    | some s1 => decodeLoop doc n (i + 1) s1

/-- Outcome of `processTimelineData`: the object afterwards and, when the
function called `clearTimeline`, the argument of that call. -/
structure Load where
  state : TimelineManager
  cleared : Option String

/-- The function `processTimelineData`.  `doc` is the parsed payload, `now` the
reading of `millis()`, and `timelineNumber` the reply of `getTimelineNumber()`.
`getTimelineNumber` and `clearTimeline` are network and storage calls; they are
represented by the reply and by the recorded request and write no field of the
data model when they return. -/
def processTimelineData (s : TimelineManager) (doc : JsonDocument)
    (timelineNumber : String) (now : Int) : Option Load :=
  match storeKeys doc.keys 0 s.timeline_keys with
  | none => none
  | some (iter, tk) =>
    let s1 := { s with timeline_keys := tk }
    if iter = 0 then
      some ⟨{ s1 with already_got_data := false, gotToken := false }, some timelineNumber⟩
    else
      match decodeLoop doc iter.toNat 0 { s1 with maxTimingsNum := iter } with
      | none => none
      | some s2 =>
        some ⟨{ s2 with already_got_data := true,
                        playStartTime := toLong (toULong (now : Int)) }, none⟩

/-! ## Runs -/

/-- The signals returned by successive ticks at the given clock readings. -/
def signalsFrom (s : TimelineManager) : List Int → Option (List Nat)
  | [] => some []
  | t :: ts =>
    match checkTimelineData s t with
    | none => none
    | some r => (signalsFrom r.state ts).map (fun l => r.ret :: l)

/-- The states reachable from the constructed object by loads, ticks (each with
the readings of its two `millis()` calls) and the setters. -/
inductive Reachable : TimelineManager → Prop where
  | init : Reachable TimelineManager.init
  | load {s : TimelineManager} {r : Load} (doc : JsonDocument) (tn : String) (now : Int) :
      Reachable s → processTimelineData s doc tn now = some r → Reachable r.state
  | tick {s : TimelineManager} {r : Tick} (t1 t2 : Int) :
      Reachable s → checkTimelineDataAt s t1 t2 = some r → Reachable r.state
  | setPlaying {s : TimelineManager} (b : Bool) : Reachable s → Reachable (setPlaying s b)
  | setAlreadyGotData {s : TimelineManager} (b : Bool) :
      Reachable s → Reachable (setAlreadyGotData s b)
  | setToken {s : TimelineManager} (b : Bool) : Reachable s → Reachable (setToken s b)

/-! ## Example data -/

/-- A table given by its leading entries; the remaining slots hold `d`. -/
def tableOf {α : Type} (d : α) (l : List α) : Fin 50 → α :=
  fun i => l.getD i.val d

/-- A playing object holding the table `ts`/`cs` with `n` events. -/
def playingAt (ts : List Int) (cs : List Nat) (n run start : Int) (sig : Nat) :
    TimelineManager :=
  { TimelineManager.init with
    timings := tableOf 0 ts, colours := tableOf 0 cs, maxTimingsNum := n,
    runNum := run, playStartTime := start, signal := sig, already_got_data := true }

/-- A document holding the given `(key, [r, g, b])` members. -/
def docOf (l : List (String × Int × Int × Int)) : JsonDocument where
  keys := l.map Prod.fst
  elem := fun k j =>
    match l.lookup k with
    | none => 0
    | some (r, g, b) => if j = 0 then r else if j = 1 then g else if j = 2 then b else 0

/-- The payload of the example in section 8 of the specification. -/
def specExampleDoc : JsonDocument :=
  docOf [("0", 0, 0, 0), ("500", 1, 0, 0), ("1000", 2, 0, 0)]

/-! ## The pattern engine (`ColourPatterns.h`, `ColourPatterns.cpp`) -/

/-- The three LED channels, i.e. the pins `redLed`, `greenLed`, `blueLed` of the
object (three distinct pins). -/
inductive Channel where
  | red
  | green
  | blue
deriving DecidableEq, Repr

/-- One call `digitalWrite(pin, level)` on an LED pin; `true` is `HIGH`. -/
structure PinWrite where
  channel : Channel
  level : Bool
deriving DecidableEq, Repr

/-- The levels of the three LED pins. -/
structure Leds where
  red : Bool
  green : Bool
  blue : Bool
deriving DecidableEq, Repr

/-- The pin levels after one `digitalWrite`. -/
def Leds.write (l : Leds) (w : PinWrite) : Leds :=
  match w.channel with
  | Channel.red => { l with red := w.level }
  | Channel.green => { l with green := w.level }
  | Channel.blue => { l with blue := w.level }

/-- The pin levels after a sequence of `digitalWrite` calls. -/
def Leds.apply (l : Leds) (ws : List PinWrite) : Leds :=
  ws.foldl Leds.write l

/-- The mutable members of `ColourPatterns`.  Each field holds a value of its
C++ type (`int`, `unsigned int`, `unsigned long`, all 32 bit); `ledState` is
`LOW = 0` or `HIGH = 1`.  The pin numbers are constant and left out. -/
structure ColourPatterns where
  previousMillis : Int
  rainbowWay : Int
  threeWay : Int
  ledState : Int
  upDownFade : Bool
  fadeSpeed : Int
  interval : Int
deriving DecidableEq, Repr

/-- The object as the constructor leaves it. -/
def ColourPatterns.init : ColourPatterns where
  previousMillis := 0
  rainbowWay := 0
  threeWay := 0
  ledState := 0
  upDownFade := false
  fadeSpeed := 500
  interval := 100

/-- Outcome of one call of `changeColours`: the object afterwards and the
`digitalWrite` calls made, in program order. -/
structure Render where
  state : ColourPatterns
  writes : List PinWrite
deriving DecidableEq, Repr

/-- The writes of `Red()`. -/
def ColourPatterns.Red : List PinWrite :=
  [⟨Channel.red, true⟩, ⟨Channel.blue, false⟩, ⟨Channel.green, false⟩]

/-- The writes of `Green()`. -/
def ColourPatterns.Green : List PinWrite :=
  [⟨Channel.green, true⟩, ⟨Channel.blue, false⟩, ⟨Channel.red, false⟩]

/-- The writes of `Blue()`. -/
def ColourPatterns.Blue : List PinWrite :=
  [⟨Channel.blue, true⟩, ⟨Channel.red, false⟩, ⟨Channel.green, false⟩]

/-- The writes of `Yellow()`. -/
def ColourPatterns.Yellow : List PinWrite :=
  [⟨Channel.green, true⟩, ⟨Channel.red, true⟩, ⟨Channel.blue, false⟩]

/-- The writes of `Cyan()`. -/
def ColourPatterns.Cyan : List PinWrite :=
  [⟨Channel.blue, true⟩, ⟨Channel.green, true⟩, ⟨Channel.red, false⟩]

/-- The writes of `Magenta()`. -/
def ColourPatterns.Magenta : List PinWrite :=
  [⟨Channel.blue, true⟩, ⟨Channel.red, true⟩, ⟨Channel.green, false⟩]

/-- The writes of `White()`. -/
def ColourPatterns.White : List PinWrite :=
  [⟨Channel.blue, true⟩, ⟨Channel.green, true⟩, ⟨Channel.red, true⟩]

/-- The writes of `Off()`. -/
def ColourPatterns.Off : List PinWrite :=
  [⟨Channel.green, false⟩, ⟨Channel.blue, false⟩, ⟨Channel.red, false⟩]

/-- The first half of `Fade()`: the update of `fadeSpeed` and `upDownFade`. -/
def ColourPatterns.fadeAdjust (s : ColourPatterns) : ColourPatterns :=
  if s.upDownFade then
    if s.fadeSpeed > 0 then { s with fadeSpeed := s.fadeSpeed - 1 }
    else { s with upDownFade := false }
  else
    if s.fadeSpeed < 5000 then { s with fadeSpeed := s.fadeSpeed + 1 }
    else { s with upDownFade := true }

/-- The writes of the hue step of `Fade()` for a value of `rainbowWay`. -/
def ColourPatterns.fadeHue (rainbowWay : Int) : List PinWrite :=
  if rainbowWay = 0 then
    [⟨Channel.red, true⟩, ⟨Channel.green, false⟩, ⟨Channel.blue, false⟩]
  else if rainbowWay = 1 then
    [⟨Channel.red, true⟩, ⟨Channel.green, true⟩, ⟨Channel.blue, false⟩]
  else if rainbowWay = 2 then
    [⟨Channel.red, false⟩, ⟨Channel.green, true⟩, ⟨Channel.blue, false⟩]
  else if rainbowWay = 3 then
    [⟨Channel.red, false⟩, ⟨Channel.green, true⟩, ⟨Channel.blue, true⟩]
  else if rainbowWay = 4 then
    [⟨Channel.red, false⟩, ⟨Channel.green, false⟩, ⟨Channel.blue, true⟩]
  else if rainbowWay = 5 then
    [⟨Channel.red, true⟩, ⟨Channel.green, false⟩, ⟨Channel.blue, true⟩]
  else []

/-- The function `Fade()`; `now` is the clock value read by `millis()`. -/
def ColourPatterns.Fade (s : ColourPatterns) (now : Int) : Render :=
  let currentMillis := toULong now
  let s1 := s.fadeAdjust
  if toULong (currentMillis - s1.previousMillis) ≥ s1.fadeSpeed then
    ⟨{ s1 with previousMillis := currentMillis,
               rainbowWay := if s1.rainbowWay + 1 > 5 then 0 else s1.rainbowWay + 1 },
      ColourPatterns.fadeHue s1.rainbowWay⟩
  else ⟨s1, []⟩

/-- The function `StrobePlus()`: its body is commented out. -/
def ColourPatterns.StrobePlus (s : ColourPatterns) : Render :=
  ⟨s, []⟩

/-- The function `RGBStrobe()`. -/
def ColourPatterns.RGBStrobe (s : ColourPatterns) (now : Int) : Render :=
  let currentMillis := toULong now
  if toULong (currentMillis - s.previousMillis) ≥ s.interval then
    ⟨{ s with previousMillis := currentMillis,
              threeWay := if s.threeWay + 1 > 2 then 0 else s.threeWay + 1 },
      if s.threeWay = 0 then ColourPatterns.Red
      else if s.threeWay = 1 then ColourPatterns.Green
      else if s.threeWay = 2 then ColourPatterns.Blue
      else []⟩
  else ⟨s, []⟩

/-- The function `Rainbow()`. -/
def ColourPatterns.Rainbow (s : ColourPatterns) (now : Int) : Render :=
  let currentMillis := toULong now
  if toULong (currentMillis - s.previousMillis) ≥ s.interval then
    ⟨{ s with previousMillis := currentMillis,
              rainbowWay := if s.rainbowWay + 1 > 5 then 0 else s.rainbowWay + 1 },
      if s.rainbowWay = 0 then ColourPatterns.Red
      else if s.rainbowWay = 1 then ColourPatterns.Green
      else if s.rainbowWay = 2 then ColourPatterns.Blue
      else if s.rainbowWay = 3 then ColourPatterns.Cyan
      else if s.rainbowWay = 4 then ColourPatterns.Yellow
      else if s.rainbowWay = 5 then ColourPatterns.Magenta
      else []⟩
  else ⟨s, []⟩

/-- The function `Halfstrobe()`. -/
def ColourPatterns.Halfstrobe (s : ColourPatterns) (now : Int) : Render :=
  let currentMillis := toULong now
  if toULong (currentMillis - s.previousMillis) ≥ s.interval then
    if s.ledState = 0 then
      ⟨{ s with previousMillis := currentMillis, ledState := 1 }, ColourPatterns.Red⟩
    else
      ⟨{ s with previousMillis := currentMillis, ledState := 0 }, ColourPatterns.Blue⟩
  else ⟨s, []⟩

/-- The function `BGStrobe()`. -/
def ColourPatterns.BGStrobe (s : ColourPatterns) (now : Int) : Render :=
  let currentMillis := toULong now
  if toULong (currentMillis - s.previousMillis) ≥ s.interval then
    if s.ledState = 0 then
      ⟨{ s with previousMillis := currentMillis, ledState := 1 }, ColourPatterns.Blue⟩
    else
      ⟨{ s with previousMillis := currentMillis, ledState := 0 }, ColourPatterns.Green⟩
  else ⟨s, []⟩

/-- The function `GRStrobe()`. -/
def ColourPatterns.GRStrobe (s : ColourPatterns) (now : Int) : Render :=
  let currentMillis := toULong now
  if toULong (currentMillis - s.previousMillis) ≥ s.interval then
    if s.ledState = 0 then
      ⟨{ s with previousMillis := currentMillis, ledState := 1 }, ColourPatterns.Green⟩
    else
      ⟨{ s with previousMillis := currentMillis, ledState := 0 }, ColourPatterns.Red⟩
  else ⟨s, []⟩

/-- The function `changeColours(int choice)`; `now` is the clock value that the
selected pattern reads with `millis()`. -/
def ColourPatterns.changeColours (s : ColourPatterns) (choice : Int) (now : Int) : Render :=
  if choice = 0 then ⟨s, ColourPatterns.Red⟩
  else if choice = 1 then ⟨s, ColourPatterns.Green⟩
  else if choice = 2 then ⟨s, ColourPatterns.Blue⟩
  else if choice = 3 then ⟨s, ColourPatterns.Cyan⟩
  else if choice = 4 then ⟨s, ColourPatterns.Magenta⟩
  else if choice = 5 then ⟨s, ColourPatterns.Yellow⟩
  else if choice = 6 then ⟨s, ColourPatterns.White⟩
  else if choice = 7 then s.Fade now
  else if choice = 8 then s.StrobePlus
  else if choice = 9 then s.RGBStrobe now
  else if choice = 10 then s.Rainbow now
  else if choice = 11 then s.Halfstrobe now
  else if choice = 12 then s.GRStrobe now
  else if choice = 13 then s.BGStrobe now
  else ⟨s, ColourPatterns.Off⟩

/-- Successive calls `changeColours(choice)` at the given clock values: the
final object and the writes of each call. -/
def ColourPatterns.renderAll (s : ColourPatterns) (choice : Int) :
    List Int → ColourPatterns × List (List PinWrite)
  | [] => (s, [])
  | t :: ts =>
    let r := s.changeColours choice t
    let rest := ColourPatterns.renderAll r.state choice ts
    (rest.1, r.writes :: rest.2)

/-- The clock values `p + k * interval` for `k = 1, ..., n`. -/
def everyInterval (p interval : Int) (n : Nat) : List Int :=
  (List.range n).map (fun (k : Nat) => p + ((k : Int) + 1) * interval)

/-- The colours of the RGB strobe, in the order of the specification. -/
def rgbCycle : List (List PinWrite) :=
  [ColourPatterns.Red, ColourPatterns.Green, ColourPatterns.Blue]

/-- The colours of the rainbow, in the order of the specification. -/
def rainbowCycle : List (List PinWrite) :=
  [ColourPatterns.Red, ColourPatterns.Green, ColourPatterns.Blue,
   ColourPatterns.Cyan, ColourPatterns.Yellow, ColourPatterns.Magenta]

/-- The two colours of the half strobe, in the order of the specification. -/
def halfstrobeCycle : List (List PinWrite) :=
  [ColourPatterns.Red, ColourPatterns.Blue]

/-- The course of `(fadeSpeed, upDownFade)` over the first 14502 calls of
`Fade()` on the constructed object: up from 500 to 5000, the flag set, down
from 5000 to 0, the flag cleared, up from 0 to 5000. -/
def fadeCourse (n : Nat) : Int × Bool :=
  if n ≤ 4500 then (500 + (n : Int), false)
  else if n ≤ 9501 then (9501 - (n : Int), true)
  else ((n : Int) - 9502, false)

/-- The constructed object with `fadeSpeed` at its upper bound. -/
def fadeTop : ColourPatterns :=
  { ColourPatterns.init with fadeSpeed := 5000 }

/-! ## Specification-side notions for the decoder -/

/-- A key that is a non-empty string of decimal digits. -/
def IsDecimalKey (k : String) : Prop :=
  k.data ≠ [] ∧ ∀ c ∈ k.data, isdigit c = true

instance : DecidablePred IsDecimalKey :=
  fun k => by unfold IsDecimalKey; infer_instance

/-- The decimal integer value of a key: the number whose base-10 digits, least
significant first, are the characters of the key read from the right. -/
def decimalValue (k : String) : Nat :=
  Nat.ofDigits 10 (k.data.reverse.map (fun c => c.toNat - 48))

/-- The object after loading the example payload of the specification at clock
reading 7000, starting from the constructed object. -/
def specExampleLoaded : TimelineManager :=
  match processTimelineData TimelineManager.init specExampleDoc "1" 7000 with
  | some r => r.state
  | none => TimelineManager.init

/-- A payload whose single key exceeds the range of a 32 bit `long`. -/
def longKeyDoc : JsonDocument :=
  docOf [("2147483648", 1, 0, 0)]

/-- A first payload of three events, used to bring the cursor forward. -/
def firstDoc : JsonDocument :=
  docOf [("100", 1, 0, 0), ("200", 2, 0, 0), ("300", 3, 0, 0)]

/-- A second payload, of four events, loaded while the cursor is not at 0. -/
def secondDoc : JsonDocument :=
  docOf [("100", 5, 0, 0), ("200", 6, 0, 0), ("300", 7, 0, 0), ("400", 8, 0, 0)]

/-- The empty payload `{}`. -/
def emptyDoc : JsonDocument :=
  docOf []

/-- A payload of 11 events, with offsets 10, 20, ..., 110. -/
def elevenDoc : JsonDocument :=
  docOf [("10", 0, 0, 0), ("20", 1, 0, 0), ("30", 2, 0, 0), ("40", 3, 0, 0),
    ("50", 4, 0, 0), ("60", 5, 0, 0), ("70", 6, 0, 0), ("80", 7, 0, 0), ("90", 8, 0, 0),
    ("100", 9, 0, 0), ("110", 10, 0, 0)]

/-- A payload of 51 events, with offsets 10, 20, ..., 510. -/
def fiftyOneDoc : JsonDocument :=
  docOf [("10", 0, 0, 0), ("20", 1, 0, 0), ("30", 2, 0, 0), ("40", 3, 0, 0),
    ("50", 4, 0, 0), ("60", 5, 0, 0), ("70", 6, 0, 0), ("80", 7, 0, 0), ("90", 8, 0, 0),
    ("100", 9, 0, 0), ("110", 10, 0, 0), ("120", 11, 0, 0), ("130", 12, 0, 0),
    ("140", 13, 0, 0), ("150", 0, 0, 0), ("160", 1, 0, 0), ("170", 2, 0, 0),
    ("180", 3, 0, 0), ("190", 4, 0, 0), ("200", 5, 0, 0), ("210", 6, 0, 0),
    ("220", 7, 0, 0), ("230", 8, 0, 0), ("240", 9, 0, 0), ("250", 10, 0, 0),
    ("260", 11, 0, 0), ("270", 12, 0, 0), ("280", 13, 0, 0), ("290", 0, 0, 0),
    ("300", 1, 0, 0), ("310", 2, 0, 0), ("320", 3, 0, 0), ("330", 4, 0, 0),
    ("340", 5, 0, 0), ("350", 6, 0, 0), ("360", 7, 0, 0), ("370", 8, 0, 0),
    ("380", 9, 0, 0), ("390", 10, 0, 0), ("400", 11, 0, 0), ("410", 12, 0, 0),
    ("420", 13, 0, 0), ("430", 0, 0, 0), ("440", 1, 0, 0), ("450", 2, 0, 0),
    ("460", 3, 0, 0), ("470", 4, 0, 0), ("480", 5, 0, 0), ("490", 6, 0, 0),
    ("500", 7, 0, 0), ("510", 8, 0, 0)]

/-- A payload of one event, at offset 1. -/
def oneEventDoc : JsonDocument :=
  docOf [("1", 5, 0, 0)]

/-! ## Traces of ticks -/

/-- The outcomes of successive ticks at the given clock readings. -/
def runTicks (s : TimelineManager) : List Int → Option (List Tick)
  | [] => some []
  | t :: ts =>
    match checkTimelineData s t with
    | none => none
    | some r => (runTicks r.state ts).map (fun l => r :: l)

/-- The outcomes of successive ticks; each tick is given the readings of the
two `millis()` calls of `checkTimelineData`, the guard's first. -/
def runTicksAt (s : TimelineManager) : List (Int × Int) → Option (List Tick)
  | [] => some []
  | t :: ts =>
    match checkTimelineDataAt s t.1 t.2 with
    | none => none
    | some r => (runTicksAt r.state ts).map (fun l => r :: l)

/-- What one tick does to the cursor, given the value `prev` returned by the
previous tick.  It returns `prev` again with the cursor kept; or, entered with
the cursor inside the table, it returns `prev` with the cursor set to
`maxTimingsNum` (overrun), or the colour of the event at the cursor with the
cursor advanced by exactly one; or, entered with the cursor beyond
`maxTimingsNum - 2` (wrap), it returns `prev` with the cursor at 0, or the
colour of event 0 with the cursor at 1, or `prev` with the cursor at
`maxTimingsNum`. -/
def StepShapeAt (prev : Nat) (s : TimelineManager) (r : Tick) : Prop :=
  (r.ret = prev ∧ r.state.runNum = s.runNum) ∨
  (s.runNum ≤ s.maxTimingsNum - 2 ∧ r.ret = prev ∧ r.state.runNum = s.maxTimingsNum) ∨
  (s.runNum ≤ s.maxTimingsNum - 2 ∧ readAt s.colours s.runNum = some r.ret ∧
    r.state.runNum = s.runNum + 1) ∨
  (s.runNum > s.maxTimingsNum - 2 ∧ r.ret = prev ∧ r.state.runNum = 0) ∨
  (s.runNum > s.maxTimingsNum - 2 ∧ readAt s.colours 0 = some r.ret ∧
    r.state.runNum = 1) ∨
  (s.runNum > s.maxTimingsNum - 2 ∧ r.ret = prev ∧ r.state.runNum = s.maxTimingsNum)

/-- Every tick of a trace has the shape `StepShapeAt`, `prev` being the value
returned by the tick before it. -/
def TraceShapeAt (prev : Nat) (s : TimelineManager) : List Tick → Prop
  | [] => True
  | r :: rest => StepShapeAt prev s r ∧ TraceShapeAt r.ret r.state rest

/-! ## Dispatches of a tick -/

/-- The indices of the `colours[]` reads of a tick: the events whose colour the
tick assigned to `signal` (the only read of `colours[]` in `checkTimelineData`
is `signal = colours[runNum]`). -/
def Tick.dispatched (r : Tick) : List Int :=
  r.reads.filterMap (fun a =>
    match a with
    | Access.colours i => some i
    | Access.timings _ => none)

/-- The states of an object into which no table has been loaded since its
construction: reachable from the constructed object by ticks and the setters
alone. -/
inductive Unloaded : TimelineManager → Prop where
  | init : Unloaded TimelineManager.init
  | tick {s : TimelineManager} {r : Tick} (now : Int) :
      Unloaded s → checkTimelineData s now = some r → Unloaded r.state
  | setPlaying {s : TimelineManager} (b : Bool) : Unloaded s → Unloaded (setPlaying s b)
  | setAlreadyGotData {s : TimelineManager} (b : Bool) :
      Unloaded s → Unloaded (setAlreadyGotData s b)
  | setToken {s : TimelineManager} (b : Bool) : Unloaded s → Unloaded (setToken s b)

/-- The writes of one call of a colour function, for the six colours that the
interval-driven patterns use. -/
def colourCalls : List (List PinWrite) :=
  [ColourPatterns.Red, ColourPatterns.Green, ColourPatterns.Blue,
   ColourPatterns.Cyan, ColourPatterns.Yellow, ColourPatterns.Magenta]

/-! # Theorems -/

/-! ## Indexing lemmas -/

theorem slot_eq_some {n : Nat} {i : Int} (h0 : 0 ≤ i) (h1 : i < (n : Int)) :
    slot n i = some ⟨i.toNat, by omega⟩ := by
  unfold slot
  rw [dif_pos ⟨h0, h1⟩]

theorem slot_eq_none {n : Nat} {i : Int} (h : ¬ (0 ≤ i ∧ i < (n : Int))) :
    slot n i = none := by
  unfold slot
  rw [dif_neg h]

theorem slot_some_val {n : Nat} {i : Int} {j : Fin n} (h : slot n i = some j) :
    (j.val : Int) = i := by
  unfold slot at h
  split at h
  · cases h
    simp
    omega
  · cases h

theorem readAt_zero {α : Type} (a : Fin 50 → α) : readAt a 0 = some (a 0) := by
  simp [readAt, slot]

theorem readAt_of_range {α : Type} {n : Nat} (a : Fin n → α) {i : Int}
    (h0 : 0 ≤ i) (h1 : i < (n : Int)) :
    readAt a i = some (a ⟨i.toNat, by omega⟩) := by
  unfold readAt
  rw [slot_eq_some h0 h1]
  rfl

theorem readAt_some_range {α : Type} {n : Nat} {a : Fin n → α} {i : Int} {v : α}
    (h : readAt a i = some v) : 0 ≤ i ∧ i < (n : Int) := by
  by_contra hc
  unfold readAt at h
  rw [slot_eq_none hc] at h
  cases h

/-! ## Clock arithmetic -/

theorem elapsed_self (now : Int) : elapsed now (toLong (toULong (now : Int))) = 0 := by
  unfold elapsed toLong toULong
  omega

theorem toLong_toULong_of_lt (now : Int) (h0 : 0 ≤ now) (h : now < 2147483648) :
    toLong (toULong (now : Int)) = now := by
  unfold toLong toULong
  omega

/-! ## The boundary guard -/

theorem wrapGuard_of_gt (s : TimelineManager) (now : Int)
    (h : s.runNum > s.maxTimingsNum - 2) :
    wrapGuard s now =
      { s with runNum := 0, playStartTime := toLong (toULong (now : Int)) } := by
  unfold wrapGuard
  rw [if_pos h]

theorem wrapGuard_of_le (s : TimelineManager) (now : Int)
    (h : s.runNum ≤ s.maxTimingsNum - 2) :
    wrapGuard s now = s := by
  unfold wrapGuard
  rw [if_neg (by omega)]

/-- A tick entered with the cursor beyond `maxTimingsNum - 2` resets the cursor
and the epoch and dispatches nothing; it reads `timings[0]` only. -/
theorem tick_wrapped (s : TimelineManager) (now : Int)
    (hplay : s.playing = true)
    (hrun : s.runNum > s.maxTimingsNum - 2) :
    ∃ r, checkTimelineData s now = some r ∧ r.state.runNum = 0 ∧
      r.state.playStartTime = toLong (toULong (now : Int)) ∧
      r.ret = s.signal ∧ r.state.signal = s.signal ∧
      r.state.timings = s.timings ∧ r.state.colours = s.colours ∧
      r.state.maxTimingsNum = s.maxTimingsNum ∧ r.state.playing = true ∧
      ∀ a ∈ r.reads, a = Access.timings 0 := by
  unfold checkTimelineData checkTimelineDataAt
  rw [if_pos hplay, wrapGuard_of_gt s now hrun]
  simp only [readAt_zero]
  by_cases hp : s.timings 0 > 0
  · rw [if_pos hp]
    unfold timedStep
    simp only [elapsed_self]
    rw [if_pos (by omega)]
    exact ⟨_, rfl, rfl, rfl, rfl, rfl, rfl, rfl, rfl, hplay, by simp⟩
  · rw [if_neg hp]
    exact ⟨_, rfl, rfl, rfl, rfl, rfl, rfl, rfl, rfl, hplay, by simp⟩

/-! ## C1: the active interval -/

/-- C1. Active-interval step: in a playing state with
`runNum ≤ maxTimingsNum - 2` and `timings[runNum] = tr > 0`, a tick at a clock
reading whose elapsed time `e` satisfies `timings[0] ≤ e` and
`tr ≤ e ≤ timings[runNum + 1]` sets `signal` to `colours[runNum]`, advances
`runNum` by exactly one, keeps `playStartTime` (and the tables), and returns
`colours[runNum]` for the old `runNum`. -/
theorem checkTimelineData_active_interval (s : TimelineManager) (now : Int)
    (tr tn : Int) (c : Nat)
    (hplay : s.playing = true)
    (hrun : s.runNum ≤ s.maxTimingsNum - 2)
    (htr : readAt s.timings s.runNum = some tr) (hpos : 0 < tr)
    (htn : readAt s.timings (s.runNum + 1) = some tn)
    (hc : readAt s.colours s.runNum = some c)
    (h0 : s.timings 0 ≤ elapsed now s.playStartTime)
    (hlo : tr ≤ elapsed now s.playStartTime)
    (hhi : elapsed now s.playStartTime ≤ tn) :
    ∃ r, checkTimelineData s now = some r ∧ r.state.signal = c ∧
      r.state.runNum = s.runNum + 1 ∧ r.state.playStartTime = s.playStartTime ∧
      r.ret = c ∧ r.state.timings = s.timings ∧ r.state.colours = s.colours := by
  unfold checkTimelineData checkTimelineDataAt
  rw [if_pos hplay, wrapGuard_of_le s now hrun]
  simp only [htr, if_pos hpos]
  unfold timedStep
  simp only [htn, hc]
  rw [if_neg (by omega), if_pos (by omega), if_pos hhi]
  exact ⟨_, rfl, rfl, rfl, rfl, rfl, rfl, rfl⟩

/-- Witness for C1: the table `100, 200, 300` polled 150 ms after the epoch
dispatches its first event. -/
theorem checkTimelineData_active_interval_witness :
    ∃ r, checkTimelineData (playingAt [100, 200, 300] [1, 2, 3] 3 0 0 9) 150 = some r ∧
      r.state.signal = 1 ∧
      r.state.runNum = (playingAt [100, 200, 300] [1, 2, 3] 3 0 0 9).runNum + 1 ∧
      r.state.playStartTime = (playingAt [100, 200, 300] [1, 2, 3] 3 0 0 9).playStartTime ∧
      r.ret = 1 ∧
      r.state.timings = (playingAt [100, 200, 300] [1, 2, 3] 3 0 0 9).timings ∧
      r.state.colours = (playingAt [100, 200, 300] [1, 2, 3] 3 0 0 9).colours :=
  checkTimelineData_active_interval (playingAt [100, 200, 300] [1, 2, 3] 3 0 0 9) 150
    100 200 1 (by decide) (by decide) (by decide) (by decide) (by decide) (by decide)
    (by decide) (by decide) (by decide)

/-! ## C2: the wrapped guard -/

theorem readAt_one {α : Type} (a : Fin 50 → α) : readAt a ((0 : Int) + 1) = some (a 1) := by
  rfl

/-- A tick that does not take the guard reads the clock once: the reading of
the guard plays no part. -/
theorem tickAt_of_le (s : TimelineManager) (t1 t2 : Int)
    (h : s.playing = false ∨ s.runNum ≤ s.maxTimingsNum - 2) :
    checkTimelineDataAt s t1 t2 = checkTimelineData s t2 := by
  unfold checkTimelineData checkTimelineDataAt
  by_cases hplay : s.playing = true
  · have hle : s.runNum ≤ s.maxTimingsNum - 2 := by
      rcases h with h | h
      · rw [h] at hplay
        cases hplay
      · exact h
    rw [wrapGuard_of_le s t1 hle, wrapGuard_of_le s t2 hle]
  · rw [if_neg hplay, if_neg hplay]

/-- A tick that takes the guard on a table of at least two events is the tick
of the reset state, taken at the second reading. -/
theorem tickAt_of_gt (s : TimelineManager) (t1 t2 : Int)
    (hplay : s.playing = true) (hrun : s.runNum > s.maxTimingsNum - 2)
    (h2 : 2 ≤ s.maxTimingsNum) :
    checkTimelineDataAt s t1 t2
      = checkTimelineData { s with runNum := 0, playStartTime := toLong (toULong t1) } t2 := by
  have hle : ({ s with runNum := 0, playStartTime := toLong (toULong t1) } :
      TimelineManager).runNum
      ≤ ({ s with runNum := 0, playStartTime := toLong (toULong t1) } :
      TimelineManager).maxTimingsNum - 2 := by
    show (0 : Int) ≤ s.maxTimingsNum - 2
    omega
  unfold checkTimelineData checkTimelineDataAt
  rw [wrapGuard_of_gt s t1 hrun, wrapGuard_of_le _ t2 hle, if_pos hplay]
  exact (if_pos hplay).symm

/-- A tick that takes the guard, with the readings `t1` and `t2` of its two
`millis()` calls: the guard resets the cursor and the epoch, and the body then
runs with the elapsed time between the two readings. -/
theorem tickAt_wrapped (s : TimelineManager) (t1 t2 : Int)
    (hplay : s.playing = true) (hrun : s.runNum > s.maxTimingsNum - 2) :
    ∃ r, checkTimelineDataAt s t1 t2 = some r ∧
      r.state.playStartTime = toLong (toULong t1) ∧
      r.state.timings = s.timings ∧ r.state.colours = s.colours ∧
      r.state.maxTimingsNum = s.maxTimingsNum ∧ r.state.playing = true ∧
      r.ret = r.state.signal ∧
      ((s.timings 0 ≤ 0 ∨ elapsed t2 (toLong (toULong t1)) < s.timings 0) →
        r.state.runNum = 0 ∧ r.state.signal = s.signal ∧ r.dispatched = [] ∧
        ∀ a ∈ r.reads, a = Access.timings 0) ∧
      ((0 < s.timings 0 ∧ s.timings 0 ≤ elapsed t2 (toLong (toULong t1)) ∧
          elapsed t2 (toLong (toULong t1)) ≤ s.timings 1) →
        r.state.runNum = 1 ∧ r.state.signal = s.colours 0 ∧ r.dispatched = [0]) ∧
      ((0 < s.timings 0 ∧ s.timings 0 ≤ elapsed t2 (toLong (toULong t1)) ∧
          s.timings 1 < elapsed t2 (toLong (toULong t1))) →
        r.state.runNum = s.maxTimingsNum ∧ r.state.signal = s.signal ∧
        r.dispatched = []) ∧
      (∀ a ∈ r.reads, a = Access.timings 0 ∨ a = Access.timings (0 + 1) ∨
        a = Access.colours 0) := by
  unfold checkTimelineDataAt
  rw [if_pos hplay, wrapGuard_of_gt s t1 hrun]
  simp only [readAt_zero]
  by_cases hp : s.timings 0 > 0
  · rw [if_pos hp]
    unfold timedStep
    simp only [readAt_one, readAt_zero]
    by_cases c0 : elapsed t2 (toLong (toULong t1)) < s.timings 0
    · rw [if_pos c0]
      refine ⟨_, rfl, rfl, rfl, rfl, rfl, hplay, rfl, fun _ => ⟨rfl, rfl, rfl, ?_⟩,
        fun h => ?_, fun h => ?_, ?_⟩
      · intro a ha
        simp at ha
        exact ha
      · omega
      · omega
      · intro a ha
        simp at ha
        exact Or.inl ha
    · rw [if_neg c0, if_pos (by omega)]
      by_cases c2 : elapsed t2 (toLong (toULong t1)) ≤ s.timings 1
      · rw [if_pos c2]
        refine ⟨_, rfl, rfl, rfl, rfl, rfl, hplay, rfl, fun h => ?_,
          fun _ => ⟨rfl, rfl, rfl⟩, fun h => ?_, ?_⟩
        · omega
        · omega
        · intro a ha
          simp at ha
          rcases ha with ha | ha | ha <;> simp [ha]
      · rw [if_neg c2, if_pos (by omega)]
        refine ⟨_, rfl, rfl, rfl, rfl, rfl, hplay, rfl, fun h => ?_,
          fun h => ?_, fun _ => ⟨rfl, rfl, rfl⟩, ?_⟩
        · omega
        · omega
        · intro a ha
          simp at ha
          rcases ha with ha | ha <;> simp [ha]
  · rw [if_neg hp]
    refine ⟨_, rfl, rfl, rfl, rfl, rfl, hplay, rfl, fun _ => ⟨rfl, rfl, rfl, ?_⟩,
      fun h => ?_, fun h => ?_, ?_⟩
    · intro a ha
      simp at ha
      exact ha
    · omega
    · omega
    · intro a ha
      simp at ha
      exact Or.inl ha

/-- The elapsed time between two equal readings is 0. -/
theorem elapsed_same_reading (t1 t2 : Int) (h : toULong t2 = toULong t1) :
    elapsed t2 (toLong (toULong t1)) = 0 := by
  unfold elapsed toLong
  unfold toULong at *
  omega

/-- The tick that follows a state with the cursor beyond `maxTimingsNum - 2`:
its guard resets the cursor and the epoch, the tick ends with the epoch at the
reading of the guard, and it ends with the cursor at 0, the stored signal
returned and nothing dispatched when the time elapsed between its two readings
is below a positive `timings[0]`. -/
theorem tickAt_reset (s : TimelineManager) (u1 u2 : Int)
    (hplay : s.playing = true) (hrun : s.runNum > s.maxTimingsNum - 2) :
    wrapGuard s u1 = { s with runNum := 0, playStartTime := toLong (toULong u1) } ∧
    ∃ r, checkTimelineDataAt s u1 u2 = some r ∧
      r.state.playStartTime = toLong (toULong u1) ∧
      ((0 ≤ u1 ∧ u1 < 2147483648) → r.state.playStartTime = u1) ∧
      (elapsed u2 (toLong (toULong u1)) < s.timings 0 →
        r.state.runNum = 0 ∧ r.state.signal = s.signal ∧ r.ret = s.signal ∧
        r.dispatched = []) := by
  refine ⟨wrapGuard_of_gt s u1 hrun, ?_⟩
  obtain ⟨r, h, hp, _, _, _, _, hret, hhold, _⟩ := tickAt_wrapped s u1 u2 hplay hrun
  refine ⟨r, h, hp, ?_, ?_⟩
  · intro hb
    rw [hp]
    exact toLong_toULong_of_lt u1 hb.1 hb.2
  · intro he
    obtain ⟨a, b, c, _⟩ := hhold (Or.inr he)
    exact ⟨a, b, by rw [hret, b], c⟩

/-- C2 (as amended). Wrapped guard: in a playing state with
`runNum > maxTimingsNum - 2`, whatever the tables hold, the guard of a tick
sets `runNum = 0` and `playStartTime` to its clock reading `t1`, and the body
then runs from the new epoch with the second reading `t2`; the tick ends with
`playStartTime` holding `t1`.  When `timings[0] ≤ 0` or the time elapsed
between the two readings is below `timings[0]` (in particular when the two
readings are equal) the tick ends with `runNum = 0`, returns the signal stored
before the tick and dispatches nothing.  When the elapsed time has reached a
positive `timings[0]`, the tick dispatches event 0 (returns `colours[0]`, ends
with `runNum = 1`) if the elapsed time is at most `timings[1]`, and otherwise
ends with `runNum = maxTimingsNum`, returning the stored signal. -/
theorem checkTimelineData_wrapped_guard (s : TimelineManager) (t1 t2 : Int)
    (hplay : s.playing = true)
    (hrun : s.runNum > s.maxTimingsNum - 2) :
    wrapGuard s t1 = { s with runNum := 0, playStartTime := toLong (toULong t1) } ∧
    ∃ r, checkTimelineDataAt s t1 t2 = some r ∧
      r.state.playStartTime = toLong (toULong t1) ∧
      (0 ≤ t1 → t1 < 2147483648 → r.state.playStartTime = t1) ∧
      ((s.timings 0 ≤ 0 ∨ elapsed t2 (toLong (toULong t1)) < s.timings 0) →
        r.state.runNum = 0 ∧ r.ret = s.signal ∧ r.state.signal = s.signal ∧
        r.dispatched = []) ∧
      (toULong t2 = toULong t1 →
        r.state.runNum = 0 ∧ r.ret = s.signal ∧ r.state.signal = s.signal ∧
        r.dispatched = []) ∧
      ((0 < s.timings 0 ∧ s.timings 0 ≤ elapsed t2 (toLong (toULong t1)) ∧
          elapsed t2 (toLong (toULong t1)) ≤ s.timings 1) →
        r.state.runNum = 1 ∧ r.ret = s.colours 0 ∧ r.state.signal = s.colours 0 ∧
        r.dispatched = [0]) ∧
      ((0 < s.timings 0 ∧ s.timings 0 ≤ elapsed t2 (toLong (toULong t1)) ∧
          s.timings 1 < elapsed t2 (toLong (toULong t1))) →
        r.state.runNum = s.maxTimingsNum ∧ r.ret = s.signal ∧
        r.state.signal = s.signal ∧ r.dispatched = []) := by
  refine ⟨wrapGuard_of_gt s t1 hrun, ?_⟩
  obtain ⟨r, h, hp, _, _, _, _, hret, hhold, hdisp, hover, _⟩ :=
    tickAt_wrapped s t1 t2 hplay hrun
  have hold : (s.timings 0 ≤ 0 ∨ elapsed t2 (toLong (toULong t1)) < s.timings 0) →
      r.state.runNum = 0 ∧ r.ret = s.signal ∧ r.state.signal = s.signal ∧
      r.dispatched = [] := by
    intro hc
    obtain ⟨a, b, c, _⟩ := hhold hc
    exact ⟨a, by rw [hret, b], b, c⟩
  refine ⟨r, h, hp, fun h0 h1 => by rw [hp, toLong_toULong_of_lt t1 h0 h1], hold, ?_, ?_, ?_⟩
  · intro heq
    have he := elapsed_same_reading t1 t2 heq
    by_cases hz : s.timings 0 ≤ 0
    · exact hold (Or.inl hz)
    · exact hold (Or.inr (by rw [he]; omega))
  · intro hc
    obtain ⟨a, b, c⟩ := hdisp hc
    exact ⟨a, by rw [hret, b], b, c⟩
  · intro hc
    obtain ⟨a, b, c⟩ := hover hc
    exact ⟨a, by rw [hret, b], b, c⟩

/-- Witness for C2 (as amended): the cursor at the last event of a three-event
table, the guard reading 260 and the body 261. -/
theorem checkTimelineData_wrapped_guard_witness :
    wrapGuard (playingAt [100, 200, 300] [1, 2, 3] 3 2 0 2) 260
      = { playingAt [100, 200, 300] [1, 2, 3] 3 2 0 2 with
          runNum := 0, playStartTime := toLong (toULong 260) } ∧
    ∃ r, checkTimelineDataAt (playingAt [100, 200, 300] [1, 2, 3] 3 2 0 2) 260 261 = some r ∧
      r.state.playStartTime = toLong (toULong 260) ∧
      ((0 : Int) ≤ 260 → (260 : Int) < 2147483648 → r.state.playStartTime = 260) ∧
      (((playingAt [100, 200, 300] [1, 2, 3] 3 2 0 2).timings 0 ≤ 0 ∨
          elapsed 261 (toLong (toULong 260))
            < (playingAt [100, 200, 300] [1, 2, 3] 3 2 0 2).timings 0) →
        r.state.runNum = 0 ∧
        r.ret = (playingAt [100, 200, 300] [1, 2, 3] 3 2 0 2).signal ∧
        r.state.signal = (playingAt [100, 200, 300] [1, 2, 3] 3 2 0 2).signal ∧
        r.dispatched = []) ∧
      (toULong 261 = toULong 260 →
        r.state.runNum = 0 ∧
        r.ret = (playingAt [100, 200, 300] [1, 2, 3] 3 2 0 2).signal ∧
        r.state.signal = (playingAt [100, 200, 300] [1, 2, 3] 3 2 0 2).signal ∧
        r.dispatched = []) ∧
      ((0 < (playingAt [100, 200, 300] [1, 2, 3] 3 2 0 2).timings 0 ∧
          (playingAt [100, 200, 300] [1, 2, 3] 3 2 0 2).timings 0
            ≤ elapsed 261 (toLong (toULong 260)) ∧
          elapsed 261 (toLong (toULong 260))
            ≤ (playingAt [100, 200, 300] [1, 2, 3] 3 2 0 2).timings 1) →
        r.state.runNum = 1 ∧
        r.ret = (playingAt [100, 200, 300] [1, 2, 3] 3 2 0 2).colours 0 ∧
        r.state.signal = (playingAt [100, 200, 300] [1, 2, 3] 3 2 0 2).colours 0 ∧
        r.dispatched = [0]) ∧
      ((0 < (playingAt [100, 200, 300] [1, 2, 3] 3 2 0 2).timings 0 ∧
          (playingAt [100, 200, 300] [1, 2, 3] 3 2 0 2).timings 0
            ≤ elapsed 261 (toLong (toULong 260)) ∧
          (playingAt [100, 200, 300] [1, 2, 3] 3 2 0 2).timings 1
            < elapsed 261 (toLong (toULong 260))) →
        r.state.runNum = (playingAt [100, 200, 300] [1, 2, 3] 3 2 0 2).maxTimingsNum ∧
        r.ret = (playingAt [100, 200, 300] [1, 2, 3] 3 2 0 2).signal ∧
        r.state.signal = (playingAt [100, 200, 300] [1, 2, 3] 3 2 0 2).signal ∧
        r.dispatched = []) :=
  checkTimelineData_wrapped_guard (playingAt [100, 200, 300] [1, 2, 3] 3 2 0 2) 260 261
    (by decide) (by decide)

/-- C2, counterexample. The table `1, 5, 9` with the cursor at 2 and the stored
signal 2: the guard reads the clock as 1000 and the body as 1001, so that the
elapsed time 1 has reached `timings[0] = 1`; the tick dispatches event 0,
returns `colours[0] = 1` instead of the stored signal, and ends with
`runNum = 1`. -/
theorem checkTimelineData_wrapped_guard_counterexample :
    ∃ r, (playingAt [1, 5, 9] [1, 2, 3] 3 2 0 2).playing = true ∧
      (playingAt [1, 5, 9] [1, 2, 3] 3 2 0 2).runNum
        > (playingAt [1, 5, 9] [1, 2, 3] 3 2 0 2).maxTimingsNum - 2 ∧
      (playingAt [1, 5, 9] [1, 2, 3] 3 2 0 2).signal = 2 ∧
      checkTimelineDataAt (playingAt [1, 5, 9] [1, 2, 3] 3 2 0 2) 1000 1001 = some r ∧
      r.state.runNum = 1 ∧ r.ret = 1 ∧ r.dispatched = [0] ∧
      ¬ (r.state.runNum = 0 ∧ r.ret = (playingAt [1, 5, 9] [1, 2, 3] 3 2 0 2).signal) := by
  refine ⟨_, rfl, by decide, rfl, rfl, rfl, rfl, rfl, by decide⟩

/-! ## C3: the overrun step -/

/-- The overrun branch followed by the reset of the next tick. -/
theorem tick_overrun (s : TimelineManager) (t1 now : Int) (tn : Int)
    (hplay : s.playing = true)
    (h0 : 0 ≤ s.runNum)
    (hrun : s.runNum ≤ s.maxTimingsNum - 2)
    (hN : s.maxTimingsNum ≤ 50)
    (hpos : ∀ i : Fin 50, (i.val : Int) < s.maxTimingsNum → 0 < s.timings i)
    (hmono : ∀ i j : Fin 50, i ≤ j → (j.val : Int) < s.maxTimingsNum →
      s.timings i ≤ s.timings j)
    (htn : readAt s.timings (s.runNum + 1) = some tn)
    (hover : tn < elapsed now s.playStartTime) :
    ∃ r, checkTimelineDataAt s t1 now = some r ∧
      r.state.runNum = s.maxTimingsNum ∧ r.state.signal = s.signal ∧
      r.state.playStartTime = s.playStartTime ∧ r.ret = s.signal ∧
      r.state.playing = true ∧
      r.state.runNum > r.state.maxTimingsNum - 2 ∧
      ∀ u1 u2 : Int,
        wrapGuard r.state u1
          = { r.state with runNum := 0, playStartTime := toLong (toULong u1) } ∧
        ∃ r2, checkTimelineDataAt r.state u1 u2 = some r2 ∧
          r2.state.playStartTime = toLong (toULong u1) ∧
          ((0 ≤ u1 ∧ u1 < 2147483648) → r2.state.playStartTime = u1) ∧
          (elapsed u2 (toLong (toULong u1)) < s.timings 0 →
            r2.state.runNum = 0 ∧ r2.state.signal = s.signal ∧ r2.ret = s.signal ∧
            r2.dispatched = []) := by
  have hr1 : s.runNum + 1 < ((50 : Nat) : Int) := by push_cast; omega
  have hr0 : s.runNum < ((50 : Nat) : Int) := by push_cast; omega
  have e1 := readAt_of_range s.timings (by omega : 0 ≤ s.runNum + 1) hr1
  have e0 := readAt_of_range s.timings h0 hr0
  rw [e1] at htn
  injection htn with htn
  have p0 : 0 < s.timings ⟨s.runNum.toNat, by omega⟩ := hpos _ (by simp; omega)
  have m01 : s.timings ⟨s.runNum.toNat, by omega⟩
      ≤ s.timings ⟨(s.runNum + 1).toNat, by omega⟩ :=
    hmono _ _ (by simp [Fin.le_def]) (by simp; omega)
  have m00 : s.timings 0 ≤ s.timings ⟨(s.runNum + 1).toNat, by omega⟩ :=
    hmono _ _ (by simp [Fin.le_def]) (by simp; omega)
  have step : checkTimelineDataAt s t1 now = some
      ⟨{ s with currentMillisTimeline := elapsed now s.playStartTime,
                runNum := s.maxTimingsNum }, s.signal,
        [Access.timings s.runNum, Access.timings 0, Access.timings s.runNum,
         Access.timings (s.runNum + 1), Access.timings (s.runNum + 1)]⟩ := by
    rw [tickAt_of_le s t1 now (Or.inr hrun)]
    unfold checkTimelineData checkTimelineDataAt
    rw [if_pos hplay, wrapGuard_of_le s now hrun]
    simp only [e0, if_pos p0]
    unfold timedStep
    simp only [e1]
    rw [if_neg (by omega), if_pos (by omega), if_neg (by omega), if_pos (by omega)]
    rfl
  refine ⟨_, step, rfl, rfl, rfl, rfl, hplay, ?_, ?_⟩
  · show s.maxTimingsNum > s.maxTimingsNum - 2
    omega
  · intro u1 u2
    exact tickAt_reset { s with currentMillisTimeline := elapsed now s.playStartTime,
                                runNum := s.maxTimingsNum } u1 u2 hplay
        (by show s.maxTimingsNum > s.maxTimingsNum - 2; omega)

/-- C3. Overrun step: for a table whose first `maxTimingsNum` offsets are
non-decreasing and strictly positive, in a playing state with the cursor inside
the table (`0 ≤ runNum ≤ maxTimingsNum - 2`), a tick whose elapsed time exceeds
`timings[runNum + 1]` sets `runNum` to `maxTimingsNum` and keeps `signal` and
`playStartTime`; the following tick, whatever the readings `u1`, `u2` of its
two `millis()` calls, takes the wrapped-guard reset: its guard sets
`runNum = 0` and `playStartTime` to `u1`, the tick ends with `playStartTime`
holding `u1`, and, when the time elapsed between `u1` and `u2` is below
`timings[0]`, with `runNum = 0`, the stored signal returned and nothing
dispatched. -/
theorem checkTimelineData_overrun (s : TimelineManager) (t1 now : Int) (tn : Int)
    (hplay : s.playing = true)
    (h0 : 0 ≤ s.runNum)
    (hrun : s.runNum ≤ s.maxTimingsNum - 2)
    (hN : s.maxTimingsNum ≤ 50)
    (hpos : ∀ i : Fin 50, (i.val : Int) < s.maxTimingsNum → 0 < s.timings i)
    (hmono : ∀ i j : Fin 50, i ≤ j → (j.val : Int) < s.maxTimingsNum →
      s.timings i ≤ s.timings j)
    (htn : readAt s.timings (s.runNum + 1) = some tn)
    (hover : tn < elapsed now s.playStartTime) :
    ∃ r, checkTimelineDataAt s t1 now = some r ∧
      r.state.runNum = s.maxTimingsNum ∧ r.state.signal = s.signal ∧
      r.state.playStartTime = s.playStartTime ∧ r.ret = s.signal ∧
      r.state.playing = true ∧
      r.state.runNum > r.state.maxTimingsNum - 2 ∧
      ∀ u1 u2 : Int,
        wrapGuard r.state u1
          = { r.state with runNum := 0, playStartTime := toLong (toULong u1) } ∧
        ∃ r2, checkTimelineDataAt r.state u1 u2 = some r2 ∧
          r2.state.playStartTime = toLong (toULong u1) ∧
          ((0 ≤ u1 ∧ u1 < 2147483648) → r2.state.playStartTime = u1) ∧
          (elapsed u2 (toLong (toULong u1)) < s.timings 0 →
            r2.state.runNum = 0 ∧ r2.state.signal = s.signal ∧ r2.ret = s.signal ∧
            r2.dispatched = []) :=
  tick_overrun s t1 now tn hplay h0 hrun hN hpos hmono htn hover

/-- Witness for C3: the table `100, 200, 300` polled 250 ms after the epoch
with the cursor still at 0. -/
theorem checkTimelineData_overrun_witness :
    ∃ r, checkTimelineDataAt (playingAt [100, 200, 300] [1, 2, 3] 3 0 0 9) 250 250 = some r ∧
      r.state.runNum = (playingAt [100, 200, 300] [1, 2, 3] 3 0 0 9).maxTimingsNum ∧
      r.state.signal = (playingAt [100, 200, 300] [1, 2, 3] 3 0 0 9).signal ∧
      r.state.playStartTime = (playingAt [100, 200, 300] [1, 2, 3] 3 0 0 9).playStartTime ∧
      r.ret = (playingAt [100, 200, 300] [1, 2, 3] 3 0 0 9).signal ∧
      r.state.playing = true ∧
      r.state.runNum > r.state.maxTimingsNum - 2 ∧
      ∀ u1 u2 : Int,
        wrapGuard r.state u1
          = { r.state with runNum := 0, playStartTime := toLong (toULong u1) } ∧
        ∃ r2, checkTimelineDataAt r.state u1 u2 = some r2 ∧
          r2.state.playStartTime = toLong (toULong u1) ∧
          ((0 ≤ u1 ∧ u1 < 2147483648) → r2.state.playStartTime = u1) ∧
          (elapsed u2 (toLong (toULong u1))
              < (playingAt [100, 200, 300] [1, 2, 3] 3 0 0 9).timings 0 →
            r2.state.runNum = 0 ∧
            r2.state.signal = (playingAt [100, 200, 300] [1, 2, 3] 3 0 0 9).signal ∧
            r2.ret = (playingAt [100, 200, 300] [1, 2, 3] 3 0 0 9).signal ∧
            r2.dispatched = []) :=
  checkTimelineData_overrun (playingAt [100, 200, 300] [1, 2, 3] 3 0 0 9) 250 250 200
    (by decide) (by decide) (by decide) (by decide) (by decide) (by decide)
    (by decide) (by decide)

/-! ## C4: reads stay inside the decoded table -/

/-- A tick in a state with a non-negative cursor and a table of `1..50` events
returns, reads the tables only below `maxTimingsNum`, and keeps the cursor
non-negative and the table size. -/
theorem tick_in_table (s : TimelineManager) (now : Int)
    (h0 : 0 ≤ s.runNum) (h1 : 1 ≤ s.maxTimingsNum) (hN : s.maxTimingsNum ≤ 50) :
    ∃ r, checkTimelineData s now = some r ∧
      (∀ a ∈ r.reads, 0 ≤ a.index ∧ a.index < s.maxTimingsNum) ∧
      0 ≤ r.state.runNum ∧ r.state.maxTimingsNum = s.maxTimingsNum := by
  by_cases hplay : s.playing = true
  · by_cases hrun : s.runNum > s.maxTimingsNum - 2
    · obtain ⟨r, h, hr, _, _, _, _, _, hm, _, hreads⟩ := tick_wrapped s now hplay hrun
      refine ⟨r, h, ?_, by omega, hm⟩
      intro a ha
      rw [hreads a ha]
      simp only [Access.index]
      omega
    · have hle : s.runNum ≤ s.maxTimingsNum - 2 := by omega
      have e0 := readAt_of_range s.timings h0
        (by push_cast; omega : s.runNum < ((50 : Nat) : Int))
      have e1 := readAt_of_range s.timings (by omega : 0 ≤ s.runNum + 1)
        (by push_cast; omega : s.runNum + 1 < ((50 : Nat) : Int))
      have ec := readAt_of_range s.colours h0
        (by push_cast; omega : s.runNum < ((50 : Nat) : Int))
      unfold checkTimelineData checkTimelineDataAt
      rw [if_pos hplay, wrapGuard_of_le s now hle]
      simp only [e0]
      generalize s.timings ⟨s.runNum.toNat, by omega⟩ = tr
      generalize hn : s.timings ⟨(s.runNum + 1).toNat, by omega⟩ = tn at e1
      by_cases hp : tr > 0
      · rw [if_pos hp]
        unfold timedStep
        simp only [e1, ec]
        by_cases c0 : elapsed now s.playStartTime < s.timings 0
        · rw [if_pos c0]
          refine ⟨_, rfl, ?_, h0, rfl⟩
          simp [Access.index]
          omega
        · rw [if_neg c0]
          by_cases c1 : elapsed now s.playStartTime ≥ tr
          · rw [if_pos c1]
            by_cases c2 : elapsed now s.playStartTime ≤ tn
            · rw [if_pos c2]
              refine ⟨_, rfl, ?_, by show 0 ≤ s.runNum + 1; omega, rfl⟩
              simp [Access.index]
              omega
            · rw [if_neg c2, if_pos (by omega)]
              refine ⟨_, rfl, ?_, by show 0 ≤ s.maxTimingsNum; omega, rfl⟩
              simp [Access.index]
              omega
          · rw [if_neg c1]
            by_cases c3 : elapsed now s.playStartTime ≥ tn
            · rw [if_pos c3]
              refine ⟨_, rfl, ?_, by show 0 ≤ s.maxTimingsNum; omega, rfl⟩
              simp [Access.index]
              omega
            · rw [if_neg c3]
              refine ⟨_, rfl, ?_, h0, rfl⟩
              simp [Access.index]
              omega
      · rw [if_neg hp]
        refine ⟨_, rfl, ?_, h0, rfl⟩
        simp [Access.index]
        omega
  · unfold checkTimelineData checkTimelineDataAt
    rw [if_neg hplay]
    exact ⟨_, rfl, by simp, h0, rfl⟩

/-- A tick with the readings of its two `millis()` calls, in a state with a
non-negative cursor and a table of `1..50` events: it returns, keeps the cursor
non-negative and the table size, and reads the arrays inside their 50 slots;
for a table of at least two events it reads them only below `maxTimingsNum`. -/
theorem tickAt_in_table (s : TimelineManager) (t1 t2 : Int)
    (h0 : 0 ≤ s.runNum) (h1 : 1 ≤ s.maxTimingsNum) (hN : s.maxTimingsNum ≤ 50) :
    ∃ r, checkTimelineDataAt s t1 t2 = some r ∧
      0 ≤ r.state.runNum ∧ r.state.maxTimingsNum = s.maxTimingsNum ∧
      (∀ a ∈ r.reads, 0 ≤ a.index ∧ a.index < 50) ∧
      (2 ≤ s.maxTimingsNum → ∀ a ∈ r.reads, 0 ≤ a.index ∧ a.index < s.maxTimingsNum) := by
  by_cases hg : s.playing = true ∧ s.runNum > s.maxTimingsNum - 2
  · obtain ⟨r, h, _, _, _, hm, _, _, hhold, hdisp, hover, hreads⟩ :=
      tickAt_wrapped s t1 t2 hg.1 hg.2
    have hidx : ∀ a ∈ r.reads, a.index = 0 ∨ a.index = 1 := by
      intro a ha
      rcases hreads a ha with e | e | e
      · rw [e]
        exact Or.inl rfl
      · rw [e]
        exact Or.inr rfl
      · rw [e]
        exact Or.inl rfl
    have hr0 : 0 ≤ r.state.runNum := by
      by_cases c : s.timings 0 ≤ 0 ∨ elapsed t2 (toLong (toULong t1)) < s.timings 0
      · rw [(hhold c).1]
      · have c1 := (not_or.mp c).1
        have c2 := (not_or.mp c).2
        by_cases d : elapsed t2 (toLong (toULong t1)) ≤ s.timings 1
        · rw [(hdisp ⟨by omega, by omega, d⟩).1]
          decide
        · rw [(hover ⟨by omega, by omega, by omega⟩).1]
          omega
    refine ⟨r, h, hr0, hm, ?_, ?_⟩
    · intro a ha
      rcases hidx a ha with e | e <;> rw [e] <;> decide
    · intro h2 a ha
      rcases hidx a ha with e | e <;> rw [e] <;> omega
  · have hle : s.playing = false ∨ s.runNum ≤ s.maxTimingsNum - 2 := by
      by_cases hp : s.playing = true
      · exact Or.inr (by
          by_contra hc
          exact hg ⟨hp, by omega⟩)
      · exact Or.inl (by simpa using hp)
    rw [tickAt_of_le s t1 t2 hle]
    obtain ⟨r, hr, hreads, hr0, hm⟩ := tick_in_table s t2 h0 h1 hN
    refine ⟨r, hr, hr0, hm, ?_, fun _ => hreads⟩
    intro a ha
    have := hreads a ha
    exact ⟨this.1, by omega⟩

/-! ### Effect of the decoder on the cursor and the table size -/

theorem writeAt_some_range {α : Type} {n : Nat} {a b : Fin n → α} {i : Int} {v : α}
    (h : writeAt a i v = some b) : 0 ≤ i ∧ i < (n : Int) := by
  by_contra hc
  unfold writeAt at h
  rw [slot_eq_none hc] at h
  cases h

theorem writeAt_of_range {α : Type} {n : Nat} (a : Fin n → α) {i : Int} (v : α)
    (h0 : 0 ≤ i) (h1 : i < (n : Int)) :
    writeAt a i v = some (Function.update a ⟨i.toNat, by omega⟩ v) := by
  unfold writeAt
  rw [slot_eq_some h0 h1]
  rfl

theorem storeKeys_count (ks : List String) :
    ∀ (iter : Int) (tk : Fin 10 → String) (it : Int) (tk2 : Fin 10 → String),
      storeKeys ks iter tk = some (it, tk2) →
      it = iter + ks.length ∧ (ks ≠ [] → 0 ≤ iter ∧ it ≤ 10) := by
  induction ks with
  | nil =>
    intro iter tk it tk2 h
    simp only [storeKeys, Option.some.injEq, Prod.mk.injEq] at h
    simp [h.1]
  | cons k rest ih =>
    intro iter tk it tk2 h
    simp only [storeKeys] at h
    split at h
    · cases h
    · rename_i tk1 hw
      have hr := writeAt_some_range hw
      have := ih (iter + 1) tk1 it tk2 h
      refine ⟨by simp only [List.length_cons]; push_cast; omega, fun _ => ⟨hr.1, ?_⟩⟩
      by_cases hrest : rest = []
      · subst hrest
        simp at this
        push_cast at hr
        omega
      · exact (this.2 hrest).2

theorem decodeEntry_frame (doc : JsonDocument) (s s2 : TimelineManager) (i : Int)
    (h : decodeEntry doc s i = some s2) :
    s2.runNum = s.runNum ∧ s2.maxTimingsNum = s.maxTimingsNum ∧ s2.signal = s.signal ∧
      s2.playing = s.playing ∧ s2.playStartTime = s.playStartTime ∧
      s2.timeline_keys = s.timeline_keys ∧ s2.gotToken = s.gotToken ∧
      s2.already_got_data = s.already_got_data ∧
      s2.currentMillisTimeline = s.currentMillisTimeline := by
  unfold decodeEntry at h
  cases hk : readAt s.timeline_keys i with
  | none =>
    rw [hk] at h
    cases h
  | some key =>
    rw [hk] at h
    by_cases he : cstr key = []
    · simp only [if_pos he, Option.some.injEq] at h
      subst h
      exact ⟨rfl, rfl, rfl, rfl, rfl, rfl, rfl, rfl, rfl⟩
    · simp only [if_neg he] at h
      cases hj : slot 50 i with
      | none =>
        rw [hj] at h
        cases h
      | some j =>
        rw [hj] at h
        simp only [Option.some.injEq] at h
        subst h
        exact ⟨rfl, rfl, rfl, rfl, rfl, rfl, rfl, rfl, rfl⟩

theorem decodeLoop_frame (doc : JsonDocument) (n : Nat) :
    ∀ (i : Int) (s s2 : TimelineManager), decodeLoop doc n i s = some s2 →
      s2.runNum = s.runNum ∧ s2.maxTimingsNum = s.maxTimingsNum ∧ s2.signal = s.signal ∧
      s2.playing = s.playing ∧ s2.playStartTime = s.playStartTime ∧
      s2.timeline_keys = s.timeline_keys ∧ s2.gotToken = s.gotToken ∧
      s2.already_got_data = s.already_got_data ∧
      s2.currentMillisTimeline = s.currentMillisTimeline := by
  induction n with
  | zero =>
    intro i s s2 h
    simp only [decodeLoop, Option.some.injEq] at h
    subst h
    exact ⟨rfl, rfl, rfl, rfl, rfl, rfl, rfl, rfl, rfl⟩
  | succ n ih =>
    intro i s s2 h
    simp only [decodeLoop] at h
    split at h
    · cases h
    · rename_i s1 h1
      have f1 := decodeEntry_frame doc s s1 i h1
      have f2 := ih (i + 1) s1 s2 h
      refine ⟨?_, ?_, ?_, ?_, ?_, ?_, ?_, ?_, ?_⟩
      · rw [f2.1, f1.1]
      · rw [f2.2.1, f1.2.1]
      · rw [f2.2.2.1, f1.2.2.1]
      · rw [f2.2.2.2.1, f1.2.2.2.1]
      · rw [f2.2.2.2.2.1, f1.2.2.2.2.1]
      · rw [f2.2.2.2.2.2.1, f1.2.2.2.2.2.1]
      · rw [f2.2.2.2.2.2.2.1, f1.2.2.2.2.2.2.1]
      · rw [f2.2.2.2.2.2.2.2.1, f1.2.2.2.2.2.2.2.1]
      · rw [f2.2.2.2.2.2.2.2.2, f1.2.2.2.2.2.2.2.2]

/-- What `processTimelineData` does to the cursor, the signal and the table
size: `runNum`, `signal` and `playing` are never written, and `maxTimingsNum` is
either kept (empty payload) or becomes the number of keys, between 1 and 10. -/
theorem processTimelineData_cursor (s : TimelineManager) (doc : JsonDocument)
    (tn : String) (now : Int) (r : Load)
    (h : processTimelineData s doc tn now = some r) :
    r.state.runNum = s.runNum ∧ r.state.signal = s.signal ∧
      r.state.playing = s.playing ∧
      ((doc.keys = [] ∧ r.state.maxTimingsNum = s.maxTimingsNum ∧
          r.state.playStartTime = s.playStartTime) ∨
       (doc.keys ≠ [] ∧ r.state.maxTimingsNum = doc.keys.length ∧
          doc.keys.length ≤ 10 ∧
          r.state.playStartTime = toLong (toULong (now : Int)))) := by
  unfold processTimelineData at h
  cases hk : storeKeys doc.keys 0 s.timeline_keys with
  | none =>
    rw [hk] at h
    cases h
  | some p =>
    obtain ⟨iter, tk⟩ := p
    rw [hk] at h
    have hc := storeKeys_count doc.keys 0 s.timeline_keys iter tk hk
    simp only at h
    by_cases hz : iter = 0
    · rw [if_pos hz] at h
      simp only [Option.some.injEq] at h
      subst h
      have : doc.keys = [] := by
        have := hc.1
        rw [hz] at this
        apply List.length_eq_zero.mp
        omega
      exact ⟨rfl, rfl, rfl, Or.inl ⟨this, rfl, rfl⟩⟩
    · rw [if_neg hz] at h
      cases hl : decodeLoop doc iter.toNat 0
          { s with timeline_keys := tk, maxTimingsNum := iter } with
      | none =>
        rw [hl] at h
        cases h
      | some s2 =>
        rw [hl] at h
        simp only [Option.some.injEq] at h
        subst h
        have f := decodeLoop_frame doc iter.toNat 0 _ s2 hl
        have hne : doc.keys ≠ [] := by
          intro he
          rw [he] at hc
          have h1 := hc.1
          simp only [List.length_nil] at h1
          omega
        have hb := hc.2 hne
        have hlen := hc.1
        have g1 : s2.runNum = s.runNum := f.1
        have g2 : s2.signal = s.signal := f.2.2.1
        have g3 : s2.playing = s.playing := f.2.2.2.1
        have g4 : s2.maxTimingsNum = iter := f.2.1
        have g6 : iter = (doc.keys.length : Int) := by omega
        have g7 : doc.keys.length ≤ 10 := by omega
        exact ⟨g1, g2, g3, Or.inr ⟨hne, g4.trans g6, g7, rfl⟩⟩

/-- The cursor is never negative and the table size stays within `1..50` in
every reachable state. -/
theorem reachable_bounds (s : TimelineManager) (h : Reachable s) :
    0 ≤ s.runNum ∧ 1 ≤ s.maxTimingsNum ∧ s.maxTimingsNum ≤ 50 := by
  induction h with
  | init => exact ⟨le_refl _, by decide, by decide⟩
  | load doc tn now _ hp ih =>
    have c := processTimelineData_cursor _ doc tn now _ hp
    rcases c.2.2.2 with ⟨_, hm, _⟩ | ⟨hne, hm, hle, _⟩
    · rw [c.1, hm]
      exact ih
    · rw [c.1, hm]
      have : 1 ≤ doc.keys.length := by
        cases hk : doc.keys with
        | nil => exact absurd hk hne
        | cons a l => simp
      omega
  | tick t1 t2 _ hp ih =>
    obtain ⟨r, hr, h0, hm, _⟩ := tickAt_in_table _ t1 t2 ih.1 ih.2.1 ih.2.2
    rw [hp] at hr
    cases hr
    rw [hm]
    exact ⟨h0, ih.2⟩
  | setPlaying b _ ih => exact ih
  | setAlreadyGotData b _ ih => exact ih
  | setToken b _ ih => exact ih

/-- C4, the code at the failing input. The payload `{"1":[5,0,0]}` is loaded
into the constructed object at clock reading 0: the table holds one event
(`maxTimingsNum = 1`).  In the tick whose guard reads the clock as 2000 and
whose body reads it as 2001 the guard fires (`0 > 1 - 2`), the elapsed time 1
has reached `timings[0] = 1`, and the tick reads `timings[1]`: index 1 is not
below `maxTimingsNum`, so the read is outside the decoded table (inside the
array of 50 slots). -/
theorem checkTimelineData_reads_beyond_table :
    ∃ l r, processTimelineData TimelineManager.init oneEventDoc "1" 0 = some l ∧
      Reachable l.state ∧ l.state.maxTimingsNum = 1 ∧ l.state.runNum = 0 ∧
      l.state.timings 0 = 1 ∧
      checkTimelineDataAt l.state 2000 2001 = some r ∧
      r.reads = [Access.timings 0, Access.timings 0, Access.timings 0,
        Access.timings 1, Access.timings 1] ∧
      Access.timings 1 ∈ r.reads ∧
      ¬ ((Access.timings 1).index < l.state.maxTimingsNum) ∧
      (Access.timings 1).index < 50 := by
  refine ⟨_, _, rfl,
    Reachable.load oneEventDoc "1" 0 Reachable.init
      (rfl : processTimelineData TimelineManager.init oneEventDoc "1" 0 = some _),
    rfl, rfl, rfl, rfl, by decide, by decide, by decide, by decide⟩

/-! ## C5: what the decoder stores -/

theorem cstr_of_digits (k : String) (h : ∀ c ∈ k.data, isdigit c = true) :
    cstr k = k.data := by
  unfold cstr
  apply List.takeWhile_eq_self_iff.mpr
  intro c hc
  have := h c hc
  simp only [isdigit, Bool.and_eq_true, decide_eq_true_eq] at this
  simp only [ne_eq, decide_eq_true_eq]
  omega

theorem digitsValue_append (l : List Char) (c : Char) :
    digitsValue (l ++ [c]) = 10 * digitsValue l + (c.toNat - 48) := by
  unfold digitsValue
  rw [List.foldl_append]
  rfl

theorem digitsValue_eq_ofDigits (l : List Char) :
    digitsValue l = Nat.ofDigits 10 (l.reverse.map (fun c => c.toNat - 48)) := by
  induction l using List.reverseRecOn with
  | nil => rfl
  | append_singleton l c ih =>
    rw [digitsValue_append, ih, List.reverse_append, List.reverse_singleton,
      List.singleton_append, List.map_cons, Nat.ofDigits_cons]
    omega

theorem atol_of_digits (l : List Char) (hne : l ≠ [])
    (h : ∀ c ∈ l, isdigit c = true) :
    atol l = ((min (digitsValue l) 2147483647 : Nat) : Int) := by
  cases l with
  | nil => exact absurd rfl hne
  | cons c t =>
    have hc := h c (List.mem_cons_self c t)
    simp only [isdigit, Bool.and_eq_true, decide_eq_true_eq] at hc
    have hsp : isspace c = false := by
      simp only [isspace, Bool.or_eq_false_iff, decide_eq_false_iff_not,
        Bool.and_eq_false_iff]
      omega
    have htw : (c :: t).takeWhile isdigit = c :: t :=
      List.takeWhile_eq_self_iff.mpr h
    have hdw : (c :: t).dropWhile isspace = c :: t := by
      rw [List.dropWhile_cons, hsp]
      rfl
    unfold atol
    rw [hdw]
    split
    · rename_i r heq
      injection heq with h1 _
      rw [h1] at hc
      exact absurd hc (by decide)
    · rename_i r heq
      injection heq with h1 _
      rw [h1] at hc
      exact absurd hc (by decide)
    · rw [htw]

/-- On a non-empty all-digit key whose value fits a 32 bit `long`, `atol`
returns the decimal value of the key. -/
theorem atol_decimal (k : String) (hk : IsDecimalKey k)
    (hfit : decimalValue k ≤ 2147483647) :
    atol (cstr k) = (decimalValue k : Int) := by
  rw [cstr_of_digits k hk.2, atol_of_digits k.data hk.1 hk.2]
  have : digitsValue k.data = decimalValue k := digitsValue_eq_ofDigits k.data
  rw [this, Nat.min_eq_left hfit]

/-! ### The two loops of the decoder -/

theorem storeKeys_spec (ks : List String) :
    ∀ (iter : Int) (tk : Fin 10 → String), 0 ≤ iter → iter + ks.length ≤ 10 →
      ∃ tk2, storeKeys ks iter tk = some (iter + ks.length, tk2) ∧
        (∀ (j : Nat) (k : String), ks[j]? = some k → readAt tk2 (iter + j) = some k) ∧
        (∀ i : Fin 10, (i.val : Int) < iter → tk2 i = tk i) := by
  induction ks with
  | nil =>
    intro iter tk _ _
    refine ⟨tk, ?_, ?_, fun _ _ => rfl⟩
    · simp [storeKeys]
    · intro j k hj
      simp at hj
  | cons k rest ih =>
    intro iter tk h0 h1
    simp only [List.length_cons] at h1
    push_cast at h1
    have hlt : iter < ((10 : Nat) : Int) := by push_cast; omega
    obtain ⟨tk2, e, hget, hkeep⟩ :=
      ih (iter + 1) (Function.update tk ⟨iter.toNat, by omega⟩ k) (by omega) (by omega)
    refine ⟨tk2, ?_, ?_, ?_⟩
    · simp only [storeKeys, writeAt_of_range tk k h0 hlt, e, List.length_cons]
      push_cast
      congr 2
      omega
    · intro j k2 hj
      cases j with
      | zero =>
        simp only [List.getElem?_cons_zero, Option.some.injEq] at hj
        subst hj
        have hz : iter + ((0 : Nat) : Int) = iter := by simp
        rw [hz, readAt_of_range tk2 h0 hlt, hkeep ⟨iter.toNat, by omega⟩ (by simp; omega)]
        simp
      | succ j =>
        simp only [List.getElem?_cons_succ] at hj
        have := hget j k2 hj
        have hz : iter + ((j + 1 : Nat) : Int) = iter + 1 + (j : Int) := by
          push_cast
          omega
        rw [hz]
        exact this
    · intro i hi
      rw [hkeep i (by omega)]
      apply Function.update_noteq
      intro he
      rw [he] at hi
      simp at hi

theorem decodeEntry_spec (doc : JsonDocument) (s : TimelineManager) (i : Int)
    (h0 : 0 ≤ i) (h1 : i < 10) :
    ∃ s1, decodeEntry doc s i = some s1 ∧
      (∀ j : Fin 50, (j.val : Int) ≠ i →
        s1.timings j = s.timings j ∧ s1.colours j = s.colours j) ∧
      (∀ j : Fin 50, (j.val : Int) = i → ∀ k, readAt s.timeline_keys i = some k →
        (cstr k ≠ [] →
          s1.timings j = atol (cstr k) ∧ s1.colours j = toUint8 (doc.elem k 0)) ∧
        (cstr k = [] → s1.timings j = s.timings j ∧ s1.colours j = s.colours j)) := by
  have hk := readAt_of_range s.timeline_keys h0 (by push_cast; omega : i < ((10 : Nat) : Int))
  have hs := slot_eq_some h0 (by push_cast; omega : i < ((50 : Nat) : Int))
  unfold decodeEntry
  rw [hk]
  by_cases he : cstr (s.timeline_keys ⟨i.toNat, by omega⟩) = []
  · simp only [if_pos he]
    refine ⟨s, rfl, fun _ _ => ⟨rfl, rfl⟩, ?_⟩
    intro j _ k hk2
    exact ⟨fun _ => by injection hk2 with hk2; subst hk2; exact absurd he ‹_›,
      fun _ => ⟨rfl, rfl⟩⟩
  · simp only [if_neg he, hs]
    refine ⟨_, rfl, ?_, ?_⟩
    · intro j hj
      have hne : j ≠ ⟨i.toNat, by omega⟩ := by
        intro hc
        rw [hc] at hj
        simp at hj
        omega
      exact ⟨Function.update_noteq hne _ _, Function.update_noteq hne _ _⟩
    · intro j hj k hk2
      injection hk2 with hk2
      subst hk2
      have hje : j = ⟨i.toNat, by omega⟩ := by
        apply Fin.ext
        simp
        omega
      rw [hje]
      exact ⟨fun _ => ⟨Function.update_same _ _ _, Function.update_same _ _ _⟩,
        fun hc => absurd hc he⟩

theorem decodeLoop_spec (doc : JsonDocument) (n : Nat) :
    ∀ (i : Int) (s : TimelineManager), 0 ≤ i → i + n ≤ 10 →
      ∃ s2, decodeLoop doc n i s = some s2 ∧
        (∀ j : Fin 50, i ≤ j.val → (j.val : Int) < i + n →
          ∀ k, readAt s.timeline_keys j.val = some k →
          (cstr k ≠ [] →
            s2.timings j = atol (cstr k) ∧ s2.colours j = toUint8 (doc.elem k 0)) ∧
          (cstr k = [] → s2.timings j = s.timings j ∧ s2.colours j = s.colours j)) ∧
        (∀ j : Fin 50, ((j.val : Int) < i ∨ i + n ≤ j.val) →
          s2.timings j = s.timings j ∧ s2.colours j = s.colours j) := by
  induction n with
  | zero =>
    intro i s _ _
    refine ⟨s, rfl, ?_, fun _ _ => ⟨rfl, rfl⟩⟩
    intro j h1 h2
    simp at h2
    omega
  | succ n ih =>
    intro i s h0 h1
    push_cast at h1
    obtain ⟨s1, e1, hother, hself⟩ := decodeEntry_spec doc s i h0 (by omega)
    have hkeys : s1.timeline_keys = s.timeline_keys :=
      (decodeEntry_frame doc s s1 i e1).2.2.2.2.2.1
    obtain ⟨s2, e2, hin, hout⟩ := ih (i + 1) s1 (by omega) (by omega)
    refine ⟨s2, ?_, ?_, ?_⟩
    · simp only [decodeLoop, e1, e2]
    · intro j hj1 hj2 k hk
      push_cast at hj2
      by_cases hji : (j.val : Int) = i
      · have ho := hout j (Or.inl (by omega))
        rw [hji] at hk
        have hs := hself j hji k hk
        exact ⟨fun hc => by rw [ho.1, ho.2]; exact hs.1 hc,
          fun hc => by rw [ho.1, ho.2]; exact hs.2 hc⟩
      · have hi := hin j (by omega) (by omega) k (by rw [hkeys]; exact hk)
        have ho := hother j hji
        exact ⟨hi.1, fun hc => by rw [(hi.2 hc).1, (hi.2 hc).2]; exact ho⟩
    · intro j hj
      push_cast at hj
      have ho := hout j (by omega)
      have hs := hother j (by omega)
      rw [ho.1, ho.2]
      exact hs

/-! ### The scheduler ignores `greenInt` and `blueInt` -/

theorem timedStep_greenBlue (s : TimelineManager) (g b : Int) (now tr : Int) :
    timedStep { s with greenInt := g, blueInt := b } now tr =
      (timedStep s now tr).map
        (fun r => ⟨{ r.state with greenInt := g, blueInt := b }, r.ret, r.reads⟩) := by
  unfold timedStep
  simp only []
  cases readAt s.timings (s.runNum + 1) <;> cases readAt s.colours s.runNum <;>
    simp only [] <;> split_ifs <;> rfl

theorem tick_greenBlue (s : TimelineManager) (g b : Int) (now : Int) :
    checkTimelineData { s with greenInt := g, blueInt := b } now =
      (checkTimelineData s now).map
        (fun r => ⟨{ r.state with greenInt := g, blueInt := b }, r.ret, r.reads⟩) := by
  have hw : wrapGuard { s with greenInt := g, blueInt := b } now =
      { wrapGuard s now with greenInt := g, blueInt := b } := by
    unfold wrapGuard
    split_ifs <;> rfl
  unfold checkTimelineData checkTimelineDataAt
  by_cases hp : s.playing = true
  · rw [if_pos hp, if_pos (show ({ s with greenInt := g, blueInt := b } :
      TimelineManager).playing = true from hp), hw]
    simp only []
    cases readAt (wrapGuard s now).timings (wrapGuard s now).runNum with
    | none => simp only [Option.map_none']
    | some tr =>
      simp only []
      by_cases ht : tr > 0
      · rw [if_pos ht, if_pos ht]
        exact timedStep_greenBlue (wrapGuard s now) g b now tr
      · rw [if_neg ht, if_neg ht]
        simp only [Option.map_some']
  · rw [if_neg hp, if_neg (show ¬ ({ s with greenInt := g, blueInt := b } :
      TimelineManager).playing = true from hp)]
    simp only [Option.map_some']

theorem signalsFrom_greenBlue (ts : List Int) :
    ∀ (s : TimelineManager) (g b : Int),
      signalsFrom { s with greenInt := g, blueInt := b } ts = signalsFrom s ts := by
  induction ts with
  | nil =>
    intro s g b
    rfl
  | cons t ts ih =>
    intro s g b
    simp only [signalsFrom, tick_greenBlue]
    cases checkTimelineData s t with
    | none => rfl
    | some r =>
      simp only [Option.map_some']
      rw [ih]

/-! ### The decoder stores nothing that depends on the green and blue values -/

theorem decodeEntry_greenBlue (doc doc2 : JsonDocument)
    (h : ∀ k, doc2.elem k 0 = doc.elem k 0) (s : TimelineManager) (g b : Int) (i : Int) :
    ∃ g2 b2 : Int, decodeEntry doc2 { s with greenInt := g, blueInt := b } i =
      (decodeEntry doc s i).map (fun t => { t with greenInt := g2, blueInt := b2 }) := by
  unfold decodeEntry
  simp only []
  cases readAt s.timeline_keys i with
  | none => exact ⟨0, 0, rfl⟩
  | some key =>
    simp only []
    by_cases he : cstr key = []
    · rw [if_pos he, if_pos he]
      exact ⟨g, b, rfl⟩
    · rw [if_neg he, if_neg he]
      cases slot 50 i with
      | none => exact ⟨0, 0, rfl⟩
      | some j =>
        refine ⟨doc2.elem key 1, doc2.elem key 2, ?_⟩
        simp only [h, Option.map_some']

theorem decodeLoop_greenBlue (doc doc2 : JsonDocument)
    (h : ∀ k, doc2.elem k 0 = doc.elem k 0) (n : Nat) :
    ∀ (i : Int) (s : TimelineManager) (g b : Int),
      ∃ g2 b2 : Int, decodeLoop doc2 n i { s with greenInt := g, blueInt := b } =
        (decodeLoop doc n i s).map (fun t => { t with greenInt := g2, blueInt := b2 }) := by
  induction n with
  | zero =>
    intro i s g b
    exact ⟨g, b, rfl⟩
  | succ n ih =>
    intro i s g b
    obtain ⟨g1, b1, e⟩ := decodeEntry_greenBlue doc doc2 h s g b i
    simp only [decodeLoop, e]
    cases decodeEntry doc s i with
    | none => exact ⟨0, 0, rfl⟩
    | some s1 =>
      simp only [Option.map_some']
      exact ih (i + 1) s1 g1 b1

theorem processTimelineData_greenBlue (doc doc2 : JsonDocument)
    (hkeys : doc2.keys = doc.keys) (h : ∀ k, doc2.elem k 0 = doc.elem k 0)
    (s : TimelineManager) (tn : String) (now : Int) :
    ∃ g2 b2 : Int, processTimelineData s doc2 tn now =
      (processTimelineData s doc tn now).map
        (fun r => ⟨{ r.state with greenInt := g2, blueInt := b2 }, r.cleared⟩) := by
  unfold processTimelineData
  rw [hkeys]
  cases storeKeys doc.keys 0 s.timeline_keys with
  | none => exact ⟨0, 0, rfl⟩
  | some p =>
    obtain ⟨iter, tk⟩ := p
    simp only []
    by_cases hz : iter = 0
    · rw [if_pos hz, if_pos hz]
      exact ⟨s.greenInt, s.blueInt, rfl⟩
    · rw [if_neg hz, if_neg hz]
      obtain ⟨g2, b2, e⟩ := decodeLoop_greenBlue doc doc2 h iter.toNat 0
        { s with timeline_keys := tk, maxTimingsNum := iter } s.greenInt s.blueInt
      have e2 : decodeLoop doc2 iter.toNat 0
          { s with timeline_keys := tk, maxTimingsNum := iter } =
          (decodeLoop doc iter.toNat 0
            { s with timeline_keys := tk, maxTimingsNum := iter }).map
            (fun t => { t with greenInt := g2, blueInt := b2 }) := e
      rw [e2]
      cases decodeLoop doc iter.toNat 0
          { s with timeline_keys := tk, maxTimingsNum := iter } with
      | none => exact ⟨0, 0, rfl⟩
      | some s2 => exact ⟨g2, b2, rfl⟩

/-- What a successful decode stores: for `1 ≤ n ≤ 10` keys, each a non-empty
decimal string with value at most `2147483647`, the table size is `n` and the
`i`-th slot holds the value of the `i`-th key and the first element of its
array, reduced to 8 bits. -/
theorem decode_table (s : TimelineManager) (doc : JsonDocument)
    (tn : String) (now : Int)
    (hn1 : 1 ≤ doc.keys.length) (hn10 : doc.keys.length ≤ 10)
    (hkeys : ∀ k ∈ doc.keys, IsDecimalKey k ∧ decimalValue k ≤ 2147483647) :
    ∃ r, processTimelineData s doc tn now = some r ∧
      r.state.maxTimingsNum = doc.keys.length ∧
      (∀ (i : Nat) (k : String), doc.keys[i]? = some k →
        readAt r.state.timings i = some (decimalValue k : Int) ∧
        readAt r.state.colours i = some (toUint8 (doc.elem k 0))) := by
  obtain ⟨tk2, est, hget, _⟩ :=
    storeKeys_spec doc.keys 0 s.timeline_keys (le_refl 0) (by omega)
  have hlen : (0 : Int) + (doc.keys.length : Int) ≠ 0 := by omega
  have htn : ((0 : Int) + (doc.keys.length : Int)).toNat = doc.keys.length := by omega
  obtain ⟨s2, edl, hin, _⟩ := decodeLoop_spec doc doc.keys.length 0
    { s with timeline_keys := tk2, maxTimingsNum := (0 : Int) + (doc.keys.length : Int) }
    (le_refl 0) (by omega)
  have hm : s2.maxTimingsNum = (0 : Int) + (doc.keys.length : Int) :=
    (decodeLoop_frame doc _ _ _ _ edl).2.1
  have hres : processTimelineData s doc tn now = some
      ⟨{ s2 with already_got_data := true,
                 playStartTime := toLong (toULong (now : Int)) }, none⟩ := by
    unfold processTimelineData
    rw [est]
    simp only []
    rw [if_neg hlen, htn, edl]
  refine ⟨_, hres, ?_, ?_⟩
  · show s2.maxTimingsNum = _
    rw [hm]
    omega
  · intro i k hik
    have hi : i < doc.keys.length := by
      by_contra hc
      rw [List.getElem?_eq_none (by omega)] at hik
      cases hik
    have hmem : k ∈ doc.keys := List.getElem?_mem hik
    have hk := hkeys k hmem
    have hc : cstr k ≠ [] := by
      rw [cstr_of_digits k hk.1.2]
      exact hk.1.1
    have hrd := hget i k hik
    have hv := (hin ⟨i, by omega⟩ (by simp) (by simp; omega) k (by simpa using hrd)).1 hc
    have r1 := readAt_of_range s2.timings (Int.ofNat_nonneg i)
      (by push_cast; omega : (i : Int) < ((50 : Nat) : Int))
    have r2 := readAt_of_range s2.colours (Int.ofNat_nonneg i)
      (by push_cast; omega : (i : Int) < ((50 : Nat) : Int))
    simp only [Int.toNat_ofNat] at r1 r2
    refine ⟨?_, ?_⟩
    · show readAt s2.timings i = _
      rw [r1, hv.1, atol_decimal k hk.1 hk.2]
    · show readAt s2.colours i = _
      rw [r2, hv.2]

/-- C5 (as amended). Decode result: for a payload with `n` keys, `1 ≤ n ≤ 10`
(`10` is the extent of `timeline_keys`), each a non-empty decimal string whose
value fits a 32 bit `long` (at most `2147483647`), `processTimelineData`
returns with `maxTimingsNum = n`, `timings[i]` the decimal value of the `i`-th
key and `colours[i]` the first element of its value reduced to 8 bits, in key
order.  A payload with the same keys and the same first elements, whatever its
second and third elements, yields the same `timings`, `colours` and
`maxTimingsNum` and the same signals from every later sequence of ticks. -/
theorem processTimelineData_decode (s : TimelineManager) (doc : JsonDocument)
    (tn : String) (now : Int)
    (hn1 : 1 ≤ doc.keys.length) (hn10 : doc.keys.length ≤ 10)
    (hkeys : ∀ k ∈ doc.keys, IsDecimalKey k ∧ decimalValue k ≤ 2147483647) :
    ∃ r, processTimelineData s doc tn now = some r ∧
      r.state.maxTimingsNum = doc.keys.length ∧
      (∀ (i : Nat) (k : String), doc.keys[i]? = some k →
        readAt r.state.timings i = some (decimalValue k : Int) ∧
        readAt r.state.colours i = some (toUint8 (doc.elem k 0))) ∧
      (∀ doc2 : JsonDocument, doc2.keys = doc.keys →
        (∀ k, doc2.elem k 0 = doc.elem k 0) →
        ∃ r2, processTimelineData s doc2 tn now = some r2 ∧
          r2.state.timings = r.state.timings ∧ r2.state.colours = r.state.colours ∧
          r2.state.maxTimingsNum = r.state.maxTimingsNum ∧
          ∀ ts : List Int, signalsFrom r2.state ts = signalsFrom r.state ts) := by
  obtain ⟨r, hres, hm, htab⟩ := decode_table s doc tn now hn1 hn10 hkeys
  refine ⟨r, hres, hm, htab, ?_⟩
  intro doc2 hk2 he2
  obtain ⟨g2, b2, e⟩ := processTimelineData_greenBlue doc doc2 hk2 he2 s tn now
  rw [hres] at e
  refine ⟨_, e, rfl, rfl, rfl, ?_⟩
  intro ts
  exact signalsFrom_greenBlue ts _ g2 b2

/-- Witness for C5 (as amended): the example payload of the specification. -/
theorem processTimelineData_decode_witness :
    ∃ r, processTimelineData TimelineManager.init specExampleDoc "1" 7000 = some r ∧
      r.state.maxTimingsNum = specExampleDoc.keys.length ∧
      (∀ (i : Nat) (k : String), specExampleDoc.keys[i]? = some k →
        readAt r.state.timings i = some (decimalValue k : Int) ∧
        readAt r.state.colours i = some (toUint8 (specExampleDoc.elem k 0))) ∧
      (∀ doc2 : JsonDocument, doc2.keys = specExampleDoc.keys →
        (∀ k, doc2.elem k 0 = specExampleDoc.elem k 0) →
        ∃ r2, processTimelineData TimelineManager.init doc2 "1" 7000 = some r2 ∧
          r2.state.timings = r.state.timings ∧ r2.state.colours = r.state.colours ∧
          r2.state.maxTimingsNum = r.state.maxTimingsNum ∧
          ∀ ts : List Int, signalsFrom r2.state ts = signalsFrom r.state ts) :=
  processTimelineData_decode TimelineManager.init specExampleDoc "1" 7000
    (by decide) (by decide) (by decide)

/-- C5, counterexample. The key `"2147483648"` is a non-empty decimal string,
the payload has one entry, and the decoder stores `2147483647` in `timings[0]`,
not the decimal value `2147483648` of the key. -/
theorem processTimelineData_decode_long_key :
    IsDecimalKey "2147483648" ∧ longKeyDoc.keys = ["2147483648"] ∧
    decimalValue "2147483648" = 2147483648 ∧
    ∃ r, processTimelineData TimelineManager.init longKeyDoc "1" 0 = some r ∧
      r.state.maxTimingsNum = 1 ∧ r.state.timings 0 = 2147483647 ∧
      r.state.timings 0 ≠ (decimalValue "2147483648" : Int) := by
  refine ⟨by decide, rfl, by decide, _, rfl, rfl, rfl, by decide⟩

/-! ## C6: the empty payload -/

/-- C6. Empty payload: on a payload with no entry `processTimelineData` returns
with `already_got_data` and `gotToken` false, has requested `clearTimeline`
(with the reply of `getTimelineNumber`), and has left `timings`, `colours`,
`maxTimingsNum`, `runNum`, `playStartTime` and `signal` as they were. -/
theorem processTimelineData_empty (s : TimelineManager) (doc : JsonDocument)
    (tn : String) (now : Int) (h : doc.keys = []) :
    ∃ r, processTimelineData s doc tn now = some r ∧
      r.state.already_got_data = false ∧ r.state.gotToken = false ∧
      r.cleared = some tn ∧
      r.state.timings = s.timings ∧ r.state.colours = s.colours ∧
      r.state.maxTimingsNum = s.maxTimingsNum ∧ r.state.runNum = s.runNum ∧
      r.state.playStartTime = s.playStartTime ∧ r.state.signal = s.signal := by
  unfold processTimelineData
  rw [h]
  simp only [storeKeys, if_true]
  exact ⟨_, rfl, rfl, rfl, rfl, rfl, rfl, rfl, rfl, rfl, rfl⟩

/-- Witness for C6: the payload `{}` decoded by an object that is playing the
example of the specification. -/
theorem processTimelineData_empty_witness :
    ∃ r, processTimelineData specExampleLoaded emptyDoc "1" 9000 = some r ∧
      r.state.already_got_data = false ∧ r.state.gotToken = false ∧
      r.cleared = some "1" ∧
      r.state.timings = specExampleLoaded.timings ∧
      r.state.colours = specExampleLoaded.colours ∧
      r.state.maxTimingsNum = specExampleLoaded.maxTimingsNum ∧
      r.state.runNum = specExampleLoaded.runNum ∧
      r.state.playStartTime = specExampleLoaded.playStartTime ∧
      r.state.signal = specExampleLoaded.signal :=
  processTimelineData_empty specExampleLoaded emptyDoc "1" 9000 rfl

/-! ## C7: the cursor on (re)load -/

/-- C7, the code at the failing input. Starting from the constructed object,
load three events at 0, tick at 150 and 250 (the cursor reaches 2), and load a
four-event payload at 5000: the decoder returns with `playStartTime = 5000` but
`runNum` still 2, and the following ticks dispatch the third event first; the
colours 5 and 6 of the first two events are not returned in this pass. -/
theorem processTimelineData_keeps_cursor :
    ∃ r1 t1 t2 r2,
      processTimelineData TimelineManager.init firstDoc "1" 0 = some r1 ∧
      checkTimelineData r1.state 150 = some t1 ∧
      checkTimelineData t1.state 250 = some t2 ∧ t2.state.runNum = 2 ∧
      processTimelineData t2.state secondDoc "1" 5000 = some r2 ∧
      r2.state.playStartTime = 5000 ∧ r2.state.runNum = 2 ∧
      signalsFrom r2.state [5050, 5100, 5200, 5300, 5400] = some [2, 2, 2, 7, 7] := by
  refine ⟨_, _, _, _, rfl, rfl, rfl, rfl, rfl, rfl, rfl, rfl⟩

/-! ## C8: the example of the specification -/

/-- A tick that finds a non-positive offset at a cursor inside the table
changes nothing and returns the stored signal. -/
theorem tick_stall (s : TimelineManager) (now : Int) (tr : Int)
    (hplay : s.playing = true) (hrun : s.runNum ≤ s.maxTimingsNum - 2)
    (htr : readAt s.timings s.runNum = some tr) (hz : tr ≤ 0) :
    checkTimelineData s now = some ⟨s, s.signal, [Access.timings s.runNum]⟩ := by
  unfold checkTimelineData checkTimelineDataAt
  rw [if_pos hplay, wrapGuard_of_le s now hrun]
  simp only [htr]
  rw [if_neg (by omega)]

/-- C8 (as amended). The example of the specification: after the table with
offsets `0, 500, 1000` and colour codes `0, 1, 2` is loaded at `epochStart` into
an object with `runNum = 0` and `signal = 0`, the ticks at `epochStart`,
`epochStart + 600` and `epochStart + 1100` return `0, 0, 0`. -/
theorem spec_example_signals (s : TimelineManager) (tn : String) (epochStart : Int)
    (hrun : s.runNum = 0) (hsig : s.signal = 0) :
    ∃ r, processTimelineData s specExampleDoc tn epochStart = some r ∧
      r.state.maxTimingsNum = 3 ∧ r.state.runNum = 0 ∧ r.state.signal = 0 ∧
      r.state.timings 0 = 0 ∧ r.state.timings 1 = 500 ∧ r.state.timings 2 = 1000 ∧
      r.state.colours 0 = 0 ∧ r.state.colours 1 = 1 ∧ r.state.colours 2 = 2 ∧
      signalsFrom r.state [epochStart, epochStart + 600, epochStart + 1100]
        = some [0, 0, 0] := by
  obtain ⟨r, hres, hm, htab⟩ := decode_table s specExampleDoc tn epochStart
    (by decide) (by decide) (by decide)
  have hc := processTimelineData_cursor s specExampleDoc tn epochStart r hres
  have h0 := htab 0 "0" rfl
  have h1 := htab 1 "500" rfl
  have h2 := htab 2 "1000" rfl
  have d0 : (decimalValue "0" : Int) = 0 := by decide
  have d1 : (decimalValue "500" : Int) = 500 := by decide
  have d2 : (decimalValue "1000" : Int) = 1000 := by decide
  have c0 : toUint8 (specExampleDoc.elem "0" 0) = 0 := by decide
  have c1 : toUint8 (specExampleDoc.elem "500" 0) = 1 := by decide
  have c2 : toUint8 (specExampleDoc.elem "1000" 0) = 2 := by decide
  have i1 : readAt r.state.timings ((1 : Nat) : Int) = some (r.state.timings 1) :=
    readAt_of_range r.state.timings (by decide) (by decide)
  have i2 : readAt r.state.timings ((2 : Nat) : Int) = some (r.state.timings 2) :=
    readAt_of_range r.state.timings (by decide) (by decide)
  have j1 : readAt r.state.colours ((1 : Nat) : Int) = some (r.state.colours 1) :=
    readAt_of_range r.state.colours (by decide) (by decide)
  have j2 : readAt r.state.colours ((2 : Nat) : Int) = some (r.state.colours 2) :=
    readAt_of_range r.state.colours (by decide) (by decide)
  have t0 : r.state.timings 0 = 0 := by
    have := h0.1
    rw [Nat.cast_zero, readAt_zero, d0] at this
    exact Option.some.inj this
  have hN : r.state.maxTimingsNum = 3 := by
    rw [hm]
    rfl
  have hr0 : r.state.runNum = 0 := by rw [hc.1, hrun]
  have hs0 : r.state.signal = 0 := by rw [hc.2.1, hsig]
  have stall : ∀ now : Int, ∃ reads, checkTimelineData r.state now =
      some ⟨r.state, r.state.signal, reads⟩ := by
    intro now
    by_cases hp : r.state.playing = true
    · refine ⟨_, tick_stall r.state now (r.state.timings 0) hp ?_ ?_ ?_⟩
      · rw [hr0, hN]
        decide
      · rw [hr0, readAt_zero]
      · rw [t0]
    · refine ⟨[], ?_⟩
      unfold checkTimelineData checkTimelineDataAt
      rw [if_neg hp]
  refine ⟨r, hres, hN, hr0, hs0, t0, ?_, ?_, ?_, ?_, ?_, ?_⟩
  · have := h1.1
    rw [i1, d1] at this
    exact Option.some.inj this
  · have := h2.1
    rw [i2, d2] at this
    exact Option.some.inj this
  · have := h0.2
    rw [Nat.cast_zero, readAt_zero, c0] at this
    exact Option.some.inj this
  · have := h1.2
    rw [j1, c1] at this
    exact Option.some.inj this
  · have := h2.2
    rw [j2, c2] at this
    exact Option.some.inj this
  · obtain ⟨_, e1⟩ := stall epochStart
    obtain ⟨_, e2⟩ := stall (epochStart + 600)
    obtain ⟨_, e3⟩ := stall (epochStart + 1100)
    simp only [signalsFrom, e1, e2, e3, Option.map_some', hs0]

/-- Witness for C8 (as amended): the load at clock reading 7000 into the
constructed object. -/
theorem spec_example_signals_witness :
    ∃ r, processTimelineData TimelineManager.init specExampleDoc "1" 7000 = some r ∧
      r.state.maxTimingsNum = 3 ∧ r.state.runNum = 0 ∧ r.state.signal = 0 ∧
      r.state.timings 0 = 0 ∧ r.state.timings 1 = 500 ∧ r.state.timings 2 = 1000 ∧
      r.state.colours 0 = 0 ∧ r.state.colours 1 = 1 ∧ r.state.colours 2 = 2 ∧
      signalsFrom r.state [7000, 7000 + 600, 7000 + 1100] = some [0, 0, 0] :=
  spec_example_signals TimelineManager.init "1" 7000 rfl rfl

/-- C8, counterexample. With the example table loaded at clock reading 7000
into the constructed object (`runNum = 0`, `signal = 0`), the ticks at 7000,
7600 and 8100 do not return `0, 0, 1`. -/
theorem spec_example_signals_counterexample :
    processTimelineData TimelineManager.init specExampleDoc "1" 7000
      = some ⟨specExampleLoaded, none⟩ ∧
    specExampleLoaded.runNum = 0 ∧ specExampleLoaded.signal = 0 ∧
    signalsFrom specExampleLoaded [7000, 7600, 8100] ≠ some [0, 0, 1] := by
  refine ⟨rfl, rfl, rfl, by decide⟩

/-! ## C9: monotonic dispatch -/

/-- One tick, with the readings of its two `millis()` calls, in a state with a
non-negative cursor and a table of `1..50` events, returns and has one of the
six shapes of `StepShapeAt`; it returns the signal it leaves stored. -/
theorem tickAt_shape (s : TimelineManager) (t1 t2 : Int)
    (h0 : 0 ≤ s.runNum) (h1 : 1 ≤ s.maxTimingsNum) (hN : s.maxTimingsNum ≤ 50) :
    ∃ r, checkTimelineDataAt s t1 t2 = some r ∧ StepShapeAt s.signal s r ∧
      r.ret = r.state.signal ∧ 0 ≤ r.state.runNum ∧
      r.state.maxTimingsNum = s.maxTimingsNum := by
  by_cases hplay : s.playing = true
  · by_cases hrun : s.runNum > s.maxTimingsNum - 2
    · obtain ⟨r, h, _, _, _, hm, _, hret, hhold, hdisp, hover, _⟩ :=
        tickAt_wrapped s t1 t2 hplay hrun
      have key : StepShapeAt s.signal s r ∧ 0 ≤ r.state.runNum := by
        by_cases c : s.timings 0 ≤ 0 ∨ elapsed t2 (toLong (toULong t1)) < s.timings 0
        · obtain ⟨a, b, _⟩ := hhold c
          exact ⟨Or.inr (Or.inr (Or.inr (Or.inl ⟨hrun, by rw [hret, b], a⟩))),
            by rw [a]⟩
        · have c1 := (not_or.mp c).1
          have c2 := (not_or.mp c).2
          by_cases d : elapsed t2 (toLong (toULong t1)) ≤ s.timings 1
          · obtain ⟨a, b, _⟩ := hdisp ⟨by omega, by omega, d⟩
            exact ⟨Or.inr (Or.inr (Or.inr (Or.inr (Or.inl
              ⟨hrun, by rw [readAt_zero, hret, b], a⟩)))), by rw [a]; decide⟩
          · obtain ⟨a, b, _⟩ := hover ⟨by omega, by omega, by omega⟩
            exact ⟨Or.inr (Or.inr (Or.inr (Or.inr (Or.inr
              ⟨hrun, by rw [hret, b], a⟩)))), by rw [a]; omega⟩
      exact ⟨r, h, key.1, hret, key.2, hm⟩
    · have hle : s.runNum ≤ s.maxTimingsNum - 2 := by omega
      have e0 := readAt_of_range s.timings h0
        (by push_cast; omega : s.runNum < ((50 : Nat) : Int))
      have e1 := readAt_of_range s.timings (by omega : 0 ≤ s.runNum + 1)
        (by push_cast; omega : s.runNum + 1 < ((50 : Nat) : Int))
      have ec := readAt_of_range s.colours h0
        (by push_cast; omega : s.runNum < ((50 : Nat) : Int))
      rw [tickAt_of_le s t1 t2 (Or.inr hle)]
      unfold checkTimelineData checkTimelineDataAt
      rw [if_pos hplay, wrapGuard_of_le s t2 hle]
      simp only [e0]
      generalize s.timings ⟨s.runNum.toNat, by omega⟩ = tr
      generalize hn : s.timings ⟨(s.runNum + 1).toNat, by omega⟩ = tn at e1
      by_cases hp : tr > 0
      · rw [if_pos hp]
        unfold timedStep
        simp only [e1, ec]
        by_cases c0 : elapsed t2 s.playStartTime < s.timings 0
        · rw [if_pos c0]
          exact ⟨_, rfl, Or.inl ⟨rfl, rfl⟩, rfl, h0, rfl⟩
        · rw [if_neg c0]
          by_cases c1 : elapsed t2 s.playStartTime ≥ tr
          · rw [if_pos c1]
            by_cases c2 : elapsed t2 s.playStartTime ≤ tn
            · rw [if_pos c2]
              exact ⟨_, rfl, Or.inr (Or.inr (Or.inl ⟨hle, ec, rfl⟩)), rfl,
                by show 0 ≤ s.runNum + 1; omega, rfl⟩
            · rw [if_neg c2, if_pos (by omega)]
              exact ⟨_, rfl, Or.inr (Or.inl ⟨hle, rfl, rfl⟩), rfl,
                by show 0 ≤ s.maxTimingsNum; omega, rfl⟩
          · rw [if_neg c1]
            by_cases c3 : elapsed t2 s.playStartTime ≥ tn
            · rw [if_pos c3]
              exact ⟨_, rfl, Or.inr (Or.inl ⟨hle, rfl, rfl⟩), rfl,
                by show 0 ≤ s.maxTimingsNum; omega, rfl⟩
            · rw [if_neg c3]
              exact ⟨_, rfl, Or.inl ⟨rfl, rfl⟩, rfl, h0, rfl⟩
      · rw [if_neg hp]
        exact ⟨_, rfl, Or.inl ⟨rfl, rfl⟩, rfl, h0, rfl⟩
  · rw [tickAt_of_le s t1 t2 (Or.inl (by simpa using hplay))]
    unfold checkTimelineData checkTimelineDataAt
    rw [if_neg hplay]
    exact ⟨_, rfl, Or.inl ⟨rfl, rfl⟩, rfl, h0, rfl⟩

theorem runTicksAt_shape (ts : List (Int × Int)) :
    ∀ s : TimelineManager, 0 ≤ s.runNum → 1 ≤ s.maxTimingsNum → s.maxTimingsNum ≤ 50 →
      ∃ tr, runTicksAt s ts = some tr ∧ tr.length = ts.length ∧
        TraceShapeAt s.signal s tr := by
  induction ts with
  | nil =>
    intro s _ _ _
    exact ⟨[], rfl, rfl, trivial⟩
  | cons t ts ih =>
    intro s h0 h1 hN
    obtain ⟨r, hr, hshape, hret, hr0, hm⟩ := tickAt_shape s t.1 t.2 h0 h1 hN
    obtain ⟨tr, htr, hlen, htrace⟩ := ih r.state hr0 (by omega) (by omega)
    refine ⟨r :: tr, ?_, ?_, ?_⟩
    · simp only [runTicksAt, hr, htr, Option.map_some']
    · simp only [List.length_cons, hlen]
    · refine ⟨hshape, ?_⟩
      rw [hret]
      exact htrace

/-- C9 (as amended). Monotonic dispatch: from every state with a non-negative
cursor and a table of `N` events (`1 ≤ N ≤ 50`), sorted or not, and for every
sequence of ticks, each given the readings of its two `millis()` calls, every
tick returns and has one of six shapes.  With the cursor inside the table
(`runNum ≤ N - 2`, or not playing) it returns the value returned by the
previous tick (initially the stored signal) with the cursor kept, or with the
cursor set to `N` (overrun), or it returns the colour of the event at the
cursor and advances the cursor by exactly one.  With the cursor beyond `N - 2`
the guard resets the cursor to 0, and the tick returns the previous value with
the cursor at 0, or the colour of event 0 with the cursor at 1, or the previous
value with the cursor at `N`. -/
theorem monotonic_dispatch (s : TimelineManager) (ts : List (Int × Int))
    (h0 : 0 ≤ s.runNum) (h1 : 1 ≤ s.maxTimingsNum) (hN : s.maxTimingsNum ≤ 50) :
    ∃ tr, runTicksAt s ts = some tr ∧ tr.length = ts.length ∧
      TraceShapeAt s.signal s tr :=
  runTicksAt_shape ts s h0 h1 hN

/-- Witness for C9 (as amended): five ticks on the table `100, 200, 300`; the
clock advances between the two readings of the fourth. -/
theorem monotonic_dispatch_witness :
    ∃ tr, runTicksAt (playingAt [100, 200, 300] [1, 2, 3] 3 0 0 9)
        [(0, 0), (150, 150), (250, 250), (260, 261), (400, 400)] = some tr ∧
      tr.length
        = [((0 : Int), (0 : Int)), (150, 150), (250, 250), (260, 261), (400, 400)].length ∧
      TraceShapeAt (playingAt [100, 200, 300] [1, 2, 3] 3 0 0 9).signal
        (playingAt [100, 200, 300] [1, 2, 3] 3 0 0 9) tr :=
  monotonic_dispatch (playingAt [100, 200, 300] [1, 2, 3] 3 0 0 9)
    [(0, 0), (150, 150), (250, 250), (260, 261), (400, 400)]
    (by decide) (by decide) (by decide)

/-- C9, counterexample. The sorted table `100, 200, 300` is loaded at clock
reading 0 and polled at the strictly increasing times 0 and 250: the second
tick moves the cursor from 0 to 3, over the three events of the table, and
returns the value returned before. -/
theorem monotonic_dispatch_counterexample :
    ∃ r0 t1 t2,
      processTimelineData TimelineManager.init firstDoc "1" 0 = some r0 ∧
      r0.state.maxTimingsNum = 3 ∧
      r0.state.timings 0 = 100 ∧ r0.state.timings 1 = 200 ∧ r0.state.timings 2 = 300 ∧
      checkTimelineData r0.state 0 = some t1 ∧ t1.state.runNum = 0 ∧
      checkTimelineData t1.state 250 = some t2 ∧ t2.state.runNum = 3 ∧
      t2.ret = t1.ret ∧ ¬ (t2.state.runNum ≤ t1.state.runNum + 1) := by
  refine ⟨_, _, _, rfl, rfl, rfl, rfl, rfl, rfl, rfl, rfl, rfl, rfl, by decide⟩

/-! ## C10: wraparound -/

/-- C10 (as amended). Wraparound: for a table of `N` events, `2 ≤ N ≤ 50`,
with strictly positive non-decreasing offsets, in a playing state with a
non-negative cursor, a tick whose elapsed time exceeds the final offset
`timings[N - 1]` either finds the cursor inside the table (`runNum ≤ N - 2`),
sets it to `N` and leaves the reset to the guard of the next tick, whatever the
readings `u1`, `u2` of that tick; or finds the cursor beyond `N - 2`, and its
own guard performs the reset.  The guard sets `runNum = 0` and `playStartTime`
to its clock reading; the resetting tick ends with `playStartTime` holding that
reading and, when the time elapsed between its two readings is below
`timings[0]`, with `runNum = 0`, the stored signal returned and nothing
dispatched. -/
theorem wraparound_after_final_offset (s : TimelineManager) (t1 now : Int) (tl : Int)
    (hplay : s.playing = true)
    (h0 : 0 ≤ s.runNum)
    (h2 : 2 ≤ s.maxTimingsNum)
    (hN : s.maxTimingsNum ≤ 50)
    (hpos : ∀ i : Fin 50, (i.val : Int) < s.maxTimingsNum → 0 < s.timings i)
    (hmono : ∀ i j : Fin 50, i ≤ j → (j.val : Int) < s.maxTimingsNum →
      s.timings i ≤ s.timings j)
    (hlast : readAt s.timings (s.maxTimingsNum - 1) = some tl)
    (hover : tl < elapsed now s.playStartTime) :
    ∃ r, checkTimelineDataAt s t1 now = some r ∧
      ((s.runNum ≤ s.maxTimingsNum - 2 ∧ r.state.runNum = s.maxTimingsNum ∧
          r.state.playStartTime = s.playStartTime ∧
          ∀ u1 u2 : Int,
            wrapGuard r.state u1
              = { r.state with runNum := 0, playStartTime := toLong (toULong u1) } ∧
            ∃ r2, checkTimelineDataAt r.state u1 u2 = some r2 ∧
              r2.state.playStartTime = toLong (toULong u1) ∧
              ((0 ≤ u1 ∧ u1 < 2147483648) → r2.state.playStartTime = u1) ∧
              (elapsed u2 (toLong (toULong u1)) < s.timings 0 →
                r2.state.runNum = 0 ∧ r2.state.signal = s.signal ∧
                r2.ret = s.signal ∧ r2.dispatched = [])) ∨
       (s.runNum > s.maxTimingsNum - 2 ∧
          wrapGuard s t1
            = { s with runNum := 0, playStartTime := toLong (toULong t1) } ∧
          r.state.playStartTime = toLong (toULong t1) ∧
          ((0 ≤ t1 ∧ t1 < 2147483648) → r.state.playStartTime = t1) ∧
          (elapsed now (toLong (toULong t1)) < s.timings 0 →
            r.state.runNum = 0 ∧ r.state.signal = s.signal ∧
            r.ret = s.signal ∧ r.dispatched = []))) := by
  by_cases hrun : s.runNum > s.maxTimingsNum - 2
  · obtain ⟨hg, r, h, hp, hb, hhold⟩ := tickAt_reset s t1 now hplay hrun
    exact ⟨r, h, Or.inr ⟨hrun, hg, hp, hb, hhold⟩⟩
  · have hle : s.runNum ≤ s.maxTimingsNum - 2 := by omega
    have e1 := readAt_of_range s.timings (by omega : 0 ≤ s.runNum + 1)
      (by push_cast; omega : s.runNum + 1 < ((50 : Nat) : Int))
    have el := readAt_of_range s.timings (by omega : 0 ≤ s.maxTimingsNum - 1)
      (by push_cast; omega : s.maxTimingsNum - 1 < ((50 : Nat) : Int))
    rw [el] at hlast
    injection hlast with hlast
    have hm : s.timings ⟨(s.runNum + 1).toNat, by omega⟩
        ≤ s.timings ⟨(s.maxTimingsNum - 1).toNat, by omega⟩ :=
      hmono _ _ (by simp only [Fin.le_def]; omega) (by simp only []; omega)
    obtain ⟨r, h, hr, _, hps, _, _, _, hnext⟩ :=
      tick_overrun s t1 now _ hplay h0 hle hN hpos hmono e1 (by omega)
    exact ⟨r, h, Or.inl ⟨hle, hr, hps, hnext⟩⟩

/-- Witness for C10 (as amended): the table `100, 200, 300` polled 350 ms after
the epoch with the cursor at 0. -/
theorem wraparound_after_final_offset_witness :
    ∃ r, checkTimelineDataAt (playingAt [100, 200, 300] [1, 2, 3] 3 0 0 9) 350 350 = some r ∧
      (((playingAt [100, 200, 300] [1, 2, 3] 3 0 0 9).runNum
            ≤ (playingAt [100, 200, 300] [1, 2, 3] 3 0 0 9).maxTimingsNum - 2 ∧
          r.state.runNum = (playingAt [100, 200, 300] [1, 2, 3] 3 0 0 9).maxTimingsNum ∧
          r.state.playStartTime
            = (playingAt [100, 200, 300] [1, 2, 3] 3 0 0 9).playStartTime ∧
          ∀ u1 u2 : Int,
            wrapGuard r.state u1
              = { r.state with runNum := 0, playStartTime := toLong (toULong u1) } ∧
            ∃ r2, checkTimelineDataAt r.state u1 u2 = some r2 ∧
              r2.state.playStartTime = toLong (toULong u1) ∧
              ((0 ≤ u1 ∧ u1 < 2147483648) → r2.state.playStartTime = u1) ∧
              (elapsed u2 (toLong (toULong u1))
                  < (playingAt [100, 200, 300] [1, 2, 3] 3 0 0 9).timings 0 →
                r2.state.runNum = 0 ∧
                r2.state.signal = (playingAt [100, 200, 300] [1, 2, 3] 3 0 0 9).signal ∧
                r2.ret = (playingAt [100, 200, 300] [1, 2, 3] 3 0 0 9).signal ∧
                r2.dispatched = [])) ∨
       ((playingAt [100, 200, 300] [1, 2, 3] 3 0 0 9).runNum
            > (playingAt [100, 200, 300] [1, 2, 3] 3 0 0 9).maxTimingsNum - 2 ∧
          wrapGuard (playingAt [100, 200, 300] [1, 2, 3] 3 0 0 9) 350
            = { playingAt [100, 200, 300] [1, 2, 3] 3 0 0 9 with
                runNum := 0, playStartTime := toLong (toULong 350) } ∧
          r.state.playStartTime = toLong (toULong 350) ∧
          (((0 : Int) ≤ 350 ∧ (350 : Int) < 2147483648) → r.state.playStartTime = 350) ∧
          (elapsed 350 (toLong (toULong 350))
              < (playingAt [100, 200, 300] [1, 2, 3] 3 0 0 9).timings 0 →
            r.state.runNum = 0 ∧
            r.state.signal = (playingAt [100, 200, 300] [1, 2, 3] 3 0 0 9).signal ∧
            r.ret = (playingAt [100, 200, 300] [1, 2, 3] 3 0 0 9).signal ∧
            r.dispatched = []))) :=
  wraparound_after_final_offset (playingAt [100, 200, 300] [1, 2, 3] 3 0 0 9) 350 350 300
    (by decide) (by decide) (by decide) (by decide) (by decide) (by decide)
    (by decide) (by decide)

/-- C10, counterexample. (i) The sorted example table `0, 500, 1000`, loaded at
7000: the tick at 8100 sees an elapsed time of 1100, beyond the final offset
1000, yet the next tick, at 8200, leaves `playStartTime` at 7000.  (ii) The
sorted table `100, 200` with the cursor at 1 and the epoch at 0: the tick at
300 sees an elapsed time of 300, beyond the final offset 200, and resets at
once; the next tick, at 310, leaves `playStartTime` at 300. -/
theorem wraparound_after_final_offset_counterexample :
    (∃ r1 r2, specExampleLoaded.playing = true ∧ specExampleLoaded.maxTimingsNum = 3 ∧
      specExampleLoaded.timings 2 < elapsed 8100 specExampleLoaded.playStartTime ∧
      checkTimelineData specExampleLoaded 8100 = some r1 ∧
      checkTimelineData r1.state 8200 = some r2 ∧
      r2.state.playStartTime = 7000 ∧
      r2.state.playStartTime ≠ toLong (toULong (8200 : Int))) ∧
    (∃ r1 r2, (playingAt [100, 200] [1, 2] 2 1 0 1).playing = true ∧
      (playingAt [100, 200] [1, 2] 2 1 0 1).timings 1
        < elapsed 300 (playingAt [100, 200] [1, 2] 2 1 0 1).playStartTime ∧
      checkTimelineData (playingAt [100, 200] [1, 2] 2 1 0 1) 300 = some r1 ∧
      checkTimelineData r1.state 310 = some r2 ∧
      r2.state.playStartTime = 300 ∧
      r2.state.playStartTime ≠ toLong (toULong (310 : Int))) := by
  refine ⟨⟨_, _, rfl, rfl, by decide, rfl, rfl, rfl, by decide⟩,
    ⟨_, _, rfl, by decide, rfl, rfl, rfl, by decide⟩⟩

/-! ## C11: the static colours -/

/-- C11. Static colour dispatch: for the codes 0 to 6 `changeColours` leaves the
object as it was and writes, whatever the clock and the pattern state, the
three pins so that (red, green, blue) end as Red (on, off, off) for 0, Green
(off, on, off) for 1, Blue (off, off, on) for 2, Cyan (off, on, on) for 3,
Magenta (on, off, on) for 4, Yellow (on, on, off) for 5 and White (on, on, on)
for 6, from any previous pin levels. -/
theorem changeColours_static (s : ColourPatterns) (now : Int) (prev : Leds) :
    (s.changeColours 0 now = ⟨s, ColourPatterns.Red⟩ ∧
      prev.apply (s.changeColours 0 now).writes = ⟨true, false, false⟩) ∧
    (s.changeColours 1 now = ⟨s, ColourPatterns.Green⟩ ∧
      prev.apply (s.changeColours 1 now).writes = ⟨false, true, false⟩) ∧
    (s.changeColours 2 now = ⟨s, ColourPatterns.Blue⟩ ∧
      prev.apply (s.changeColours 2 now).writes = ⟨false, false, true⟩) ∧
    (s.changeColours 3 now = ⟨s, ColourPatterns.Cyan⟩ ∧
      prev.apply (s.changeColours 3 now).writes = ⟨false, true, true⟩) ∧
    (s.changeColours 4 now = ⟨s, ColourPatterns.Magenta⟩ ∧
      prev.apply (s.changeColours 4 now).writes = ⟨true, false, true⟩) ∧
    (s.changeColours 5 now = ⟨s, ColourPatterns.Yellow⟩ ∧
      prev.apply (s.changeColours 5 now).writes = ⟨true, true, false⟩) ∧
    (s.changeColours 6 now = ⟨s, ColourPatterns.White⟩ ∧
      prev.apply (s.changeColours 6 now).writes = ⟨true, true, true⟩) := by
  refine ⟨⟨rfl, rfl⟩, ⟨rfl, rfl⟩, ⟨rfl, rfl⟩, ⟨rfl, rfl⟩, ⟨rfl, rfl⟩, ⟨rfl, rfl⟩, ⟨rfl, rfl⟩⟩

/-! ## C12: unmatched codes -/

/-- A code outside 0..13 selects the `default` branch. -/
theorem changeColours_default (s : ColourPatterns) (choice now : Int)
    (h : choice < 0 ∨ 13 < choice) :
    s.changeColours choice now = ⟨s, ColourPatterns.Off⟩ := by
  have ne : ∀ k : Int, 0 ≤ k → k ≤ 13 → ¬ choice = k := fun k h0 h13 => by omega
  unfold ColourPatterns.changeColours
  rw [if_neg (ne 0 (by decide) (by decide)), if_neg (ne 1 (by decide) (by decide)),
    if_neg (ne 2 (by decide) (by decide)), if_neg (ne 3 (by decide) (by decide)),
    if_neg (ne 4 (by decide) (by decide)), if_neg (ne 5 (by decide) (by decide)),
    if_neg (ne 6 (by decide) (by decide)), if_neg (ne 7 (by decide) (by decide)),
    if_neg (ne 8 (by decide) (by decide)), if_neg (ne 9 (by decide) (by decide)),
    if_neg (ne 10 (by decide) (by decide)), if_neg (ne 11 (by decide) (by decide)),
    if_neg (ne 12 (by decide) (by decide)), if_neg (ne 13 (by decide) (by decide))]

/-- C12. Unmatched codes default to Off: for every integer `choice` below 0 or
above 13, `changeColours(choice)` returns, writes the three pins low (all
channels off, from any previous levels) and leaves the object unchanged. -/
theorem changeColours_unmatched_off (s : ColourPatterns) (choice now : Int) (prev : Leds)
    (h : choice < 0 ∨ 13 < choice) :
    (s.changeColours choice now).state = s ∧
    (s.changeColours choice now).writes = ColourPatterns.Off ∧
    prev.apply (s.changeColours choice now).writes = ⟨false, false, false⟩ := by
  rw [changeColours_default s choice now h]
  exact ⟨rfl, rfl, rfl⟩

/-- Witness for C12: the codes 14 and -1. -/
theorem changeColours_unmatched_off_witness :
    ((ColourPatterns.init.changeColours 14 250).state = ColourPatterns.init ∧
      (ColourPatterns.init.changeColours 14 250).writes = ColourPatterns.Off ∧
      (Leds.mk true true true).apply (ColourPatterns.init.changeColours 14 250).writes
        = ⟨false, false, false⟩) ∧
    ((ColourPatterns.init.changeColours (-1) 250).state = ColourPatterns.init ∧
      (ColourPatterns.init.changeColours (-1) 250).writes = ColourPatterns.Off ∧
      (Leds.mk true true true).apply (ColourPatterns.init.changeColours (-1) 250).writes
        = ⟨false, false, false⟩) :=
  ⟨changeColours_unmatched_off ColourPatterns.init 14 250 ⟨true, true, true⟩
      (Or.inr (by decide)),
   changeColours_unmatched_off ColourPatterns.init (-1) 250 ⟨true, true, true⟩
      (Or.inl (by decide))⟩

/-! ## C18: codes that leave the pattern state alone -/

/-- C18. Pattern state is not reset by code changes: for every pattern state
and clock value, `changeColours` with a static code 0..6, with the StrobePlus
code 8 or with a code outside 0..13 leaves `previousMillis`, `threeWay`,
`rainbowWay`, `ledState`, `upDownFade`, `fadeSpeed` and `interval` unchanged,
and code 8 makes no pin write. -/
theorem changeColours_keeps_state (s : ColourPatterns) (choice now : Int)
    (h : (0 ≤ choice ∧ choice ≤ 6) ∨ choice = 8 ∨ choice < 0 ∨ 13 < choice) :
    (s.changeColours choice now).state = s ∧
    (s.changeColours choice now).state.previousMillis = s.previousMillis ∧
    (s.changeColours choice now).state.threeWay = s.threeWay ∧
    (s.changeColours choice now).state.rainbowWay = s.rainbowWay ∧
    (s.changeColours choice now).state.ledState = s.ledState ∧
    (s.changeColours choice now).state.upDownFade = s.upDownFade ∧
    (s.changeColours choice now).state.fadeSpeed = s.fadeSpeed ∧
    (s.changeColours choice now).state.interval = s.interval ∧
    (choice = 8 → (s.changeColours choice now).writes = []) := by
  have hs : (s.changeColours choice now).state = s := by
    rcases h with ⟨h0, h6⟩ | h8 | hout
    · interval_cases choice <;> rfl
    · subst h8
      rfl
    · rw [changeColours_default s choice now hout]
  refine ⟨hs, ?_, ?_, ?_, ?_, ?_, ?_, ?_, ?_⟩
  · rw [hs]
  · rw [hs]
  · rw [hs]
  · rw [hs]
  · rw [hs]
  · rw [hs]
  · rw [hs]
  · intro h8
    subst h8
    rfl

/-- Witness for C18: the StrobePlus code in the constructed object. -/
theorem changeColours_keeps_state_witness :
    (ColourPatterns.init.changeColours 8 250).state = ColourPatterns.init ∧
    (ColourPatterns.init.changeColours 8 250).state.previousMillis
      = ColourPatterns.init.previousMillis ∧
    (ColourPatterns.init.changeColours 8 250).state.threeWay
      = ColourPatterns.init.threeWay ∧
    (ColourPatterns.init.changeColours 8 250).state.rainbowWay
      = ColourPatterns.init.rainbowWay ∧
    (ColourPatterns.init.changeColours 8 250).state.ledState
      = ColourPatterns.init.ledState ∧
    (ColourPatterns.init.changeColours 8 250).state.upDownFade
      = ColourPatterns.init.upDownFade ∧
    (ColourPatterns.init.changeColours 8 250).state.fadeSpeed
      = ColourPatterns.init.fadeSpeed ∧
    (ColourPatterns.init.changeColours 8 250).state.interval
      = ColourPatterns.init.interval ∧
    ((8 : Int) = 8 → (ColourPatterns.init.changeColours 8 250).writes = []) :=
  changeColours_keeps_state ColourPatterns.init 8 250 (Or.inr (Or.inl rfl))

/-! ## C13, C14, C15: the interval-driven cycles -/

theorem gate_open (a d : Int) (h0 : 0 ≤ d) (h1 : d < 4294967296) :
    toULong (toULong (a + d) - toULong a) ≥ d := by
  unfold toULong
  omega

theorem map_range_succ {α : Type} (n : Nat) (f : Nat → α) :
    List.map f (List.range (n + 1)) = f 0 :: List.map (fun k => f (k + 1)) (List.range n) := by
  rw [List.range_succ_eq_map]
  simp [List.map_map, Function.comp_def]

theorem everyInterval_succ (p i : Int) (n : Nat) :
    everyInterval p i (n + 1) = (p + i) :: everyInterval (p + i) i n := by
  unfold everyInterval
  rw [map_range_succ]
  congr 1
  · simp
  · apply List.map_congr_left
    intro k _
    push_cast
    ring

/-- Successive calls at `a + interval`, `a + 2 * interval`, ... of a pattern
that, with the gate open, writes the colour of its phase and moves to the next
phase: the `k`-th call (from 0) writes the colour of phase `(t + k) % m`. -/
theorem renderAll_cycle (choice : Int) (m : Nat) (cyc : Nat → List PinWrite)
    (phase : ColourPatterns → Nat → Prop)
    (step : ∀ (s : ColourPatterns) (a : Int) (t : Nat), t < m → phase s t →
      s.previousMillis = toULong a → 0 ≤ s.interval → s.interval < 4294967296 →
      (s.changeColours choice (a + s.interval)).writes = cyc t ∧
      phase (s.changeColours choice (a + s.interval)).state ((t + 1) % m) ∧
      (s.changeColours choice (a + s.interval)).state.previousMillis
        = toULong (a + s.interval) ∧
      (s.changeColours choice (a + s.interval)).state.interval = s.interval) :
    ∀ (n : Nat) (s : ColourPatterns) (a : Int) (t : Nat), t < m → phase s t →
      s.previousMillis = toULong a → 0 ≤ s.interval → s.interval < 4294967296 →
      (s.renderAll choice (everyInterval a s.interval n)).2
        = (List.range n).map (fun k => cyc ((t + k) % m)) ∧
      phase (s.renderAll choice (everyInterval a s.interval n)).1 ((t + n) % m) := by
  intro n
  induction n with
  | zero =>
    intro s a t ht hph _ _ _
    refine ⟨rfl, ?_⟩
    show phase s ((t + 0) % m)
    rw [Nat.add_zero, Nat.mod_eq_of_lt ht]
    exact hph
  | succ n ih =>
    intro s a t ht hph hprev hi0 hi1
    obtain ⟨hw, hph2, hprev2, hint⟩ := step s a t ht hph hprev hi0 hi1
    have hm : 0 < m := Nat.lt_of_le_of_lt (Nat.zero_le t) ht
    have hrec := ih (s.changeColours choice (a + s.interval)).state (a + s.interval)
      ((t + 1) % m) (Nat.mod_lt _ hm) hph2 hprev2 (by rw [hint]; exact hi0)
      (by rw [hint]; exact hi1)
    rw [hint] at hrec
    rw [everyInterval_succ]
    simp only [ColourPatterns.renderAll]
    refine ⟨?_, ?_⟩
    · rw [hrec.1, hw, map_range_succ]
      congr 1
      · rw [Nat.add_zero, Nat.mod_eq_of_lt ht]
      · apply List.map_congr_left
        intro k _
        congr 1
        rw [Nat.mod_add_mod]
        congr 1
        omega
    · have := hrec.2
      rw [Nat.mod_add_mod] at this
      rw [show t + (n + 1) = t + 1 + n by omega]
      exact this

theorem rgbStrobe_step (s : ColourPatterns) (a : Int) (t : Nat) (ht : t < 3)
    (hph : s.threeWay = (t : Int)) (hprev : s.previousMillis = toULong a)
    (hi0 : 0 ≤ s.interval) (hi1 : s.interval < 4294967296) :
    (s.changeColours 9 (a + s.interval)).writes = rgbCycle.getD t [] ∧
    (s.changeColours 9 (a + s.interval)).state.threeWay = (((t + 1) % 3 : Nat) : Int) ∧
    (s.changeColours 9 (a + s.interval)).state.previousMillis = toULong (a + s.interval) ∧
    (s.changeColours 9 (a + s.interval)).state.interval = s.interval := by
  have hg := gate_open a s.interval hi0 hi1
  have e : s.changeColours 9 (a + s.interval) = s.RGBStrobe (a + s.interval) := rfl
  rw [e]
  unfold ColourPatterns.RGBStrobe
  rw [hprev]
  simp only []
  rw [if_pos hg, hph]
  interval_cases t <;> exact ⟨by rfl, by rfl, by rfl, by rfl⟩

theorem rainbow_step (s : ColourPatterns) (a : Int) (t : Nat) (ht : t < 6)
    (hph : s.rainbowWay = (t : Int)) (hprev : s.previousMillis = toULong a)
    (hi0 : 0 ≤ s.interval) (hi1 : s.interval < 4294967296) :
    (s.changeColours 10 (a + s.interval)).writes = rainbowCycle.getD t [] ∧
    (s.changeColours 10 (a + s.interval)).state.rainbowWay = (((t + 1) % 6 : Nat) : Int) ∧
    (s.changeColours 10 (a + s.interval)).state.previousMillis = toULong (a + s.interval) ∧
    (s.changeColours 10 (a + s.interval)).state.interval = s.interval := by
  have hg := gate_open a s.interval hi0 hi1
  have e : s.changeColours 10 (a + s.interval) = s.Rainbow (a + s.interval) := rfl
  rw [e]
  unfold ColourPatterns.Rainbow
  rw [hprev]
  simp only []
  rw [if_pos hg, hph]
  interval_cases t <;> exact ⟨by rfl, by rfl, by rfl, by rfl⟩

theorem halfstrobe_step (s : ColourPatterns) (a : Int) (t : Nat) (ht : t < 2)
    (hph : s.ledState = (t : Int)) (hprev : s.previousMillis = toULong a)
    (hi0 : 0 ≤ s.interval) (hi1 : s.interval < 4294967296) :
    (s.changeColours 11 (a + s.interval)).writes = halfstrobeCycle.getD t [] ∧
    (s.changeColours 11 (a + s.interval)).state.ledState = (((t + 1) % 2 : Nat) : Int) ∧
    (s.changeColours 11 (a + s.interval)).state.previousMillis = toULong (a + s.interval) ∧
    (s.changeColours 11 (a + s.interval)).state.interval = s.interval := by
  have hg := gate_open a s.interval hi0 hi1
  have e : s.changeColours 11 (a + s.interval) = s.Halfstrobe (a + s.interval) := rfl
  rw [e]
  unfold ColourPatterns.Halfstrobe
  rw [hprev]
  simp only []
  rw [if_pos hg, hph]
  interval_cases t <;> exact ⟨by rfl, by rfl, by rfl, by rfl⟩

theorem toULong_of_range (p : Int) (h0 : 0 ≤ p) (h1 : p < 4294967296) : toULong p = p := by
  unfold toULong
  omega

/-- C13. RGBStrobe cycle: from a state with `threeWay = 0` and `previousMillis = p`, the
calls `changeColours(9)` at the clock values `p + k * interval`, `k = 1, ..., n`,
write Red, Green, Blue, Red, ...: call number `k` writes colour number
`(k - 1) mod 3` of that list (the list below is indexed from 0), so the output
repeats every three calls, i.e. with period `3 * interval`; after every number
of calls `threeWay` is the number of calls modulo 3, within `0..2`. -/
theorem rgbStrobe_cycle (s : ColourPatterns) (p : Int) (n : Nat)
    (hphase : s.threeWay = 0) (hp : s.previousMillis = p)
    (hp0 : 0 ≤ p) (hp1 : p < 4294967296)
    (hi0 : 0 ≤ s.interval) (hi1 : s.interval < 4294967296) :
    (s.renderAll 9 (everyInterval p s.interval n)).2
      = (List.range n).map (fun k => rgbCycle.getD (k % 3) []) ∧
    (s.renderAll 9 (everyInterval p s.interval n)).1.threeWay = ((n % 3 : Nat) : Int) ∧
    0 ≤ (s.renderAll 9 (everyInterval p s.interval n)).1.threeWay ∧
    (s.renderAll 9 (everyInterval p s.interval n)).1.threeWay ≤ 2 := by
  have h := renderAll_cycle 9 3 (fun t => rgbCycle.getD t [])
    (fun st t => st.threeWay = (t : Int))
    (fun st a t ht hph hprev h0 h1 => by
      obtain ⟨g1, g2, g3, g4⟩ := rgbStrobe_step st a t ht hph hprev h0 h1
      exact ⟨g1, g2, g3, g4⟩)
    n s p 0 (by decide) (by show s.threeWay = ((0 : Nat) : Int); rw [hphase]; rfl)
    (by rw [hp, toULong_of_range p hp0 hp1]) hi0 hi1
  simp only [Nat.zero_add] at h
  refine ⟨h.1, h.2, ?_, ?_⟩
  · rw [h.2]
    exact Int.ofNat_nonneg _
  · rw [h.2]
    have : n % 3 < 3 := Nat.mod_lt _ (by decide)
    omega

/-- Witness for C13: seven calls on the constructed object, 100 ms apart. -/
theorem rgbStrobe_cycle_witness :
    (ColourPatterns.init.renderAll 9
        (everyInterval 0 ColourPatterns.init.interval 7)).2
      = (List.range 7).map (fun k => rgbCycle.getD (k % 3) []) ∧
    (ColourPatterns.init.renderAll 9
        (everyInterval 0 ColourPatterns.init.interval 7)).1.threeWay
      = ((7 % 3 : Nat) : Int) ∧
    0 ≤ (ColourPatterns.init.renderAll 9
        (everyInterval 0 ColourPatterns.init.interval 7)).1.threeWay ∧
    (ColourPatterns.init.renderAll 9
        (everyInterval 0 ColourPatterns.init.interval 7)).1.threeWay ≤ 2 :=
  rgbStrobe_cycle ColourPatterns.init 0 7 (by decide) (by decide) (by decide) (by decide)
    (by decide) (by decide)

/-- C14. Halfstrobe toggle: from a state with `ledState = LOW` and
`previousMillis = p`, the calls `changeColours(11)` at the clock values
`p + k * interval`, `k = 1, ..., n`, write Red on odd `k` and Blue on even `k`
(call number `k` writes colour number `(k - 1) mod 2` of Red, Blue; the list
below is indexed from 0), and `ledState` flips at every call: after `n` calls
it is `n mod 2`.  The output repeats with period `2 * interval`. -/
theorem halfstrobe_toggle (s : ColourPatterns) (p : Int) (n : Nat)
    (hphase : s.ledState = 0) (hp : s.previousMillis = p)
    (hp0 : 0 ≤ p) (hp1 : p < 4294967296)
    (hi0 : 0 ≤ s.interval) (hi1 : s.interval < 4294967296) :
    (s.renderAll 11 (everyInterval p s.interval n)).2
      = (List.range n).map (fun k => halfstrobeCycle.getD (k % 2) []) ∧
    (s.renderAll 11 (everyInterval p s.interval n)).1.ledState = ((n % 2 : Nat) : Int) ∧
    0 ≤ (s.renderAll 11 (everyInterval p s.interval n)).1.ledState ∧
    (s.renderAll 11 (everyInterval p s.interval n)).1.ledState ≤ 1 := by
  have h := renderAll_cycle 11 2 (fun t => halfstrobeCycle.getD t [])
    (fun st t => st.ledState = (t : Int))
    (fun st a t ht hph hprev h0 h1 => by
      obtain ⟨g1, g2, g3, g4⟩ := halfstrobe_step st a t ht hph hprev h0 h1
      exact ⟨g1, g2, g3, g4⟩)
    n s p 0 (by decide) (by show s.ledState = ((0 : Nat) : Int); rw [hphase]; rfl)
    (by rw [hp, toULong_of_range p hp0 hp1]) hi0 hi1
  simp only [Nat.zero_add] at h
  refine ⟨h.1, h.2, ?_, ?_⟩
  · rw [h.2]
    exact Int.ofNat_nonneg _
  · rw [h.2]
    have : n % 2 < 2 := Nat.mod_lt _ (by decide)
    omega

/-- Witness for C14: seven calls on the constructed object, 100 ms apart. -/
theorem halfstrobe_toggle_witness :
    (ColourPatterns.init.renderAll 11
        (everyInterval 0 ColourPatterns.init.interval 7)).2
      = (List.range 7).map (fun k => halfstrobeCycle.getD (k % 2) []) ∧
    (ColourPatterns.init.renderAll 11
        (everyInterval 0 ColourPatterns.init.interval 7)).1.ledState
      = ((7 % 2 : Nat) : Int) ∧
    0 ≤ (ColourPatterns.init.renderAll 11
        (everyInterval 0 ColourPatterns.init.interval 7)).1.ledState ∧
    (ColourPatterns.init.renderAll 11
        (everyInterval 0 ColourPatterns.init.interval 7)).1.ledState ≤ 1 :=
  halfstrobe_toggle ColourPatterns.init 0 7 (by decide) (by decide) (by decide) (by decide)
    (by decide) (by decide)

/-- C15. Rainbow order: from a state with `rainbowWay = 0` and `previousMillis = p`,
the calls `changeColours(10)` at the clock values `p + k * interval`,
`k = 1, ..., n`, write Red, Green, Blue, Cyan, Yellow, Magenta and repeat from
Red: call number `k` writes colour number `(k - 1) mod 6` of that list (the
list below is indexed from 0); after every number of calls `rainbowWay` is the
number of calls modulo 6, within `0..5`. -/
theorem rainbow_order (s : ColourPatterns) (p : Int) (n : Nat)
    (hphase : s.rainbowWay = 0) (hp : s.previousMillis = p)
    (hp0 : 0 ≤ p) (hp1 : p < 4294967296)
    (hi0 : 0 ≤ s.interval) (hi1 : s.interval < 4294967296) :
    (s.renderAll 10 (everyInterval p s.interval n)).2
      = (List.range n).map (fun k => rainbowCycle.getD (k % 6) []) ∧
    (s.renderAll 10 (everyInterval p s.interval n)).1.rainbowWay = ((n % 6 : Nat) : Int) ∧
    0 ≤ (s.renderAll 10 (everyInterval p s.interval n)).1.rainbowWay ∧
    (s.renderAll 10 (everyInterval p s.interval n)).1.rainbowWay ≤ 5 := by
  have h := renderAll_cycle 10 6 (fun t => rainbowCycle.getD t [])
    (fun st t => st.rainbowWay = (t : Int))
    (fun st a t ht hph hprev h0 h1 => by
      obtain ⟨g1, g2, g3, g4⟩ := rainbow_step st a t ht hph hprev h0 h1
      exact ⟨g1, g2, g3, g4⟩)
    n s p 0 (by decide) (by show s.rainbowWay = ((0 : Nat) : Int); rw [hphase]; rfl)
    (by rw [hp, toULong_of_range p hp0 hp1]) hi0 hi1
  simp only [Nat.zero_add] at h
  refine ⟨h.1, h.2, ?_, ?_⟩
  · rw [h.2]
    exact Int.ofNat_nonneg _
  · rw [h.2]
    have : n % 6 < 6 := Nat.mod_lt _ (by decide)
    omega

/-- Witness for C15: seven calls on the constructed object, 100 ms apart. -/
theorem rainbow_order_witness :
    (ColourPatterns.init.renderAll 10
        (everyInterval 0 ColourPatterns.init.interval 7)).2
      = (List.range 7).map (fun k => rainbowCycle.getD (k % 6) []) ∧
    (ColourPatterns.init.renderAll 10
        (everyInterval 0 ColourPatterns.init.interval 7)).1.rainbowWay
      = ((7 % 6 : Nat) : Int) ∧
    0 ≤ (ColourPatterns.init.renderAll 10
        (everyInterval 0 ColourPatterns.init.interval 7)).1.rainbowWay ∧
    (ColourPatterns.init.renderAll 10
        (everyInterval 0 ColourPatterns.init.interval 7)).1.rainbowWay ≤ 5 :=
  rainbow_order ColourPatterns.init 0 7 (by decide) (by decide) (by decide) (by decide)
    (by decide) (by decide)

/-! ## C16, C17: the fade speed -/

theorem changeColours_fade (s : ColourPatterns) (now : Int) :
    (s.changeColours 7 now).state.fadeSpeed = s.fadeAdjust.fadeSpeed ∧
    (s.changeColours 7 now).state.upDownFade = s.fadeAdjust.upDownFade := by
  have e : s.changeColours 7 now = s.Fade now := rfl
  rw [e]
  unfold ColourPatterns.Fade
  simp only []
  split_ifs <;> exact ⟨rfl, rfl⟩

theorem gated_keeps_fade_RGBStrobe (s : ColourPatterns) (now : Int) :
    (s.RGBStrobe now).state.fadeSpeed = s.fadeSpeed ∧
    (s.RGBStrobe now).state.upDownFade = s.upDownFade := by
  unfold ColourPatterns.RGBStrobe
  simp only []
  split_ifs <;> exact ⟨rfl, rfl⟩

theorem gated_keeps_fade_Rainbow (s : ColourPatterns) (now : Int) :
    (s.Rainbow now).state.fadeSpeed = s.fadeSpeed ∧
    (s.Rainbow now).state.upDownFade = s.upDownFade := by
  unfold ColourPatterns.Rainbow
  simp only []
  split_ifs <;> exact ⟨rfl, rfl⟩

theorem gated_keeps_fade_Halfstrobe (s : ColourPatterns) (now : Int) :
    (s.Halfstrobe now).state.fadeSpeed = s.fadeSpeed ∧
    (s.Halfstrobe now).state.upDownFade = s.upDownFade := by
  unfold ColourPatterns.Halfstrobe
  simp only []
  split_ifs <;> exact ⟨rfl, rfl⟩

theorem gated_keeps_fade_GRStrobe (s : ColourPatterns) (now : Int) :
    (s.GRStrobe now).state.fadeSpeed = s.fadeSpeed ∧
    (s.GRStrobe now).state.upDownFade = s.upDownFade := by
  unfold ColourPatterns.GRStrobe
  simp only []
  split_ifs <;> exact ⟨rfl, rfl⟩

theorem gated_keeps_fade_BGStrobe (s : ColourPatterns) (now : Int) :
    (s.BGStrobe now).state.fadeSpeed = s.fadeSpeed ∧
    (s.BGStrobe now).state.upDownFade = s.upDownFade := by
  unfold ColourPatterns.BGStrobe
  simp only []
  split_ifs <;> exact ⟨rfl, rfl⟩

theorem changeColours_not_fade (s : ColourPatterns) (c now : Int) (hc : c ≠ 7) :
    (s.changeColours c now).state.fadeSpeed = s.fadeSpeed ∧
    (s.changeColours c now).state.upDownFade = s.upDownFade := by
  unfold ColourPatterns.changeColours
  by_cases h0 : c = 0
  · rw [if_pos h0]
    exact ⟨rfl, rfl⟩
  rw [if_neg h0]
  by_cases h1 : c = 1
  · rw [if_pos h1]
    exact ⟨rfl, rfl⟩
  rw [if_neg h1]
  by_cases h2 : c = 2
  · rw [if_pos h2]
    exact ⟨rfl, rfl⟩
  rw [if_neg h2]
  by_cases h3 : c = 3
  · rw [if_pos h3]
    exact ⟨rfl, rfl⟩
  rw [if_neg h3]
  by_cases h4 : c = 4
  · rw [if_pos h4]
    exact ⟨rfl, rfl⟩
  rw [if_neg h4]
  by_cases h5 : c = 5
  · rw [if_pos h5]
    exact ⟨rfl, rfl⟩
  rw [if_neg h5]
  by_cases h6 : c = 6
  · rw [if_pos h6]
    exact ⟨rfl, rfl⟩
  rw [if_neg h6]
  rw [if_neg hc]
  by_cases h8 : c = 8
  · rw [if_pos h8]
    exact ⟨rfl, rfl⟩
  rw [if_neg h8]
  by_cases h9 : c = 9
  · rw [if_pos h9]
    exact gated_keeps_fade_RGBStrobe s now
  rw [if_neg h9]
  by_cases h10 : c = 10
  · rw [if_pos h10]
    exact gated_keeps_fade_Rainbow s now
  rw [if_neg h10]
  by_cases h11 : c = 11
  · rw [if_pos h11]
    exact gated_keeps_fade_Halfstrobe s now
  rw [if_neg h11]
  by_cases h12 : c = 12
  · rw [if_pos h12]
    exact gated_keeps_fade_GRStrobe s now
  rw [if_neg h12]
  by_cases h13 : c = 13
  · rw [if_pos h13]
    exact gated_keeps_fade_BGStrobe s now
  rw [if_neg h13]
  exact ⟨rfl, rfl⟩

theorem fadeAdjust_rise (s : ColourPatterns) (hf : s.upDownFade = false)
    (h : s.fadeSpeed < 5000) :
    s.fadeAdjust = { s with fadeSpeed := s.fadeSpeed + 1 } := by
  unfold ColourPatterns.fadeAdjust
  rw [hf, if_neg (by decide), if_pos h]

theorem fadeAdjust_top (s : ColourPatterns) (hf : s.upDownFade = false)
    (h : ¬ s.fadeSpeed < 5000) :
    s.fadeAdjust = { s with upDownFade := true } := by
  unfold ColourPatterns.fadeAdjust
  rw [hf, if_neg (by decide), if_neg h]

theorem fadeAdjust_fall (s : ColourPatterns) (hf : s.upDownFade = true)
    (h : s.fadeSpeed > 0) :
    s.fadeAdjust = { s with fadeSpeed := s.fadeSpeed - 1 } := by
  unfold ColourPatterns.fadeAdjust
  rw [hf, if_pos rfl, if_pos h]

theorem fadeAdjust_bottom (s : ColourPatterns) (hf : s.upDownFade = true)
    (h : ¬ s.fadeSpeed > 0) :
    s.fadeAdjust = { s with upDownFade := false } := by
  unfold ColourPatterns.fadeAdjust
  rw [hf, if_pos rfl, if_neg h]

/-- C16. Fade bounds: from a state with `0 ≤ fadeSpeed ≤ 5000`, after a call
`changeColours(c)` with any code and at any clock value `fadeSpeed` is again
within `0..5000`; a code other than 7 changes neither `fadeSpeed` nor
`upDownFade`; a Fade call flips `upDownFade` and keeps `fadeSpeed` exactly when
`fadeSpeed` is 5000 while rising (`upDownFade` false) or 0 while falling
(`upDownFade` true), and otherwise keeps the flag and moves `fadeSpeed` by
exactly 1, up while rising and down while falling. -/
theorem fade_bounds (s : ColourPatterns) (c now : Int)
    (h0 : 0 ≤ s.fadeSpeed) (h1 : s.fadeSpeed ≤ 5000) :
    0 ≤ (s.changeColours c now).state.fadeSpeed ∧
    (s.changeColours c now).state.fadeSpeed ≤ 5000 ∧
    (c ≠ 7 → (s.changeColours c now).state.fadeSpeed = s.fadeSpeed ∧
      (s.changeColours c now).state.upDownFade = s.upDownFade) ∧
    (c = 7 →
      (((s.upDownFade = false ∧ s.fadeSpeed = 5000) ∨
          (s.upDownFade = true ∧ s.fadeSpeed = 0)) →
        (s.changeColours c now).state.upDownFade = !s.upDownFade ∧
        (s.changeColours c now).state.fadeSpeed = s.fadeSpeed) ∧
      (¬ ((s.upDownFade = false ∧ s.fadeSpeed = 5000) ∨
          (s.upDownFade = true ∧ s.fadeSpeed = 0)) →
        (s.changeColours c now).state.upDownFade = s.upDownFade ∧
        (s.changeColours c now).state.fadeSpeed
          = if s.upDownFade then s.fadeSpeed - 1 else s.fadeSpeed + 1)) := by
  by_cases hc : c = 7
  · subst hc
    obtain ⟨e1, e2⟩ := changeColours_fade s now
    rw [e1, e2]
    refine ⟨?_, ?_, fun h => absurd rfl h, fun _ => ⟨?_, ?_⟩⟩
    · cases hf : s.upDownFade
      · by_cases hlt : s.fadeSpeed < 5000
        · rw [fadeAdjust_rise s hf hlt]
          show 0 ≤ s.fadeSpeed + 1
          omega
        · rw [fadeAdjust_top s hf hlt]
          exact h0
      · by_cases hgt : s.fadeSpeed > 0
        · rw [fadeAdjust_fall s hf hgt]
          show 0 ≤ s.fadeSpeed - 1
          omega
        · rw [fadeAdjust_bottom s hf hgt]
          exact h0
    · cases hf : s.upDownFade
      · by_cases hlt : s.fadeSpeed < 5000
        · rw [fadeAdjust_rise s hf hlt]
          show s.fadeSpeed + 1 ≤ 5000
          omega
        · rw [fadeAdjust_top s hf hlt]
          exact h1
      · by_cases hgt : s.fadeSpeed > 0
        · rw [fadeAdjust_fall s hf hgt]
          show s.fadeSpeed - 1 ≤ 5000
          omega
        · rw [fadeAdjust_bottom s hf hgt]
          exact h1
    · rintro (⟨hf, h5⟩ | ⟨hf, hz⟩)
      · rw [fadeAdjust_top s hf (by omega), hf]
        exact ⟨rfl, rfl⟩
      · rw [fadeAdjust_bottom s hf (by omega), hf]
        exact ⟨rfl, rfl⟩
    · intro hn
      cases hf : s.upDownFade
      · have hlt : s.fadeSpeed < 5000 := by
          by_contra hge
          exact hn (Or.inl ⟨hf, by omega⟩)
        rw [fadeAdjust_rise s hf hlt]
        exact ⟨hf, by rw [if_neg (by decide)]⟩
      · have hgt : s.fadeSpeed > 0 := by
          by_contra hle
          exact hn (Or.inr ⟨hf, by omega⟩)
        rw [fadeAdjust_fall s hf hgt]
        exact ⟨hf, by rw [if_pos rfl]⟩
  · obtain ⟨e1, e2⟩ := changeColours_not_fade s c now hc
    rw [e1, e2]
    exact ⟨h0, h1, fun _ => ⟨rfl, rfl⟩, fun h => absurd h hc⟩

/-- Witness for C16: a Fade call at the upper bound. -/
theorem fade_bounds_witness :
    0 ≤ (fadeTop.changeColours 7 250).state.fadeSpeed ∧
    (fadeTop.changeColours 7 250).state.fadeSpeed ≤ 5000 ∧
    ((7 : Int) ≠ 7 → (fadeTop.changeColours 7 250).state.fadeSpeed = fadeTop.fadeSpeed ∧
      (fadeTop.changeColours 7 250).state.upDownFade = fadeTop.upDownFade) ∧
    ((7 : Int) = 7 →
      (((fadeTop.upDownFade = false ∧ fadeTop.fadeSpeed = 5000) ∨
          (fadeTop.upDownFade = true ∧ fadeTop.fadeSpeed = 0)) →
        (fadeTop.changeColours 7 250).state.upDownFade = !fadeTop.upDownFade ∧
        (fadeTop.changeColours 7 250).state.fadeSpeed = fadeTop.fadeSpeed) ∧
      (¬ ((fadeTop.upDownFade = false ∧ fadeTop.fadeSpeed = 5000) ∨
          (fadeTop.upDownFade = true ∧ fadeTop.fadeSpeed = 0)) →
        (fadeTop.changeColours 7 250).state.upDownFade = fadeTop.upDownFade ∧
        (fadeTop.changeColours 7 250).state.fadeSpeed
          = if fadeTop.upDownFade then fadeTop.fadeSpeed - 1
            else fadeTop.fadeSpeed + 1)) :=
  fade_bounds fadeTop 7 250 (by decide) (by decide)

theorem fadeCourse_step (s : ColourPatterns) (n : Nat) (hn : n + 1 ≤ 14502)
    (h : (s.fadeSpeed, s.upDownFade) = fadeCourse n) :
    (s.fadeAdjust.fadeSpeed, s.fadeAdjust.upDownFade) = fadeCourse (n + 1) := by
  unfold fadeCourse at h ⊢
  by_cases c1 : n ≤ 4500
  · rw [if_pos c1] at h
    injection h with hs hf
    by_cases c2 : n + 1 ≤ 4500
    · rw [if_pos c2, fadeAdjust_rise s hf (by omega)]
      show (s.fadeSpeed + 1, s.upDownFade) = _
      rw [hs, hf]
      rw [Prod.mk.injEq]
      exact ⟨by push_cast; omega, rfl⟩
    · rw [if_neg c2, if_pos (by omega), fadeAdjust_top s hf (by omega)]
      show (s.fadeSpeed, true) = _
      rw [hs]
      rw [Prod.mk.injEq]
      exact ⟨by push_cast; omega, rfl⟩
  · rw [if_neg c1] at h
    by_cases c3 : n ≤ 9501
    · rw [if_pos c3] at h
      injection h with hs hf
      by_cases c4 : n + 1 ≤ 9501
      · rw [if_neg (by omega), if_pos c4, fadeAdjust_fall s hf (by omega)]
        show (s.fadeSpeed - 1, s.upDownFade) = _
        rw [hs, hf]
        rw [Prod.mk.injEq]
        exact ⟨by push_cast; omega, rfl⟩
      · rw [if_neg (by omega), if_neg c4, fadeAdjust_bottom s hf (by omega)]
        show (s.fadeSpeed, false) = _
        rw [hs]
        rw [Prod.mk.injEq]
        exact ⟨by push_cast; omega, rfl⟩
    · rw [if_neg c3] at h
      injection h with hs hf
      rw [if_neg (by omega), if_neg (by omega), fadeAdjust_rise s hf (by omega)]
      show (s.fadeSpeed + 1, s.upDownFade) = _
      rw [hs, hf]
      rw [Prod.mk.injEq]
      exact ⟨by push_cast; omega, rfl⟩

theorem renderAll_fadeCourse (ts : List Int) :
    ∀ (s : ColourPatterns) (n : Nat), n + ts.length ≤ 14502 →
      (s.fadeSpeed, s.upDownFade) = fadeCourse n →
      ((s.renderAll 7 ts).1.fadeSpeed, (s.renderAll 7 ts).1.upDownFade)
        = fadeCourse (n + ts.length) := by
  induction ts with
  | nil =>
    intro s n _ h
    exact h
  | cons t ts ih =>
    intro s n hn h
    simp only [List.length_cons] at hn
    have hstep := fadeCourse_step s n (by omega) h
    obtain ⟨e1, e2⟩ := changeColours_fade s t
    rw [← e1, ← e2] at hstep
    have := ih (s.changeColours 7 t).state (n + 1) (by omega) hstep
    simp only [ColourPatterns.renderAll, List.length_cons]
    rw [show n + (ts.length + 1) = n + 1 + ts.length by omega]
    exact this

/-- C17 (as amended). Fade oscillation from the constructed object
(`fadeSpeed = 500`, `upDownFade = false`): after `n` successive calls
`changeColours(7)`, at any clock values, `fadeSpeed` is `500 + n` for
`n ≤ 4500` (up from 500 to 5000), then `upDownFade` is set and `fadeSpeed` is
`9501 - n` for `4501 ≤ n ≤ 9501` (down from 5000 to 0), then `upDownFade` is
cleared and `fadeSpeed` is `n - 9502` for `9502 ≤ n ≤ 14502` (up from 0 to
5000): the direction reverses at each bound. -/
theorem fade_oscillation (ts : List Int) (h : ts.length ≤ 14502) :
    ((ColourPatterns.init.renderAll 7 ts).1.fadeSpeed,
      (ColourPatterns.init.renderAll 7 ts).1.upDownFade) = fadeCourse ts.length := by
  have := renderAll_fadeCourse ts ColourPatterns.init 0 (by omega) rfl
  rw [Nat.zero_add] at this
  exact this

/-- Witness for C17 (as amended): three calls. -/
theorem fade_oscillation_witness :
    ((ColourPatterns.init.renderAll 7 [0, 40, 700]).1.fadeSpeed,
      (ColourPatterns.init.renderAll 7 [0, 40, 700]).1.upDownFade)
      = fadeCourse [(0 : Int), 40, 700].length :=
  fade_oscillation [0, 40, 700] (by decide)

/-- C17, counterexample. The first call `changeColours(7)` on the constructed
object raises `fadeSpeed` from 500 to 501; it does not lower it. -/
theorem fade_oscillation_counterexample :
    ColourPatterns.init.fadeSpeed = 500 ∧ ColourPatterns.init.upDownFade = false ∧
    (ColourPatterns.init.changeColours 7 0).state.fadeSpeed = 501 ∧
    ¬ ((ColourPatterns.init.changeColours 7 0).state.fadeSpeed
        < ColourPatterns.init.fadeSpeed) := by
  decide

/-! ## C19: payloads beyond the capacity -/

/-- A payload with more than 10 keys makes the first loop of the decoder write
`timeline_keys[10]`: the call has no defined result. -/
theorem processTimelineData_overrun (s : TimelineManager) (doc : JsonDocument)
    (tn : String) (now : Int) (h : 10 < doc.keys.length) :
    processTimelineData s doc tn now = none := by
  cases hr : processTimelineData s doc tn now with
  | none => rfl
  | some r =>
    have c := processTimelineData_cursor s doc tn now r hr
    rcases c.2.2.2 with ⟨he, _⟩ | ⟨_, _, hle, _⟩
    · rw [he] at h
      simp at h
    · omega

/-- C19, the code at the failing inputs. The payloads with 51 and with 11 keys
are not decoded: storing the eleventh key writes `timeline_keys[10]`, outside
the array of 10 slots, so the call has no defined result and nothing is
truncated to 50 events. -/
theorem processTimelineData_beyond_capacity :
    fiftyOneDoc.keys.length = 51 ∧
    processTimelineData TimelineManager.init fiftyOneDoc "1" 0 = none ∧
    elevenDoc.keys.length = 11 ∧
    processTimelineData TimelineManager.init elevenDoc "1" 0 = none ∧
    storeKeys (elevenDoc.keys.take 10) 0 TimelineManager.init.timeline_keys ≠ none ∧
    storeKeys elevenDoc.keys 0 TimelineManager.init.timeline_keys = none := by
  refine ⟨rfl, ?_, rfl, ?_, ?_, ?_⟩
  · exact processTimelineData_overrun _ _ _ _ (by decide)
  · exact processTimelineData_overrun _ _ _ _ (by decide)
  · intro h
    have hs := storeKeys_spec (elevenDoc.keys.take 10) 0
      TimelineManager.init.timeline_keys (le_refl 0) (by decide)
    obtain ⟨tk2, e, _⟩ := hs
    rw [h] at e
    cases e
  · cases hr : storeKeys elevenDoc.keys 0 TimelineManager.init.timeline_keys with
    | none => rfl
    | some p =>
      obtain ⟨it, tk2⟩ := p
      have c := storeKeys_count elevenDoc.keys 0 _ it tk2 hr
      have h1 := c.1
      have h2 := (c.2 (by decide)).2
      have h3 : (elevenDoc.keys.length : Int) = 11 := by decide
      omega

/-! ## C20: decoding twice -/

/-- The effect of a successful decode on the two tables, for any keys: a slot
below the number of keys takes the values of its key unless the key is the
empty string, and every other slot keeps its contents. -/
theorem decode_effect (s : TimelineManager) (doc : JsonDocument)
    (tn : String) (now : Int)
    (hn1 : 1 ≤ doc.keys.length) (hn10 : doc.keys.length ≤ 10) :
    ∃ r, processTimelineData s doc tn now = some r ∧
      r.state.maxTimingsNum = doc.keys.length ∧
      (∀ (j : Fin 50) (k : String), doc.keys[j.val]? = some k →
        (cstr k ≠ [] → r.state.timings j = atol (cstr k) ∧
          r.state.colours j = toUint8 (doc.elem k 0)) ∧
        (cstr k = [] → r.state.timings j = s.timings j ∧
          r.state.colours j = s.colours j)) ∧
      (∀ j : Fin 50, doc.keys.length ≤ j.val →
        r.state.timings j = s.timings j ∧ r.state.colours j = s.colours j) := by
  obtain ⟨tk2, est, hget, _⟩ :=
    storeKeys_spec doc.keys 0 s.timeline_keys (le_refl 0) (by omega)
  have hlen : (0 : Int) + (doc.keys.length : Int) ≠ 0 := by omega
  have htn : ((0 : Int) + (doc.keys.length : Int)).toNat = doc.keys.length := by omega
  obtain ⟨s2, edl, hin, hout⟩ := decodeLoop_spec doc doc.keys.length 0
    { s with timeline_keys := tk2, maxTimingsNum := (0 : Int) + (doc.keys.length : Int) }
    (le_refl 0) (by omega)
  have hm : s2.maxTimingsNum = (0 : Int) + (doc.keys.length : Int) :=
    (decodeLoop_frame doc _ _ _ _ edl).2.1
  have hres : processTimelineData s doc tn now = some
      ⟨{ s2 with already_got_data := true,
                 playStartTime := toLong (toULong (now : Int)) }, none⟩ := by
    unfold processTimelineData
    rw [est]
    simp only []
    rw [if_neg hlen, htn, edl]
  refine ⟨_, hres, ?_, ?_, ?_⟩
  · show s2.maxTimingsNum = _
    rw [hm]
    omega
  · intro j k hjk
    have hj : j.val < doc.keys.length := by
      by_contra hc
      rw [List.getElem?_eq_none (by omega)] at hjk
      cases hjk
    have hrd := hget j.val k hjk
    exact hin j (by simp) (by simp; omega) k (by simpa using hrd)
  · intro j hj
    exact hout j (Or.inr (by simp; omega))

/-- C20. Idempotent decode: for every prior state and every payload of `n`
keys, `1 ≤ n ≤ 10`, decoding it and then decoding it again (at any clock
values) succeeds both times and leaves the same `maxTimingsNum = n` and the
same `timings[]` and `colours[]`, in every slot, after the second decode as
after the first. -/
theorem processTimelineData_idempotent (s : TimelineManager) (doc : JsonDocument)
    (tn1 tn2 : String) (now1 now2 : Int)
    (hn1 : 1 ≤ doc.keys.length) (hn10 : doc.keys.length ≤ 10) :
    ∃ r1 r2, processTimelineData s doc tn1 now1 = some r1 ∧
      processTimelineData r1.state doc tn2 now2 = some r2 ∧
      r1.state.maxTimingsNum = doc.keys.length ∧
      r2.state.maxTimingsNum = r1.state.maxTimingsNum ∧
      r2.state.timings = r1.state.timings ∧
      r2.state.colours = r1.state.colours := by
  obtain ⟨r1, e1, m1, in1, _⟩ := decode_effect s doc tn1 now1 hn1 hn10
  obtain ⟨r2, e2, m2, in2, out2⟩ := decode_effect r1.state doc tn2 now2 hn1 hn10
  have key : ∀ j : Fin 50, r2.state.timings j = r1.state.timings j ∧
      r2.state.colours j = r1.state.colours j := by
    intro j
    by_cases hj : j.val < doc.keys.length
    · have hk : doc.keys[j.val]? = some (doc.keys.get ⟨j.val, hj⟩) :=
        List.getElem?_eq_getElem hj
      by_cases hc : cstr (doc.keys.get ⟨j.val, hj⟩) = []
      · exact (in2 j _ hk).2 hc
      · have a := (in1 j _ hk).1 hc
        have b := (in2 j _ hk).1 hc
        exact ⟨by rw [a.1, b.1], by rw [a.2, b.2]⟩
    · exact out2 j (by omega)
  refine ⟨r1, r2, e1, e2, m1, by rw [m1, m2], ?_, ?_⟩
  · funext j
    exact (key j).1
  · funext j
    exact (key j).2

/-- Witness for C20: the example payload of the specification decoded twice. -/
theorem processTimelineData_idempotent_witness :
    ∃ r1 r2, processTimelineData TimelineManager.init specExampleDoc "1" 7000 = some r1 ∧
      processTimelineData r1.state specExampleDoc "1" 9000 = some r2 ∧
      r1.state.maxTimingsNum = specExampleDoc.keys.length ∧
      r2.state.maxTimingsNum = r1.state.maxTimingsNum ∧
      r2.state.timings = r1.state.timings ∧
      r2.state.colours = r1.state.colours :=
  processTimelineData_idempotent TimelineManager.init specExampleDoc "1" "1" 7000 9000
    (by decide) (by decide)

/-! ## Ticks inside the table -/

/-- The holding tick: with the cursor inside the table, a tick whose elapsed
time is below the first offset, or below both the offset at the cursor and the
next one, changes neither the signal, the cursor nor the epoch. -/
theorem tick_hold (s : TimelineManager) (now : Int) (tr tn : Int)
    (hplay : s.playing = true)
    (hrun : s.runNum ≤ s.maxTimingsNum - 2)
    (htr : readAt s.timings s.runNum = some tr)
    (htn : readAt s.timings (s.runNum + 1) = some tn)
    (hhold : elapsed now s.playStartTime < s.timings 0 ∨
      (elapsed now s.playStartTime < tr ∧ elapsed now s.playStartTime < tn)) :
    ∃ r, checkTimelineData s now = some r ∧ r.state.signal = s.signal ∧
      r.state.runNum = s.runNum ∧ r.state.playStartTime = s.playStartTime ∧
      r.ret = s.signal ∧ r.dispatched = [] := by
  by_cases hpos : 0 < tr
  · unfold checkTimelineData checkTimelineDataAt
    rw [if_pos hplay, wrapGuard_of_le s now hrun]
    simp only [htr, if_pos hpos]
    unfold timedStep
    simp only [htn]
    by_cases c0 : elapsed now s.playStartTime < s.timings 0
    · rw [if_pos c0]
      exact ⟨_, rfl, rfl, rfl, rfl, rfl, rfl⟩
    · have hgap : elapsed now s.playStartTime < tr ∧ elapsed now s.playStartTime < tn := by
        rcases hhold with h | h
        · exact absurd h c0
        · exact h
      rw [if_neg c0, if_neg (by omega), if_neg (by omega)]
      exact ⟨_, rfl, rfl, rfl, rfl, rfl, rfl⟩
  · rw [tick_stall s now tr hplay hrun htr (by omega)]
    exact ⟨_, rfl, rfl, rfl, rfl, rfl, rfl⟩

/-- A tick with the cursor at 0 and `timings[0] = 0` changes nothing. -/
theorem tick_zero_first (s : TimelineManager) (now : Int)
    (hrun : s.runNum = 0) (h2 : 2 ≤ s.maxTimingsNum) (hz : s.timings 0 = 0) :
    ∃ r, checkTimelineData s now = some r ∧ r.state = s ∧ r.ret = s.signal ∧
      r.dispatched = [] := by
  by_cases hplay : s.playing = true
  · have htr : readAt s.timings s.runNum = some 0 := by
      rw [hrun, readAt_zero, hz]
    rw [tick_stall s now 0 hplay (by omega) htr (le_refl 0)]
    exact ⟨_, rfl, rfl, rfl, rfl⟩
  · unfold checkTimelineData checkTimelineDataAt
    rw [if_neg hplay]
    exact ⟨_, rfl, rfl, rfl, rfl⟩

theorem runTicks_zero_first (ts : List Int) (s : TimelineManager)
    (hrun : s.runNum = 0) (h2 : 2 ≤ s.maxTimingsNum) (hz : s.timings 0 = 0) :
    ∃ tr, runTicks s ts = some tr ∧ tr.length = ts.length ∧
      ∀ r ∈ tr, r.state = s ∧ r.ret = s.signal ∧ r.dispatched = [] := by
  induction ts with
  | nil => exact ⟨[], rfl, rfl, fun r hr => absurd hr (List.not_mem_nil r)⟩
  | cons t ts ih =>
    obtain ⟨r, hr, hst, hret, hd⟩ := tick_zero_first s t hrun h2 hz
    obtain ⟨tr, htr, hlen, hall⟩ := ih
    refine ⟨r :: tr, ?_, ?_, ?_⟩
    · simp only [runTicks, hr, hst, htr, Option.map_some']
    · simp only [List.length_cons, hlen]
    · intro q hq
      rcases List.mem_cons.mp hq with hq | hq
      · subst hq
        exact ⟨hst, hret, hd⟩
      · exact hall q hq

/-- C23. Stall on a zero first offset: for a table of `N ≥ 2` events with
`timings[0] = 0` and the cursor at 0, every sequence of ticks, at any clock
readings, returns; every tick leaves `runNum = 0` and `signal` unchanged (the
whole object is unchanged), returns the stored signal and assigns no event's
colour. -/
theorem zero_first_offset_stalls (s : TimelineManager) (ts : List Int)
    (hrun : s.runNum = 0) (h2 : 2 ≤ s.maxTimingsNum) (hz : s.timings 0 = 0) :
    ∃ tr, runTicks s ts = some tr ∧ tr.length = ts.length ∧
      ∀ r ∈ tr, r.state.runNum = 0 ∧ r.state.signal = s.signal ∧ r.state = s ∧
        r.ret = s.signal ∧ r.dispatched = [] := by
  obtain ⟨tr, h, hlen, hall⟩ := runTicks_zero_first ts s hrun h2 hz
  refine ⟨tr, h, hlen, ?_⟩
  intro r hr
  obtain ⟨a, b, c⟩ := hall r hr
  exact ⟨by rw [a, hrun], by rw [a], a, b, c⟩

/-- Witness for C23: the table `0, 500, 1000` of the specification, polled at
0, 600 and 1100. -/
theorem zero_first_offset_stalls_witness :
    ∃ tr, runTicks (playingAt [0, 500, 1000] [0, 1, 2] 3 0 0 9) [0, 600, 1100] = some tr ∧
      tr.length = [(0 : Int), 600, 1100].length ∧
      ∀ r ∈ tr, r.state.runNum = 0 ∧
        r.state.signal = (playingAt [0, 500, 1000] [0, 1, 2] 3 0 0 9).signal ∧
        r.state = playingAt [0, 500, 1000] [0, 1, 2] 3 0 0 9 ∧
        r.ret = (playingAt [0, 500, 1000] [0, 1, 2] 3 0 0 9).signal ∧
        r.dispatched = [] :=
  zero_first_offset_stalls (playingAt [0, 500, 1000] [0, 1, 2] 3 0 0 9) [0, 600, 1100]
    (by decide) (by decide) (by decide)

/-! ## C24: the last event -/

/-- C26. Hold branches: in a playing state with `0 ≤ runNum ≤ maxTimingsNum - 2`
(so that `timings[runNum] = tr` and `timings[runNum + 1] = tn` are entries of the
table), a tick whose elapsed time is below `timings[0]`, or is at least
`timings[0]` but below both `tr` and `tn`, returns the stored signal and changes
neither `signal`, `runNum` nor `playStartTime`. -/
theorem checkTimelineData_hold (s : TimelineManager) (now : Int) (tr tn : Int)
    (hplay : s.playing = true)
    (hrun : s.runNum ≤ s.maxTimingsNum - 2)
    (htr : readAt s.timings s.runNum = some tr)
    (htn : readAt s.timings (s.runNum + 1) = some tn)
    (hhold : elapsed now s.playStartTime < s.timings 0 ∨
      (s.timings 0 ≤ elapsed now s.playStartTime ∧
        elapsed now s.playStartTime < tr ∧ elapsed now s.playStartTime < tn)) :
    ∃ r, checkTimelineData s now = some r ∧ r.state.signal = s.signal ∧
      r.state.runNum = s.runNum ∧ r.state.playStartTime = s.playStartTime ∧
      r.ret = s.signal := by
  have hh : elapsed now s.playStartTime < s.timings 0 ∨
      (elapsed now s.playStartTime < tr ∧ elapsed now s.playStartTime < tn) := by
    rcases hhold with h | h
    · exact Or.inl h
    · exact Or.inr h.2
  obtain ⟨r, h, a, b, c, d, _⟩ := tick_hold s now tr tn hplay hrun htr htn hh
  exact ⟨r, h, a, b, c, d⟩

/-- Witness for C26: the table `100, 200, 300` with the cursor at 1, polled 160
ms after the epoch (the gap case). -/
theorem checkTimelineData_hold_witness :
    ∃ r, checkTimelineData (playingAt [100, 200, 300] [1, 2, 3] 3 1 0 1) 160 = some r ∧
      r.state.signal = (playingAt [100, 200, 300] [1, 2, 3] 3 1 0 1).signal ∧
      r.state.runNum = (playingAt [100, 200, 300] [1, 2, 3] 3 1 0 1).runNum ∧
      r.state.playStartTime = (playingAt [100, 200, 300] [1, 2, 3] 3 1 0 1).playStartTime ∧
      r.ret = (playingAt [100, 200, 300] [1, 2, 3] 3 1 0 1).signal :=
  checkTimelineData_hold (playingAt [100, 200, 300] [1, 2, 3] 3 1 0 1) 160 200 300
    (by decide) (by decide) (by decide) (by decide)
    (Or.inr ⟨by decide, by decide, by decide⟩)

/-! ## C21: the elapsed time across wraparound of the clock -/

/-- The 32 bit `long` that `millis() - playStartTime` yields, in terms of the
unsigned difference of the two clock readings `now` and `p`. -/
theorem elapsed_of_readings (now p : Int) :
    ((now - p) % 4294967296 < 2147483648 →
      elapsed now (toLong p) = (now - p) % 4294967296) ∧
    (2147483648 ≤ (now - p) % 4294967296 →
      elapsed now (toLong p) = (now - p) % 4294967296 - 4294967296) := by
  unfold elapsed toLong toULong
  constructor <;> intro h <;> omega

/-- A tick that evaluates the timed body stores the elapsed time. -/
theorem tick_stores_elapsed (s : TimelineManager) (now : Int) (tr tn : Int) (c : Nat)
    (hplay : s.playing = true)
    (hrun : s.runNum ≤ s.maxTimingsNum - 2)
    (htr : readAt s.timings s.runNum = some tr) (hpos : 0 < tr)
    (htn : readAt s.timings (s.runNum + 1) = some tn)
    (hc : readAt s.colours s.runNum = some c) :
    ∃ r, checkTimelineData s now = some r ∧
      r.state.currentMillisTimeline = elapsed now s.playStartTime := by
  unfold checkTimelineData checkTimelineDataAt
  rw [if_pos hplay, wrapGuard_of_le s now hrun]
  simp only [htr, if_pos hpos]
  unfold timedStep
  simp only [htn, hc]
  by_cases c0 : elapsed now s.playStartTime < s.timings 0
  · rw [if_pos c0]
    exact ⟨_, rfl, rfl⟩
  · rw [if_neg c0]
    by_cases c1 : elapsed now s.playStartTime ≥ tr
    · rw [if_pos c1]
      by_cases c2 : elapsed now s.playStartTime ≤ tn
      · rw [if_pos c2]
        exact ⟨_, rfl, rfl⟩
      · rw [if_neg c2, if_pos (by omega)]
        exact ⟨_, rfl, rfl⟩
    · rw [if_neg c1]
      by_cases c3 : elapsed now s.playStartTime ≥ tn
      · rw [if_pos c3]
        exact ⟨_, rfl, rfl⟩
      · rw [if_neg c3]
        exact ⟨_, rfl, rfl⟩

/-- C21 (as amended). Clock wraparound in the scheduler: for clock readings `p`
(held in `playStartTime`, as a `long`) and `now`, a tick that
reaches the comparisons (playing, cursor inside the table, positive offset at
the cursor) compares the offsets with `currentMillisTimeline`, the unsigned
difference `(now - p) mod 2^32` converted to the 32 bit `long`: that difference
itself when it is below `2^31`, also across wraparound of the millisecond
counter, and the difference minus `2^32`, a negative value, otherwise. -/
theorem checkTimelineData_elapsed (s : TimelineManager) (now p : Int)
    (tr tn : Int) (c : Nat)
    (hplay : s.playing = true)
    (hrun : s.runNum ≤ s.maxTimingsNum - 2)
    (htr : readAt s.timings s.runNum = some tr) (hpos : 0 < tr)
    (htn : readAt s.timings (s.runNum + 1) = some tn)
    (hc : readAt s.colours s.runNum = some c)
    (hstart : s.playStartTime = toLong p) :
    ∃ r, checkTimelineData s now = some r ∧
      r.state.currentMillisTimeline = elapsed now s.playStartTime ∧
      ((now - p) % 4294967296 < 2147483648 →
        r.state.currentMillisTimeline = (now - p) % 4294967296) ∧
      (2147483648 ≤ (now - p) % 4294967296 →
        r.state.currentMillisTimeline = (now - p) % 4294967296 - 4294967296) := by
  obtain ⟨r, h, he⟩ := tick_stores_elapsed s now tr tn c hplay hrun htr hpos htn hc
  have hw := elapsed_of_readings now p
  rw [← hstart, ← he] at hw
  exact ⟨r, h, he, hw.1, hw.2⟩

/-- Witness for C21 (as amended): the epoch is the reading `2^32 - 100`, held as
the `long` -100, and the counter has wrapped to 50: the elapsed time is 150. -/
theorem checkTimelineData_elapsed_witness :
    ∃ r, checkTimelineData (playingAt [100, 200, 300] [1, 2, 3] 3 0 (-100) 9) 50 = some r ∧
      r.state.currentMillisTimeline
        = elapsed 50 (playingAt [100, 200, 300] [1, 2, 3] 3 0 (-100) 9).playStartTime ∧
      (((50 : Int) - 4294967196) % 4294967296 < 2147483648 →
        r.state.currentMillisTimeline = ((50 : Int) - 4294967196) % 4294967296) ∧
      (2147483648 ≤ ((50 : Int) - 4294967196) % 4294967296 →
        r.state.currentMillisTimeline
          = ((50 : Int) - 4294967196) % 4294967296 - 4294967296) :=
  checkTimelineData_elapsed (playingAt [100, 200, 300] [1, 2, 3] 3 0 (-100) 9) 50
    4294967196 100 200 1 (by decide) (by decide) (by decide) (by decide) (by decide)
    (by decide) (by decide)

/-- C21, counterexample. The epoch is the clock reading 0 and the tick is taken
at the reading `2^31 = 2147483648`: the unsigned difference is `2147483648`,
but the value compared with the offsets is `-2147483648`; it is below
`timings[0] = 100`, so the tick holds with the cursor at 0, although the
unsigned difference is beyond every offset of the table `100, 200, 300`. -/
theorem checkTimelineData_elapsed_counterexample :
    ∃ r, (playingAt [100, 200, 300] [1, 2, 3] 3 0 0 9).playStartTime = toLong 0 ∧
      checkTimelineData (playingAt [100, 200, 300] [1, 2, 3] 3 0 0 9) 2147483648 = some r ∧
      ((2147483648 : Int) - 0) % 4294967296 = 2147483648 ∧
      r.state.currentMillisTimeline = -2147483648 ∧
      r.state.currentMillisTimeline ≠ ((2147483648 : Int) - 0) % 4294967296 ∧
      r.state.runNum = 0 := by
  refine ⟨_, by decide, rfl, by decide, by decide, by decide, rfl⟩

/-! ## C22: the idle scheduler -/

/-- An object into which no table has been loaded has its cursor at 0, the
constructed table size, a zero first offset, and the constructed signal 0. -/
theorem unloaded_inv (s : TimelineManager) (h : Unloaded s) :
    s.runNum = 0 ∧ s.maxTimingsNum = 50 ∧ s.timings 0 = 0 ∧ s.signal = 0 := by
  induction h with
  | init => exact ⟨rfl, rfl, rfl, rfl⟩
  | tick now _ hr ih =>
    obtain ⟨a, b, c, d⟩ := ih
    obtain ⟨r2, g, gst, _⟩ := tick_zero_first _ now a (by omega) c
    rw [hr] at g
    injection g with g
    rw [g, gst]
    exact ⟨a, b, c, d⟩
  | setPlaying b _ ih => exact ih
  | setAlreadyGotData b _ ih => exact ih
  | setToken b _ ih => exact ih

/-- C22 (as amended). Idle scheduler: when no table has been loaded since
construction, or `playing` is false, `checkTimelineData` returns the stored
`signal` and changes nothing; on an object without a loaded table that value is
0, the code of Red. -/
theorem checkTimelineData_idle (s : TimelineManager) (now : Int)
    (hidle : Unloaded s ∨ s.playing = false) :
    ∃ r, checkTimelineData s now = some r ∧ r.state = s ∧ r.ret = s.signal ∧
      (Unloaded s → r.ret = 0) := by
  have key : ∃ r, checkTimelineData s now = some r ∧ r.state = s ∧ r.ret = s.signal := by
    rcases hidle with h | h
    · obtain ⟨a, b, c, _⟩ := unloaded_inv s h
      obtain ⟨r, g, gst, gret, _⟩ := tick_zero_first s now a (by omega) c
      exact ⟨r, g, gst, gret⟩
    · unfold checkTimelineData checkTimelineDataAt
      rw [if_neg (by rw [h]; decide)]
      exact ⟨_, rfl, rfl, rfl⟩
  obtain ⟨r, g, gst, gret⟩ := key
  refine ⟨r, g, gst, gret, ?_⟩
  intro hu
  rw [gret]
  exact (unloaded_inv s hu).2.2.2

/-- Witness for C22 (as amended): the constructed object. -/
theorem checkTimelineData_idle_witness :
    ∃ r, checkTimelineData TimelineManager.init 1234 = some r ∧
      r.state = TimelineManager.init ∧ r.ret = TimelineManager.init.signal ∧
      (Unloaded TimelineManager.init → r.ret = 0) :=
  checkTimelineData_idle TimelineManager.init 1234 (Or.inl Unloaded.init)

/-- C22, counterexample. (i) The constructed object, into which no table has
been loaded: the tick returns 0, one of the codes 0..13, and `changeColours`
renders it as Red (red channel on), not as Off.  (ii) The object holding the
table `100, 200, 300` with the stored signal 1, after `setPlaying(false)`: the
tick returns 1, the code of Green. -/
theorem checkTimelineData_idle_counterexample :
    (∃ r, checkTimelineData TimelineManager.init 0 = some r ∧ r.ret = 0 ∧
      (ColourPatterns.init.changeColours (r.ret : Int) 0).writes = ColourPatterns.Red ∧
      (ColourPatterns.init.changeColours (r.ret : Int) 0).writes ≠ ColourPatterns.Off ∧
      (Leds.apply ⟨false, false, false⟩
        (ColourPatterns.init.changeColours (r.ret : Int) 0).writes).red = true) ∧
    (∃ r, checkTimelineData
        (setPlaying (playingAt [100, 200, 300] [1, 2, 3] 3 1 0 1) false) 150 = some r ∧
      r.ret = 1 ∧
      (ColourPatterns.init.changeColours (r.ret : Int) 0).writes = ColourPatterns.Green ∧
      (ColourPatterns.init.changeColours (r.ret : Int) 0).writes ≠ ColourPatterns.Off) := by
  refine ⟨⟨_, rfl, rfl, by decide, by decide, by decide⟩, ⟨_, rfl, rfl, by decide, by decide⟩⟩

/-! ## C27, C28: the gate of the interval-driven patterns -/

/-- The gate `currentMillis - previousMillis >= interval` compares the
difference of the clock value and `previousMillis` modulo `2^32`. -/
theorem gate_diff (now p : Int) :
    toULong (toULong now - p) = (now - p) % 4294967296 := by
  unfold toULong
  omega

theorem rgbStrobe_gate (s : ColourPatterns) (now : Int)
    (h3 : 0 ≤ s.threeWay ∧ s.threeWay ≤ 2) :
    ((now - s.previousMillis) % 4294967296 < s.interval →
      s.RGBStrobe now = ⟨s, []⟩) ∧
    (s.interval ≤ (now - s.previousMillis) % 4294967296 →
      (s.RGBStrobe now).writes ∈ colourCalls ∧
      (s.RGBStrobe now).state
        = { s with previousMillis := toULong now,
                   threeWay := if s.threeWay + 1 > 2 then 0 else s.threeWay + 1 }) := by
  unfold ColourPatterns.RGBStrobe
  simp only []
  rw [gate_diff]
  constructor
  · intro h
    rw [if_neg (by omega)]
  · intro h
    rw [if_pos (by omega)]
    refine ⟨?_, rfl⟩
    show (if s.threeWay = 0 then ColourPatterns.Red
      else if s.threeWay = 1 then ColourPatterns.Green
      else if s.threeWay = 2 then ColourPatterns.Blue
      else []) ∈ colourCalls
    have : s.threeWay = 0 ∨ s.threeWay = 1 ∨ s.threeWay = 2 := by omega
    rcases this with e | e | e <;> rw [e] <;> decide

theorem rainbow_gate (s : ColourPatterns) (now : Int)
    (h5 : 0 ≤ s.rainbowWay ∧ s.rainbowWay ≤ 5) :
    ((now - s.previousMillis) % 4294967296 < s.interval →
      s.Rainbow now = ⟨s, []⟩) ∧
    (s.interval ≤ (now - s.previousMillis) % 4294967296 →
      (s.Rainbow now).writes ∈ colourCalls ∧
      (s.Rainbow now).state
        = { s with previousMillis := toULong now,
                   rainbowWay := if s.rainbowWay + 1 > 5 then 0 else s.rainbowWay + 1 }) := by
  unfold ColourPatterns.Rainbow
  simp only []
  rw [gate_diff]
  constructor
  · intro h
    rw [if_neg (by omega)]
  · intro h
    rw [if_pos (by omega)]
    refine ⟨?_, rfl⟩
    show (if s.rainbowWay = 0 then ColourPatterns.Red
      else if s.rainbowWay = 1 then ColourPatterns.Green
      else if s.rainbowWay = 2 then ColourPatterns.Blue
      else if s.rainbowWay = 3 then ColourPatterns.Cyan
      else if s.rainbowWay = 4 then ColourPatterns.Yellow
      else if s.rainbowWay = 5 then ColourPatterns.Magenta
      else []) ∈ colourCalls
    have : s.rainbowWay = 0 ∨ s.rainbowWay = 1 ∨ s.rainbowWay = 2 ∨ s.rainbowWay = 3 ∨
        s.rainbowWay = 4 ∨ s.rainbowWay = 5 := by omega
    rcases this with e | e | e | e | e | e <;> rw [e] <;> decide

theorem halfstrobe_gate (s : ColourPatterns) (now : Int) :
    ((now - s.previousMillis) % 4294967296 < s.interval →
      s.Halfstrobe now = ⟨s, []⟩) ∧
    (s.interval ≤ (now - s.previousMillis) % 4294967296 →
      (s.Halfstrobe now).writes
        = (if s.ledState = 0 then ColourPatterns.Red else ColourPatterns.Blue) ∧
      (s.Halfstrobe now).state
        = { s with previousMillis := toULong now,
                   ledState := if s.ledState = 0 then 1 else 0 }) := by
  unfold ColourPatterns.Halfstrobe
  simp only []
  rw [gate_diff]
  constructor
  · intro h
    rw [if_neg (by omega)]
  · intro h
    rw [if_pos (by omega)]
    by_cases e : s.ledState = 0
    · rw [if_pos e, if_pos e, if_pos e]
      exact ⟨rfl, rfl⟩
    · rw [if_neg e, if_neg e, if_neg e]
      exact ⟨rfl, rfl⟩

theorem grStrobe_gate (s : ColourPatterns) (now : Int) :
    ((now - s.previousMillis) % 4294967296 < s.interval →
      s.GRStrobe now = ⟨s, []⟩) ∧
    (s.interval ≤ (now - s.previousMillis) % 4294967296 →
      (s.GRStrobe now).writes
        = (if s.ledState = 0 then ColourPatterns.Green else ColourPatterns.Red) ∧
      (s.GRStrobe now).state
        = { s with previousMillis := toULong now,
                   ledState := if s.ledState = 0 then 1 else 0 }) := by
  unfold ColourPatterns.GRStrobe
  simp only []
  rw [gate_diff]
  constructor
  · intro h
    rw [if_neg (by omega)]
  · intro h
    rw [if_pos (by omega)]
    by_cases e : s.ledState = 0
    · rw [if_pos e, if_pos e, if_pos e]
      exact ⟨rfl, rfl⟩
    · rw [if_neg e, if_neg e, if_neg e]
      exact ⟨rfl, rfl⟩

theorem bgStrobe_gate (s : ColourPatterns) (now : Int) :
    ((now - s.previousMillis) % 4294967296 < s.interval →
      s.BGStrobe now = ⟨s, []⟩) ∧
    (s.interval ≤ (now - s.previousMillis) % 4294967296 →
      (s.BGStrobe now).writes
        = (if s.ledState = 0 then ColourPatterns.Blue else ColourPatterns.Green) ∧
      (s.BGStrobe now).state
        = { s with previousMillis := toULong now,
                   ledState := if s.ledState = 0 then 1 else 0 }) := by
  unfold ColourPatterns.BGStrobe
  simp only []
  rw [gate_diff]
  constructor
  · intro h
    rw [if_neg (by omega)]
  · intro h
    rw [if_pos (by omega)]
    by_cases e : s.ledState = 0
    · rw [if_pos e, if_pos e, if_pos e]
      exact ⟨rfl, rfl⟩
    · rw [if_neg e, if_neg e, if_neg e]
      exact ⟨rfl, rfl⟩

/-- C28. The gate of the interval-driven patterns: for each code `c` in
`9..13`, every object whose phase indices are in range
(`0 ≤ threeWay ≤ 2`, `0 ≤ rainbowWay ≤ 5`, as the constructor and every call
leave them) and every clock value `now`: when
`(now - previousMillis) mod 2^32 < interval`, `changeColours(c)` writes no pin
and leaves the object unchanged; when that difference is at least `interval`,
the call makes the writes of exactly one colour function, sets `previousMillis`
to the reading `now mod 2^32` (`now` itself for a 32 bit reading), keeps
`interval`, `fadeSpeed` and `upDownFade`, and leaves the phase indices in
range. -/
theorem changeColours_gate (s : ColourPatterns) (c now : Int)
    (hc : c = 9 ∨ c = 10 ∨ c = 11 ∨ c = 12 ∨ c = 13)
    (h3 : 0 ≤ s.threeWay ∧ s.threeWay ≤ 2)
    (h5 : 0 ≤ s.rainbowWay ∧ s.rainbowWay ≤ 5) :
    ((now - s.previousMillis) % 4294967296 < s.interval →
      s.changeColours c now = ⟨s, []⟩) ∧
    (s.interval ≤ (now - s.previousMillis) % 4294967296 →
      (s.changeColours c now).writes ∈ colourCalls ∧
      (s.changeColours c now).state.previousMillis = now % 4294967296 ∧
      ((0 ≤ now ∧ now < 4294967296) → (s.changeColours c now).state.previousMillis = now) ∧
      (s.changeColours c now).state.interval = s.interval ∧
      (s.changeColours c now).state.fadeSpeed = s.fadeSpeed ∧
      (s.changeColours c now).state.upDownFade = s.upDownFade ∧
      0 ≤ (s.changeColours c now).state.threeWay ∧
      (s.changeColours c now).state.threeWay ≤ 2 ∧
      0 ≤ (s.changeColours c now).state.rainbowWay ∧
      (s.changeColours c now).state.rainbowWay ≤ 5) := by
  have hnow : (0 ≤ now ∧ now < 4294967296) → toULong now = now := by
    intro h
    unfold toULong
    omega
  have two : ∀ a b : List PinWrite, a ∈ colourCalls → b ∈ colourCalls →
      (if s.ledState = 0 then a else b) ∈ colourCalls := by
    intro a b ha hb
    by_cases e : s.ledState = 0
    · rw [if_pos e]
      exact ha
    · rw [if_neg e]
      exact hb
  rcases hc with rfl | rfl | rfl | rfl | rfl
  · have e : s.changeColours 9 now = s.RGBStrobe now := rfl
    rw [e]
    obtain ⟨hclosed, hopen⟩ := rgbStrobe_gate s now h3
    refine ⟨hclosed, fun h => ?_⟩
    obtain ⟨hw, hst⟩ := hopen h
    rw [hst]
    refine ⟨hw, rfl, hnow, rfl, rfl, rfl, ?_, ?_, h5.1, h5.2⟩
    · show 0 ≤ (if s.threeWay + 1 > 2 then 0 else s.threeWay + 1)
      split <;> omega
    · show (if s.threeWay + 1 > 2 then 0 else s.threeWay + 1) ≤ 2
      split <;> omega
  · have e : s.changeColours 10 now = s.Rainbow now := rfl
    rw [e]
    obtain ⟨hclosed, hopen⟩ := rainbow_gate s now h5
    refine ⟨hclosed, fun h => ?_⟩
    obtain ⟨hw, hst⟩ := hopen h
    rw [hst]
    refine ⟨hw, rfl, hnow, rfl, rfl, rfl, h3.1, h3.2, ?_, ?_⟩
    · show 0 ≤ (if s.rainbowWay + 1 > 5 then 0 else s.rainbowWay + 1)
      split <;> omega
    · show (if s.rainbowWay + 1 > 5 then 0 else s.rainbowWay + 1) ≤ 5
      split <;> omega
  · have e : s.changeColours 11 now = s.Halfstrobe now := rfl
    rw [e]
    obtain ⟨hclosed, hopen⟩ := halfstrobe_gate s now
    refine ⟨hclosed, fun h => ?_⟩
    obtain ⟨hw, hst⟩ := hopen h
    rw [hst, hw]
    exact ⟨two _ _ (by decide) (by decide), rfl, hnow, rfl, rfl, rfl,
      h3.1, h3.2, h5.1, h5.2⟩
  · have e : s.changeColours 12 now = s.GRStrobe now := rfl
    rw [e]
    obtain ⟨hclosed, hopen⟩ := grStrobe_gate s now
    refine ⟨hclosed, fun h => ?_⟩
    obtain ⟨hw, hst⟩ := hopen h
    rw [hst, hw]
    exact ⟨two _ _ (by decide) (by decide), rfl, hnow, rfl, rfl, rfl,
      h3.1, h3.2, h5.1, h5.2⟩
  · have e : s.changeColours 13 now = s.BGStrobe now := rfl
    rw [e]
    obtain ⟨hclosed, hopen⟩ := bgStrobe_gate s now
    refine ⟨hclosed, fun h => ?_⟩
    obtain ⟨hw, hst⟩ := hopen h
    rw [hst, hw]
    exact ⟨two _ _ (by decide) (by decide), rfl, hnow, rfl, rfl, rfl,
      h3.1, h3.2, h5.1, h5.2⟩

/-- Witness for C28: the constructed object and code 9 at the clock value 40
(gate closed) and, second conjunct, beyond the interval. -/
theorem changeColours_gate_witness :
    ((40 - ColourPatterns.init.previousMillis) % 4294967296 < ColourPatterns.init.interval →
      ColourPatterns.init.changeColours 9 40 = ⟨ColourPatterns.init, []⟩) ∧
    (ColourPatterns.init.interval ≤ (40 - ColourPatterns.init.previousMillis) % 4294967296 →
      (ColourPatterns.init.changeColours 9 40).writes ∈ colourCalls ∧
      (ColourPatterns.init.changeColours 9 40).state.previousMillis = 40 % 4294967296 ∧
      ((0 ≤ (40 : Int) ∧ (40 : Int) < 4294967296) →
        (ColourPatterns.init.changeColours 9 40).state.previousMillis = 40) ∧
      (ColourPatterns.init.changeColours 9 40).state.interval = ColourPatterns.init.interval ∧
      (ColourPatterns.init.changeColours 9 40).state.fadeSpeed
        = ColourPatterns.init.fadeSpeed ∧
      (ColourPatterns.init.changeColours 9 40).state.upDownFade
        = ColourPatterns.init.upDownFade ∧
      0 ≤ (ColourPatterns.init.changeColours 9 40).state.threeWay ∧
      (ColourPatterns.init.changeColours 9 40).state.threeWay ≤ 2 ∧
      0 ≤ (ColourPatterns.init.changeColours 9 40).state.rainbowWay ∧
      (ColourPatterns.init.changeColours 9 40).state.rainbowWay ≤ 5) :=
  changeColours_gate ColourPatterns.init 9 40 (Or.inl rfl) (by decide) (by decide)

/-- C27. Phase resumes across the two-colour strobes: from `ledState = LOW`,
with the gate open at `now1`, code 11 writes Red and sets `ledState = HIGH`,
code 12 writes Green and code 13 writes Blue (their first colours); after that
Halfstrobe step, at every clock value `now2` at which the gate is open again,
code 12 writes Red and code 13 writes Green (their second colours), and each
sets `ledState` back to `LOW`. -/
theorem strobes_share_ledState (s : ColourPatterns) (now1 now2 : Int)
    (hled : s.ledState = 0)
    (hg1 : s.interval ≤ (now1 - s.previousMillis) % 4294967296)
    (hg2 : s.interval ≤ (now2 - now1 % 4294967296) % 4294967296) :
    (s.changeColours 11 now1).writes = ColourPatterns.Red ∧
    (s.changeColours 11 now1).state.ledState = 1 ∧
    (s.changeColours 12 now1).writes = ColourPatterns.Green ∧
    (s.changeColours 13 now1).writes = ColourPatterns.Blue ∧
    ((s.changeColours 11 now1).state.changeColours 12 now2).writes = ColourPatterns.Red ∧
    ((s.changeColours 11 now1).state.changeColours 12 now2).state.ledState = 0 ∧
    ((s.changeColours 11 now1).state.changeColours 13 now2).writes = ColourPatterns.Green ∧
    ((s.changeColours 11 now1).state.changeColours 13 now2).state.ledState = 0 := by
  have e11 : s.changeColours 11 now1 = s.Halfstrobe now1 := rfl
  have e12 : s.changeColours 12 now1 = s.GRStrobe now1 := rfl
  have e13 : s.changeColours 13 now1 = s.BGStrobe now1 := rfl
  obtain ⟨hw11, hs11⟩ := (halfstrobe_gate s now1).2 hg1
  obtain ⟨hw12, _⟩ := (grStrobe_gate s now1).2 hg1
  obtain ⟨hw13, _⟩ := (bgStrobe_gate s now1).2 hg1
  rw [if_pos hled] at hw11 hw12 hw13
  rw [if_pos hled] at hs11
  rw [e11, e12, e13, hw11, hw12, hw13, hs11]
  generalize hs1 : ({ s with previousMillis := toULong now1, ledState := 1 } : ColourPatterns)
    = s1
  have hl1 : s1.ledState = 1 := by rw [← hs1]
  have hp1 : s1.previousMillis = now1 % 4294967296 := by rw [← hs1]; rfl
  have hi1 : s1.interval = s.interval := by rw [← hs1]
  have hgate : s1.interval ≤ (now2 - s1.previousMillis) % 4294967296 := by
    rw [hi1, hp1]
    exact hg2
  have f12 : s1.changeColours 12 now2 = s1.GRStrobe now2 := rfl
  have f13 : s1.changeColours 13 now2 = s1.BGStrobe now2 := rfl
  obtain ⟨gw12, gs12⟩ := (grStrobe_gate s1 now2).2 hgate
  obtain ⟨gw13, gs13⟩ := (bgStrobe_gate s1 now2).2 hgate
  have hne : ¬ s1.ledState = 0 := by rw [hl1]; decide
  rw [if_neg hne] at gw12 gw13 gs12 gs13
  rw [f12, f13, gw12, gw13, gs12, gs13]
  exact ⟨rfl, hl1, rfl, rfl, rfl, rfl, rfl, rfl⟩

/-- Witness for C27: the constructed object, with steps at 100 and 200. -/
theorem strobes_share_ledState_witness :
    (ColourPatterns.init.changeColours 11 100).writes = ColourPatterns.Red ∧
    (ColourPatterns.init.changeColours 11 100).state.ledState = 1 ∧
    (ColourPatterns.init.changeColours 12 100).writes = ColourPatterns.Green ∧
    (ColourPatterns.init.changeColours 13 100).writes = ColourPatterns.Blue ∧
    ((ColourPatterns.init.changeColours 11 100).state.changeColours 12 200).writes
      = ColourPatterns.Red ∧
    ((ColourPatterns.init.changeColours 11 100).state.changeColours 12 200).state.ledState
      = 0 ∧
    ((ColourPatterns.init.changeColours 11 100).state.changeColours 13 200).writes
      = ColourPatterns.Green ∧
    ((ColourPatterns.init.changeColours 11 100).state.changeColours 13 200).state.ledState
      = 0 :=
  strobes_share_ledState ColourPatterns.init 100 200 (by decide) (by decide) (by decide)

end MagicPoi
